import Mathlib

/-!
# SSZ codec of the eth2 record types and the deposit command

Shallow embedding of the generated encode / decode / size / hash-tree-root
methods of `DepositDataNoSignature`, `DepositData`, `SigningRoot` and
`VoluntaryExit`, together with the functions that these methods call in the
`fastssz` runtime library (`ssz.MarshalSSZ`, `ssz.MarshalUint64`,
`ssz.UnmarshallUint64`, `ssz.HashWithDefaultHasher` and the methods of `ssz.Hasher`).
The library (`github.com/ferranbt/fastssz`) and Go's `encoding/binary` are
third-party dependencies of the repository; namespace `Ssz` models the
functions used after the source of the library. The hash
function of the hasher is a parameter (`HashFn`); SHA-256, the library's default,
is given as one instance. `ssz.HashWithDefaultHasher` is given on a fresh hasher
and, as `HashWithDefaultHasherIn`, with the state of the library's hasher pool
explicit; the two agree in every state the pool can reach
(`HashWithDefaultHasherIn_poolAfter`).

Namespace `Deposit` embeds the command `makeDeposit` of
`rocketpool-cli/deposit/make.go` as a function from the answers of its
collaborators (services, API packages, prompts) to the trace of calls it makes.
Namespace `Rocketpool` embeds the network calls of the daemon client
(`shared/services/rocketpool/network.go`); `callAPI` and `json.Unmarshal` are
arguments.

Conventions
* a byte is a natural number below 256, a `uint64` a natural number below `2 ^ 64`;
* a Go byte slice that is only read (`buf`, `dst`, the hasher buffer) is the list
  of its bytes; a record field, whose capacity the decoder inspects, is a `Slice`;
* a Go method with results `(x, err)` returns the pair, `err` being `none` for `nil`;
* a method that mutates its receiver returns the receiver's new state.
-/

namespace Ssz

/-- Errors of the `fastssz` runtime that the generated code can return:
`ErrBytesLength` (a byte field of the wrong length), `ErrSize` (a decode input of
the wrong length) and the error of `Hasher.HashRoot` when the hasher buffer does
not hold exactly one chunk. -/
inductive SszError where
  | ErrBytesLength
  | ErrSize
  | ErrHashRootSize
  deriving DecidableEq, Repr

/-- Go byte slice seen as a value: its contents and its capacity (`len ≤ cap`). -/
structure Slice where
  data : List Nat
  cap : Nat
  len_le_cap : data.length ≤ cap

/-- Go `len(s)`. -/
def Slice.len (s : Slice) : Nat := s.data.length

/-- Go nil slice, the zero value of a `[]byte` field. -/
def Slice.nil : Slice := ⟨[], 0, Nat.le_refl 0⟩

/-- Go `make([]byte, 0, n)`. -/
def Slice.make (n : Nat) : Slice := ⟨[], n, Nat.zero_le n⟩

/-- Go `append(s, xs...)`: the contents are extended; the capacity is kept when
the new length fits and is otherwise raised to the new length (the Go runtime may
round it up further, which no code here observes). -/
def Slice.append (s : Slice) (xs : List Nat) : Slice :=
  ⟨s.data ++ xs, max s.cap (s.data.length + xs.length), by
    rw [List.length_append]; exact Nat.le_max_right _ _⟩

/-- Slice with the given contents and exactly fitting capacity. -/
def Slice.ofList (xs : List Nat) : Slice := ⟨xs, xs.length, Nat.le_refl _⟩

/-- Go slice expression `buf[lo:hi]` on the contents of `buf`. -/
def sub (buf : List Nat) (lo hi : Nat) : List Nat := (buf.take hi).drop lo

/-- The eight bytes written by `binary.LittleEndian.PutUint64`: byte `k` is
`byte(v >> (8 * k))`. -/
def putUint64 (v : Nat) : List Nat :=
  [v % 256, (v >>> 8) % 256, (v >>> 16) % 256, (v >>> 24) % 256,
   (v >>> 32) % 256, (v >>> 40) % 256, (v >>> 48) % 256, (v >>> 56) % 256]

/-- Library function `ssz.MarshalUint64(dst, i)`: appends the little-endian bytes of `i`. -/
def MarshalUint64 (dst : List Nat) (i : Nat) : List Nat := dst ++ putUint64 i

/-- Library function `ssz.UnmarshallUint64(src)`, that is `binary.LittleEndian.Uint64`:
`b[0] | b[1]<<8 | ... | b[7]<<56` (always called on an 8-byte span). -/
def UnmarshallUint64 (src : List Nat) : Nat :=
  src.getD 0 0 ||| (src.getD 1 0 <<< 8) ||| (src.getD 2 0 <<< 16) ||| (src.getD 3 0 <<< 24) |||
  (src.getD 4 0 <<< 32) ||| (src.getD 5 0 <<< 40) ||| (src.getD 6 0 <<< 48) |||
  (src.getD 7 0 <<< 56)

/-- Spec-side reading of "the 8 little-endian bytes of `v`": byte `k` is
`v / 256 ^ k % 256`. -/
def LE64 (v : Nat) : List Nat := (List.range 8).map (fun k => v / 256 ^ k % 256)

/-- Spec-side reading of "the little-endian value of a byte sequence":
`b₀ + 256 * b₁ + 256² * b₂ + ...`. -/
def leValue : List Nat → Nat
  | [] => 0
  | b :: bs => b + 256 * leValue bs

/-- The `n` low little-endian bytes of `v`, low byte first. -/
def leBytes : Nat → Nat → List Nat
  | 0, _ => []
  | n + 1, v => v % 256 :: leBytes n (v / 256)

/-- The 256-bit hash primitive of the hasher (the library's `HashFn`, SHA-256 by
default): it maps the 64 bytes of a pair of chunks to one 32-byte chunk. It is
kept abstract; the result has the length of Go's `[32]byte`. -/
structure HashFn where
  sum : List Nat → List Nat
  sum_length : ∀ x, (sum x).length = 32

/-- A collision of the hash primitive: two different 64-byte inputs with the same
digest. -/
def HashFn.Collision (H : HashFn) : Prop :=
  ∃ x y : List Nat, x.length = 64 ∧ y.length = 64 ∧ x ≠ y ∧ H.sum x = H.sum y

/-- Library constant `zeroBytes`: 32 zero bytes. -/
def zeroBytes : List Nat := List.replicate 32 0

/-- Library table `zeroHashes`, filled at start-up: `zeroHashes[0]` is the zero
chunk and `zeroHashes[i+1] = Hash(zeroHashes[i] ++ zeroHashes[i])`. -/
def zeroHashes (H : HashFn) : Nat → List Nat
  | 0 => zeroBytes
  | i + 1 => H.sum (zeroHashes H i ++ zeroHashes H i)

/-- Library function `nextPowerOfTwo(v)`: `v--`, smear the top bit downwards,
`v++` (called with `v ≥ 2` only). -/
def nextPowerOfTwo (v : Nat) : Nat :=
  let v := v - 1
  let v := v ||| (v >>> 1)
  let v := v ||| (v >>> 2)
  let v := v ||| (v >>> 4)
  let v := v ||| (v >>> 8)
  let v := v ||| (v >>> 16)
  v + 1

/-- Number of significant bits of `x`, for `x < 2 ^ fuel`. -/
def bitLen : Nat → Nat → Nat
  | 0, _ => 0
  | fuel + 1, x => if x = 0 then 0 else bitLen fuel (x / 2) + 1

/-- Go `bits.LeadingZeros64(x)`. -/
def LeadingZeros64 (x : Nat) : Nat := 64 - bitLen 64 x

/-- Library method `Hasher.getDepth(d)`: `0` for `d ≤ 1`, else
`64 - LeadingZeros64(nextPowerOfTwo(d)) - 1`, the binary logarithm of that power. -/
def getDepth (d : Nat) : Nat :=
  if d ≤ 1 then 0 else
  let i := nextPowerOfTwo d
  64 - LeadingZeros64 i - 1

/-- One pass of the hash function over a layer: the hashes of the first `n`
adjacent pairs of 32-byte chunks of `input`, in order. -/
def hashPairs (H : HashFn) : Nat → List Nat → List Nat
  | 0, _ => []
  | n + 1, input => H.sum (input.take 64) ++ hashPairs H n (input.drop 64)

/-- The layer loop `for i := 0; i < depth; i++` of `merkleizeImpl`, with `n`
iterations left and loop counter `i`: an odd layer gets `zeroHashes[i]` appended,
the layer is hashed pairwise in place and cut to the output length. -/
def merkleizeLayers (H : HashFn) : Nat → Nat → List Nat → List Nat
  | 0, _, input => input
  | n + 1, i, input =>
    let layerLen := input.length / 32
    let oddNodeLength := layerLen % 2 = 1
    let input := if oddNodeLength then input ++ zeroHashes H i else input
    let layerLen := if oddNodeLength then layerLen + 1 else layerLen
    let outputLen := (layerLen / 2) * 32
    let hashed := hashPairs H (layerLen / 2) input
    let input := (hashed ++ input.drop hashed.length).take outputLen
    merkleizeLayers H n (i + 1) input

/-- Library method `Hasher.merkleizeImpl(dst, input, limit)` at `limit = 0`, the
only way `Merkleize` calls it (the limit then is the chunk count of the input). -/
def merkleizeImpl (H : HashFn) (dst input : List Nat) : List Nat :=
  let count := (input.length + 31) / 32
  let limit := count
  if limit = 0 then dst ++ zeroBytes else
  if limit = 1 then (if input.length = 32 then dst ++ input else dst ++ zeroBytes) else
  let depth := getDepth limit
  if input.length = 0 then dst ++ zeroHashes H depth else
  dst ++ merkleizeLayers H depth 0 input

/-- The library's `ssz.Hasher`: its buffer of pending chunks. -/
structure Hasher where
  buf : List Nat

/-- Library method `Hasher.Index()`: the current buffer length. -/
def Hasher.Index (hh : Hasher) : Nat := hh.buf.length

/-- Library method `Hasher.appendBytes32(b)`: append `b`, then zero bytes up to the
next multiple of 32 when `len(b)` is not one. -/
def Hasher.appendBytes32 (hh : Hasher) (b : List Nat) : Hasher :=
  let buf := hh.buf ++ b
  let rest := b.length % 32
  if rest ≠ 0 then ⟨buf ++ zeroBytes.take (32 - rest)⟩ else ⟨buf⟩

/-- Library method `Hasher.Merkleize(indx)`: replace the buffer contents from
`indx` on by their Merkle root. -/
def Hasher.Merkleize (H : HashFn) (hh : Hasher) (indx : Nat) : Hasher :=
  let input := hh.buf.drop indx
  let input := merkleizeImpl H [] input
  ⟨hh.buf.take indx ++ input⟩

/-- Library method `Hasher.PutBytes(b)`: a value of at most 32 bytes is appended as
one padded chunk; a longer one is appended padded and then merkleized on its own,
so that it contributes the single chunk of its root. -/
def Hasher.PutBytes (H : HashFn) (hh : Hasher) (b : List Nat) : Hasher :=
  if b.length ≤ 32 then hh.appendBytes32 b else
  let indx := hh.Index
  let hh := hh.appendBytes32 b
  hh.Merkleize H indx

/-- Library method `Hasher.PutUint64(i)`: the 8 little-endian bytes as one padded chunk. -/
def Hasher.PutUint64 (hh : Hasher) (i : Nat) : Hasher := hh.appendBytes32 (putUint64 i)

/-- Library method `Hasher.HashRoot()`: the buffer when it holds exactly 32 bytes,
else an error next to the zero array. -/
def Hasher.HashRoot (hh : Hasher) : List Nat × Option SszError :=
  if hh.buf.length ≠ 32 then (zeroBytes, some .ErrHashRootSize) else (hh.buf, none)

/-- Library function `ssz.HashWithDefaultHasher(v)`: run `v.HashTreeRootWith` on a
hasher from the pool (empty buffer); on an error return the zero array and the
error, else `HashRoot()`. -/
def HashWithDefaultHasher (hashTreeRootWith : Hasher → Hasher × Option SszError) :
    List Nat × Option SszError :=
  let hh : Hasher := ⟨[]⟩
  match hashTreeRootWith hh with
  | (_, some err) => (zeroBytes, some err)
  | (hh, none) => hh.HashRoot

/-! ### The hasher pool behind `ssz.HashWithDefaultHasher` -/

/-- Library method `Hasher.Reset()`: `h.buf = h.buf[:0]`. The bytes left in the
capacity are never read again, every later write being an append. -/
def Hasher.Reset (hh : Hasher) : Hasher := ⟨hh.buf.take 0⟩

/-- Library function `NewHasher()`: a hasher with an empty buffer. -/
def NewHasher : Hasher := ⟨[]⟩

/-- The library's `HasherPool`, a `sync.Pool` of hashers: the hashers that were put
back and are idle. `DefaultHasherPool` starts without any. -/
structure HasherPool where
  idle : List Hasher

/-- Every idle hasher of a pool has an empty buffer. -/
def HasherPool.Clean (pool : HasherPool) : Prop := ∀ h ∈ pool.idle, h.buf = []

/-- Library method `HasherPool.Get()`: `sync.Pool.Get` hands out any one of the idle
hashers or nothing, and on nothing the method returns `NewHasher()`. The choice of
the runtime is the argument `pick`: the index of the idle hasher handed out, nothing
when there is no such index. -/
def HasherPool.Get (pool : HasherPool) (pick : Nat) : Hasher × HasherPool :=
  match pool.idle.get? pick with
  | some h => (h, ⟨pool.idle.eraseIdx pick⟩)
  | none => (NewHasher, pool)

/-- Library method `HasherPool.Put(h)`: `h.Reset()`, then the hasher goes back to the
pool. -/
def HasherPool.Put (pool : HasherPool) (h : Hasher) : HasherPool := ⟨h.Reset :: pool.idle⟩

/-- Library function `ssz.HashWithDefaultHasher(v)` with the state of
`DefaultHasherPool` explicit: `hh := DefaultHasherPool.Get()`; on an error of
`v.HashTreeRootWith(hh)` the hasher is put back and the zero array returned with the
error; else `hh.HashRoot()` is taken, the hasher put back and the root returned.
The result comes with the pool after the call. -/
def HashWithDefaultHasherIn (pool : HasherPool) (pick : Nat)
    (hashTreeRootWith : Hasher → Hasher × Option SszError) :
    (List Nat × Option SszError) × HasherPool :=
  match pool.Get pick with
  | (hh, pool) =>
    match hashTreeRootWith hh with
    | (hh, some err) => ((zeroBytes, some err), pool.Put hh)
    | (hh, none) => (hh.HashRoot, pool.Put hh)

/-- One use of `DefaultHasherPool` by the program: a call of
`ssz.HashWithDefaultHasher(v)` for an object `v` with any `HashTreeRootWith` method,
a `Get()` whose hasher is kept (or an idle hasher dropped by the runtime), or a
`Put(h)` of any hasher, whatever its buffer holds. -/
inductive PoolUse where
  | hash (pick : Nat) (hashTreeRootWith : Hasher → Hasher × Option SszError)
  | get (pick : Nat)
  | put (hh : Hasher)

/-- The pool after one use. -/
def PoolUse.run : PoolUse → HasherPool → HasherPool
  | .hash pick hashTreeRootWith, pool => (HashWithDefaultHasherIn pool pick hashTreeRootWith).2
  | .get pick, pool => (pool.Get pick).2
  | .put hh, pool => pool.Put hh

/-- The state of `DefaultHasherPool` after a history of uses (latest first), from the
pool without idle hashers that the program starts with. -/
def poolAfter : List PoolUse → HasherPool
  | [] => ⟨[]⟩
  | u :: earlier => u.run (poolAfter earlier)

/-! ### SHA-256, the hash function of the library's default hasher -/

namespace Sha256

/-- Round constants of SHA-256 (FIPS 180-4), in decimal: the first 32 bits of the
fractional parts of the cube roots of the first 64 primes. -/
def K : List Nat := [
  1116352408, 1899447441, 3049323471, 3921009573, 961987163, 1508970993,
  2453635748, 2870763221, 3624381080, 310598401, 607225278, 1426881987,
  1925078388, 2162078206, 2614888103, 3248222580, 3835390401, 4022224774,
  264347078, 604807628, 770255983, 1249150122, 1555081692, 1996064986,
  2554220882, 2821834349, 2952996808, 3210313671, 3336571891, 3584528711,
  113926993, 338241895, 666307205, 773529912, 1294757372, 1396182291,
  1695183700, 1986661051, 2177026350, 2456956037, 2730485921, 2820302411,
  3259730800, 3345764771, 3516065817, 3600352804, 4094571909, 275423344,
  430227734, 506948616, 659060556, 883997877, 958139571, 1322822218,
  1537002063, 1747873779, 1955562222, 2024104815, 2227730452, 2361852424,
  2428436474, 2756734187, 3204031479, 3329325298]

/-- Rotation of a 32-bit word to the right. -/
def rotr (x n : Nat) : Nat := (x >>> n) ||| ((x <<< (32 - n)) % 2 ^ 32)

/-- SHA-256 function Σ0. -/
def bsig0 (x : Nat) : Nat := rotr x 2 ^^^ rotr x 13 ^^^ rotr x 22

/-- SHA-256 function Σ1. -/
def bsig1 (x : Nat) : Nat := rotr x 6 ^^^ rotr x 11 ^^^ rotr x 25

/-- SHA-256 function σ0. -/
def ssig0 (x : Nat) : Nat := rotr x 7 ^^^ rotr x 18 ^^^ (x >>> 3)

/-- SHA-256 function σ1. -/
def ssig1 (x : Nat) : Nat := rotr x 17 ^^^ rotr x 19 ^^^ (x >>> 10)

/-- SHA-256 function Ch. -/
def ch (e f g : Nat) : Nat := (e &&& f) ^^^ ((e ^^^ 4294967295) &&& g)

/-- SHA-256 function Maj. -/
def maj (a b c : Nat) : Nat := (a &&& b) ^^^ (a &&& c) ^^^ (b &&& c)

/-- Big-endian 32-bit words of a block. -/
def words : List Nat → List Nat
  | b0 :: b1 :: b2 :: b3 :: rest => (b0 <<< 24 ||| b1 <<< 16 ||| b2 <<< 8 ||| b3) :: words rest
  | _ => []

/-- Message schedule, most recent word first, with `n` words still to add. -/
def schedule : Nat → List Nat → List Nat
  | 0, w => w
  | n + 1, w =>
    schedule n
      (((ssig1 (w.getD 1 0) + w.getD 6 0 + ssig0 (w.getD 14 0) + w.getD 15 0) % 2 ^ 32) :: w)

/-- The eight working words of SHA-256. -/
structure St where
  a : Nat
  b : Nat
  c : Nat
  d : Nat
  e : Nat
  f : Nat
  g : Nat
  h : Nat

/-- One round of the compression function. -/
def round (s : St) (k w : Nat) : St :=
  let t1 := s.h + bsig1 s.e + ch s.e s.f s.g + k + w
  let t2 := bsig0 s.a + maj s.a s.b s.c
  ⟨(t1 + t2) % 2 ^ 32, s.a, s.b, s.c, (s.d + t1) % 2 ^ 32, s.e, s.f, s.g⟩

/-- The 64 rounds, over the round constants and the message schedule. -/
def rounds : St → List Nat → List Nat → St
  | s, k :: ks, w :: ws => rounds (round s k w) ks ws
  | s, _, _ => s

/-- Compression of one 64-byte block into the chaining value. -/
def compress (s : St) (block : List Nat) : St :=
  let w := (schedule 48 (words block).reverse).reverse
  let t := rounds s K w
  ⟨(s.a + t.a) % 2 ^ 32, (s.b + t.b) % 2 ^ 32, (s.c + t.c) % 2 ^ 32, (s.d + t.d) % 2 ^ 32,
   (s.e + t.e) % 2 ^ 32, (s.f + t.f) % 2 ^ 32, (s.g + t.g) % 2 ^ 32, (s.h + t.h) % 2 ^ 32⟩

/-- Initial chaining value of SHA-256. -/
def init : St :=
  ⟨1779033703, 3144134277, 1013904242, 2773480762, 1359893119, 2600822924, 528734635,
    1541459225⟩

/-- Big-endian bytes of a 32-bit word. -/
def be4 (x : Nat) : List Nat := [x >>> 24 % 256, x >>> 16 % 256, x >>> 8 % 256, x % 256]

/-- Big-endian bytes of a 64-bit word. -/
def be8 (x : Nat) : List Nat := be4 (x >>> 32 % 2^32) ++ be4 (x % 2^32)

/-- Message padding: the byte 128, zero bytes and the 64-bit bit length, up to whole
blocks. -/
def pad (msg : List Nat) : List Nat :=
  msg ++ [128] ++ List.replicate ((119 - msg.length % 64) % 64) 0 ++ be8 (8 * msg.length)

/-- Compression of `n` successive blocks. -/
def blocks : Nat → St → List Nat → St
  | 0, s, _ => s
  | n + 1, s, m => blocks n (compress s (m.take 64)) (m.drop 64)

/-- The 32 bytes of a chaining value. -/
def digest (s : St) : List Nat :=
  be4 s.a ++ be4 s.b ++ be4 s.c ++ be4 s.d ++ be4 s.e ++ be4 s.f ++ be4 s.g ++ be4 s.h

/-- SHA-256 of a byte sequence. -/
def sha256 (msg : List Nat) : List Nat :=
  let m := pad msg
  digest (blocks (m.length / 64) init m)

end Sha256

/-- The hash primitive of the default hasher: SHA-256, whose digest has 32 bytes. -/
def sha256Hash : HashFn := ⟨Sha256.sha256, fun _ => rfl⟩

/-! ### The Merkleization algorithm as the spec words it (section 4.3) -/

/-- Spec step 1: a field's bytes split into consecutive 32-byte chunks, the last one
right-padded with zero bytes (`fuel` bounds the number of chunks). -/
def specChunksAux : Nat → List Nat → List (List Nat)
  | 0, _ => []
  | fuel + 1, bs =>
    if bs.length = 0 then [] else
    (bs.take 32 ++ List.replicate (32 - (bs.take 32).length) 0) :: specChunksAux fuel (bs.drop 32)

/-- Spec step 1 for one field. -/
def specChunks (bs : List Nat) : List (List Nat) := specChunksAux bs.length bs

/-- Smallest power of two that is at least `n`, searched upwards from `p`. -/
def specNextPow2Aux : Nat → Nat → Nat → Nat
  | 0, p, _ => p
  | fuel + 1, p, n => if n ≤ p then p else specNextPow2Aux fuel (2 * p) n

/-- Spec step 3: the next power of two. -/
def specNextPow2 (n : Nat) : Nat := specNextPow2Aux n 1 n

/-- Spec step 4, one round: each adjacent pair `(left, right)` becomes
`Hash(left ++ right)`. -/
def specPairs (H : HashFn) : List (List Nat) → List (List Nat)
  | l :: r :: rest => H.sum (l ++ r) :: specPairs H rest
  | _ => []

/-- Spec step 4: rounds until one chunk remains. -/
def specReduce (H : HashFn) : Nat → List (List Nat) → List (List Nat)
  | 0, leaves => leaves
  | fuel + 1, leaves => if leaves.length ≤ 1 then leaves else specReduce H fuel (specPairs H leaves)

/-- Spec steps 3 and 4: the Merkle root of a leaf list. -/
def specMerkleRoot (H : HashFn) (leaves : List (List Nat)) : List Nat :=
  let padded := leaves ++ List.replicate (specNextPow2 leaves.length - leaves.length) zeroBytes
  (specReduce H padded.length padded).headD zeroBytes

/-- Spec steps 1 to 4, the flat-leaf hash-tree-root: the chunks of all fields, in
field order, form one leaf list, whose Merkle root is taken. -/
def specFlatRoot (H : HashFn) (fields : List (List Nat)) : List Nat :=
  specMerkleRoot H (fields.map specChunks).flatten

/-- Spec step 1 for a `uint64` field: its little-endian bytes. -/
def specUint64Field (v : Nat) : List Nat := LE64 v

end Ssz

namespace Eth2
open Ssz

/-- Modelled from the spec: the record declaration (data-model table, the Go struct
is declared outside the encoding file): `PublicKey: bytes(48)`,
`WithdrawalCredentials: bytes(32)`, `Amount: uint64`. -/
structure DepositDataNoSignature where
  PublicKey : Slice
  WithdrawalCredentials : Slice
  Amount : Nat

/-- Modelled from the spec: the record declaration (data-model table):
`PublicKey: bytes(48)`, `WithdrawalCredentials: bytes(32)`, `Amount: uint64`,
`Signature: bytes(96)`. -/
structure DepositData where
  PublicKey : Slice
  WithdrawalCredentials : Slice
  Amount : Nat
  Signature : Slice

/-- Modelled from the spec: the record declaration (data-model table):
`ObjectRoot: bytes(32)`, `Domain: bytes(32)`. -/
structure SigningRoot where
  ObjectRoot : Slice
  Domain : Slice

/-- Modelled from the spec: the record declaration (data-model table):
`Epoch: uint64`, `ValidatorIndex: uint64`. -/
structure VoluntaryExit where
  Epoch : Nat
  ValidatorIndex : Nat
  deriving DecidableEq, Repr

/-- `DepositDataNoSignature.MarshalSSZTo(buf)`: the pair `(dst, err)` it returns. -/
def DepositDataNoSignature.MarshalSSZTo (d : DepositDataNoSignature) (buf : List Nat) :
    List Nat × Option SszError :=
  let dst := buf
  -- Field (0) 'PublicKey'
  if d.PublicKey.len ≠ 48 then (dst, some .ErrBytesLength) else
  let dst := dst ++ d.PublicKey.data
  -- Field (1) 'WithdrawalCredentials'
  if d.WithdrawalCredentials.len ≠ 32 then (dst, some .ErrBytesLength) else
  let dst := dst ++ d.WithdrawalCredentials.data
  -- Field (2) 'Amount'
  let dst := MarshalUint64 dst d.Amount
  (dst, none)

/-- `DepositData.MarshalSSZTo(buf)`. -/
def DepositData.MarshalSSZTo (d : DepositData) (buf : List Nat) :
    List Nat × Option SszError :=
  let dst := buf
  -- Field (0) 'PublicKey'
  if d.PublicKey.len ≠ 48 then (dst, some .ErrBytesLength) else
  let dst := dst ++ d.PublicKey.data
  -- Field (1) 'WithdrawalCredentials'
  if d.WithdrawalCredentials.len ≠ 32 then (dst, some .ErrBytesLength) else
  let dst := dst ++ d.WithdrawalCredentials.data
  -- Field (2) 'Amount'
  let dst := MarshalUint64 dst d.Amount
  -- Field (3) 'Signature'
  if d.Signature.len ≠ 96 then (dst, some .ErrBytesLength) else
  let dst := dst ++ d.Signature.data
  (dst, none)

/-- `SigningRoot.MarshalSSZTo(buf)`. -/
def SigningRoot.MarshalSSZTo (s : SigningRoot) (buf : List Nat) :
    List Nat × Option SszError :=
  let dst := buf
  -- Field (0) 'ObjectRoot'
  if s.ObjectRoot.len ≠ 32 then (dst, some .ErrBytesLength) else
  let dst := dst ++ s.ObjectRoot.data
  -- Field (1) 'Domain'
  if s.Domain.len ≠ 32 then (dst, some .ErrBytesLength) else
  let dst := dst ++ s.Domain.data
  (dst, none)

/-- `VoluntaryExit.MarshalSSZTo(buf)`. -/
def VoluntaryExit.MarshalSSZTo (v : VoluntaryExit) (buf : List Nat) :
    List Nat × Option SszError :=
  let dst := buf
  -- Field (0) 'Epoch'
  let dst := MarshalUint64 dst v.Epoch
  -- Field (1) 'ValidatorIndex'
  let dst := MarshalUint64 dst v.ValidatorIndex
  (dst, none)

/-- `SizeSSZ` of `DepositDataNoSignature`. -/
def DepositDataNoSignature.SizeSSZ (_d : DepositDataNoSignature) : Nat := 88

/-- `SizeSSZ` of `DepositData`. -/
def DepositData.SizeSSZ (_d : DepositData) : Nat := 184

/-- `SizeSSZ` of `SigningRoot`. -/
def SigningRoot.SizeSSZ (_s : SigningRoot) : Nat := 64

/-- `SizeSSZ` of `VoluntaryExit`. -/
def VoluntaryExit.SizeSSZ (_v : VoluntaryExit) : Nat := 16

/-- `DepositDataNoSignature.MarshalSSZ()`, that is `ssz.MarshalSSZ(d)`: the library
allocates `buf := make([]byte, d.SizeSSZ())` and returns `d.MarshalSSZTo(buf[:0])`. -/
def DepositDataNoSignature.MarshalSSZ (d : DepositDataNoSignature) :
    List Nat × Option SszError :=
  d.MarshalSSZTo ((List.replicate d.SizeSSZ 0).take 0)

/-- `DepositData.MarshalSSZ()`, through `ssz.MarshalSSZ`. -/
def DepositData.MarshalSSZ (d : DepositData) : List Nat × Option SszError :=
  d.MarshalSSZTo ((List.replicate d.SizeSSZ 0).take 0)

/-- `SigningRoot.MarshalSSZ()`, through `ssz.MarshalSSZ`. -/
def SigningRoot.MarshalSSZ (s : SigningRoot) : List Nat × Option SszError :=
  s.MarshalSSZTo ((List.replicate s.SizeSSZ 0).take 0)

/-- `VoluntaryExit.MarshalSSZ()`, through `ssz.MarshalSSZ`. -/
def VoluntaryExit.MarshalSSZ (v : VoluntaryExit) : List Nat × Option SszError :=
  v.MarshalSSZTo ((List.replicate v.SizeSSZ 0).take 0)

/-- `DepositDataNoSignature.UnmarshalSSZ(buf)`: the receiver after the call and the
error. `size := uint64(len(buf))` is the length itself. -/
def DepositDataNoSignature.UnmarshalSSZ (d : DepositDataNoSignature) (buf : List Nat) :
    DepositDataNoSignature × Option SszError :=
  let size := buf.length
  if size ≠ 88 then (d, some .ErrSize) else
  -- Field (0) 'PublicKey'
  let d := if d.PublicKey.cap = 0 then
    { d with PublicKey := Slice.make (sub buf 0 48).length } else d
  let d := { d with PublicKey := d.PublicKey.append (sub buf 0 48) }
  -- Field (1) 'WithdrawalCredentials'
  let d := if d.WithdrawalCredentials.cap = 0 then
    { d with WithdrawalCredentials := Slice.make (sub buf 48 80).length } else d
  let d := { d with WithdrawalCredentials := d.WithdrawalCredentials.append (sub buf 48 80) }
  -- Field (2) 'Amount'
  let d := { d with Amount := UnmarshallUint64 (sub buf 80 88) }
  (d, none)

/-- `DepositData.UnmarshalSSZ(buf)`. -/
def DepositData.UnmarshalSSZ (d : DepositData) (buf : List Nat) :
    DepositData × Option SszError :=
  let size := buf.length
  if size ≠ 184 then (d, some .ErrSize) else
  -- Field (0) 'PublicKey'
  let d := if d.PublicKey.cap = 0 then
    { d with PublicKey := Slice.make (sub buf 0 48).length } else d
  let d := { d with PublicKey := d.PublicKey.append (sub buf 0 48) }
  -- Field (1) 'WithdrawalCredentials'
  let d := if d.WithdrawalCredentials.cap = 0 then
    { d with WithdrawalCredentials := Slice.make (sub buf 48 80).length } else d
  let d := { d with WithdrawalCredentials := d.WithdrawalCredentials.append (sub buf 48 80) }
  -- Field (2) 'Amount'
  let d := { d with Amount := UnmarshallUint64 (sub buf 80 88) }
  -- Field (3) 'Signature'
  let d := if d.Signature.cap = 0 then
    { d with Signature := Slice.make (sub buf 88 184).length } else d
  let d := { d with Signature := d.Signature.append (sub buf 88 184) }
  (d, none)

/-- `SigningRoot.UnmarshalSSZ(buf)`. -/
def SigningRoot.UnmarshalSSZ (s : SigningRoot) (buf : List Nat) :
    SigningRoot × Option SszError :=
  let size := buf.length
  if size ≠ 64 then (s, some .ErrSize) else
  -- Field (0) 'ObjectRoot'
  let s := if s.ObjectRoot.cap = 0 then
    { s with ObjectRoot := Slice.make (sub buf 0 32).length } else s
  let s := { s with ObjectRoot := s.ObjectRoot.append (sub buf 0 32) }
  -- Field (1) 'Domain'
  let s := if s.Domain.cap = 0 then
    { s with Domain := Slice.make (sub buf 32 64).length } else s
  let s := { s with Domain := s.Domain.append (sub buf 32 64) }
  (s, none)

/-- `VoluntaryExit.UnmarshalSSZ(buf)`. -/
def VoluntaryExit.UnmarshalSSZ (v : VoluntaryExit) (buf : List Nat) :
    VoluntaryExit × Option SszError :=
  let size := buf.length
  if size ≠ 16 then (v, some .ErrSize) else
  -- Field (0) 'Epoch'
  let v := { v with Epoch := UnmarshallUint64 (sub buf 0 8) }
  -- Field (1) 'ValidatorIndex'
  let v := { v with ValidatorIndex := UnmarshallUint64 (sub buf 8 16) }
  (v, none)

/-- `DepositDataNoSignature.HashTreeRootWith(hh)`: the hasher after the call and
the error. -/
def DepositDataNoSignature.HashTreeRootWith (H : HashFn) (d : DepositDataNoSignature)
    (hh : Hasher) : Hasher × Option SszError :=
  let indx := hh.Index
  -- Field (0) 'PublicKey'
  if d.PublicKey.len ≠ 48 then (hh, some .ErrBytesLength) else
  let hh := hh.PutBytes H d.PublicKey.data
  -- Field (1) 'WithdrawalCredentials'
  if d.WithdrawalCredentials.len ≠ 32 then (hh, some .ErrBytesLength) else
  let hh := hh.PutBytes H d.WithdrawalCredentials.data
  -- Field (2) 'Amount'
  let hh := hh.PutUint64 d.Amount
  let hh := hh.Merkleize H indx
  (hh, none)

/-- `DepositData.HashTreeRootWith(hh)`. -/
def DepositData.HashTreeRootWith (H : HashFn) (d : DepositData) (hh : Hasher) :
    Hasher × Option SszError :=
  let indx := hh.Index
  -- Field (0) 'PublicKey'
  if d.PublicKey.len ≠ 48 then (hh, some .ErrBytesLength) else
  let hh := hh.PutBytes H d.PublicKey.data
  -- Field (1) 'WithdrawalCredentials'
  if d.WithdrawalCredentials.len ≠ 32 then (hh, some .ErrBytesLength) else
  let hh := hh.PutBytes H d.WithdrawalCredentials.data
  -- Field (2) 'Amount'
  let hh := hh.PutUint64 d.Amount
  -- Field (3) 'Signature'
  if d.Signature.len ≠ 96 then (hh, some .ErrBytesLength) else
  let hh := hh.PutBytes H d.Signature.data
  let hh := hh.Merkleize H indx
  (hh, none)

/-- `SigningRoot.HashTreeRootWith(hh)`. -/
def SigningRoot.HashTreeRootWith (H : HashFn) (s : SigningRoot) (hh : Hasher) :
    Hasher × Option SszError :=
  let indx := hh.Index
  -- Field (0) 'ObjectRoot'
  if s.ObjectRoot.len ≠ 32 then (hh, some .ErrBytesLength) else
  let hh := hh.PutBytes H s.ObjectRoot.data
  -- Field (1) 'Domain'
  if s.Domain.len ≠ 32 then (hh, some .ErrBytesLength) else
  let hh := hh.PutBytes H s.Domain.data
  let hh := hh.Merkleize H indx
  (hh, none)

/-- `VoluntaryExit.HashTreeRootWith(hh)`. -/
def VoluntaryExit.HashTreeRootWith (H : HashFn) (v : VoluntaryExit) (hh : Hasher) :
    Hasher × Option SszError :=
  let indx := hh.Index
  -- Field (0) 'Epoch'
  let hh := hh.PutUint64 v.Epoch
  -- Field (1) 'ValidatorIndex'
  let hh := hh.PutUint64 v.ValidatorIndex
  let hh := hh.Merkleize H indx
  (hh, none)

/-- `DepositDataNoSignature.HashTreeRoot()`, through `ssz.HashWithDefaultHasher`. -/
def DepositDataNoSignature.HashTreeRoot (H : HashFn) (d : DepositDataNoSignature) :
    List Nat × Option SszError :=
  HashWithDefaultHasher (d.HashTreeRootWith H)

/-- `DepositData.HashTreeRoot()`, through `ssz.HashWithDefaultHasher`. -/
def DepositData.HashTreeRoot (H : HashFn) (d : DepositData) : List Nat × Option SszError :=
  HashWithDefaultHasher (d.HashTreeRootWith H)

/-- `SigningRoot.HashTreeRoot()`, through `ssz.HashWithDefaultHasher`. -/
def SigningRoot.HashTreeRoot (H : HashFn) (s : SigningRoot) : List Nat × Option SszError :=
  HashWithDefaultHasher (s.HashTreeRootWith H)

/-- `VoluntaryExit.HashTreeRoot()`, through `ssz.HashWithDefaultHasher`. -/
def VoluntaryExit.HashTreeRoot (H : HashFn) (v : VoluntaryExit) : List Nat × Option SszError :=
  HashWithDefaultHasher (v.HashTreeRootWith H)

/-- `DepositDataNoSignature.HashTreeRoot()` in a given state of the hasher pool and for
a given choice of `sync.Pool.Get`: the result and the pool after the call. -/
def DepositDataNoSignature.HashTreeRootIn (H : HashFn) (d : DepositDataNoSignature)
    (pool : HasherPool) (pick : Nat) : (List Nat × Option SszError) × HasherPool :=
  HashWithDefaultHasherIn pool pick (d.HashTreeRootWith H)

/-- `DepositData.HashTreeRoot()` in a given state of the hasher pool. -/
def DepositData.HashTreeRootIn (H : HashFn) (d : DepositData) (pool : HasherPool)
    (pick : Nat) : (List Nat × Option SszError) × HasherPool :=
  HashWithDefaultHasherIn pool pick (d.HashTreeRootWith H)

/-- `SigningRoot.HashTreeRoot()` in a given state of the hasher pool. -/
def SigningRoot.HashTreeRootIn (H : HashFn) (s : SigningRoot) (pool : HasherPool)
    (pick : Nat) : (List Nat × Option SszError) × HasherPool :=
  HashWithDefaultHasherIn pool pick (s.HashTreeRootWith H)

/-- `VoluntaryExit.HashTreeRoot()` in a given state of the hasher pool. -/
def VoluntaryExit.HashTreeRootIn (H : HashFn) (v : VoluntaryExit) (pool : HasherPool)
    (pick : Nat) : (List Nat × Option SszError) × HasherPool :=
  HashWithDefaultHasherIn pool pick (v.HashTreeRootWith H)

/-- Zero value of the record, the receiver of a decode into a new object. -/
def DepositDataNoSignature.zero : DepositDataNoSignature := ⟨Slice.nil, Slice.nil, 0⟩

/-- Zero value of the record. -/
def DepositData.zero : DepositData := ⟨Slice.nil, Slice.nil, 0, Slice.nil⟩

/-- Zero value of the record. -/
def SigningRoot.zero : SigningRoot := ⟨Slice.nil, Slice.nil⟩

/-- Zero value of the record. -/
def VoluntaryExit.zero : VoluntaryExit := ⟨0, 0⟩

/-- Sample record: Scenario A of the spec. -/
def sampleDDNS : DepositDataNoSignature :=
  ⟨Slice.ofList (List.replicate 48 0), Slice.ofList (List.replicate 32 0), 32000000000⟩

/-- Sample record with distinct field contents. -/
def sampleDD : DepositData :=
  ⟨Slice.ofList (List.range 48), Slice.ofList (List.replicate 32 1), 32000000000,
    Slice.ofList (List.range 96)⟩

/-- Sample record with distinct field contents. -/
def sampleSR : SigningRoot := ⟨Slice.ofList (List.range 32), Slice.ofList (List.replicate 32 7)⟩

/-- Sample record. -/
def sampleVE : VoluntaryExit := ⟨5, 9⟩

/-! ### The results of `HashTreeRoot` as functions of the field values -/

/-- The result of `HashTreeRoot` of a `DepositDataNoSignature` written as a function
of its field values alone, the bytes of the two byte fields and the amount: the root
over the three field chunks (the key giving the root of its two padded chunks, a
fourth zero chunk filling the tree) when the byte fields have their declared lengths,
else the zero array with `ErrBytesLength`. -/
def rootOfDepositDataNoSignature (H : HashFn) (publicKey withdrawalCredentials : List Nat)
    (amount : Nat) : List Nat × Option SszError :=
  if publicKey.length = 48 ∧ withdrawalCredentials.length = 32 then
    (H.sum (H.sum (H.sum (publicKey ++ List.replicate 16 0) ++ withdrawalCredentials)
      ++ H.sum (LE64 amount ++ List.replicate 24 0 ++ List.replicate 32 0)), none)
  else (List.replicate 32 0, some .ErrBytesLength)

/-- The result of `HashTreeRoot` of a `DepositData` written as a function of its
field values alone: the root over the four field chunks (key and signature giving the
roots of their padded chunks) when the byte fields have their declared lengths, else
the zero array with `ErrBytesLength`. -/
def rootOfDepositData (H : HashFn) (publicKey withdrawalCredentials : List Nat)
    (amount : Nat) (signature : List Nat) : List Nat × Option SszError :=
  if publicKey.length = 48 ∧ withdrawalCredentials.length = 32 ∧ signature.length = 96 then
    (H.sum (H.sum (H.sum (publicKey ++ List.replicate 16 0) ++ withdrawalCredentials)
      ++ H.sum (LE64 amount ++ List.replicate 24 0
        ++ H.sum (H.sum (signature.take 64)
          ++ H.sum (signature.drop 64 ++ List.replicate 32 0)))), none)
  else (List.replicate 32 0, some .ErrBytesLength)

/-- The result of `HashTreeRoot` of a `SigningRoot` written as a function of its field
values alone: the hash of the two chunks when both fields have 32 bytes, else the zero
array with `ErrBytesLength`. -/
def rootOfSigningRoot (H : HashFn) (objectRoot domain : List Nat) :
    List Nat × Option SszError :=
  if objectRoot.length = 32 ∧ domain.length = 32 then (H.sum (objectRoot ++ domain), none)
  else (List.replicate 32 0, some .ErrBytesLength)

/-- The result of `HashTreeRoot` of a `VoluntaryExit` written as a function of its
field values alone: the hash of the two padded integer chunks. -/
def rootOfVoluntaryExit (H : HashFn) (epoch validatorIndex : Nat) :
    List Nat × Option SszError :=
  (H.sum ((LE64 epoch ++ List.replicate 24 0) ++ (LE64 validatorIndex ++ List.replicate 24 0)),
    none)

end Eth2

/-! ### The deposit command (`rocketpool-cli/deposit/make.go`) -/

namespace Deposit

/-- Response of `deposit.GetDepositStatus` (declared in package `shared/api/deposit`),
with the fields that `makeDeposit` reads for its control flow; the other fields are
only printed. -/
structure DepositStatusResponse where
  ReservationExists : Bool
  NodeAccountBalanceEtherWei : Int

/-- Response of `deposit.CanReserveDeposit`, with the fields read by `makeDeposit`. -/
structure CanReserveDepositResponse where
  Success : Bool
  DepositsDisabled : Bool
  PubkeyUsed : Bool

/-- Response of `deposit.CanCompleteDeposit`, with the fields read by `makeDeposit`;
amounts of type `*big.Int` are integers. -/
structure CanCompleteDepositResponse where
  DepositsDisabled : Bool
  MinipoolCreationDisabled : Bool
  InsufficientNodeEtherBalance : Bool
  RplShortByWei : Int
  EtherRequiredWei : Int
  RplRequiredWei : Int
  DepositDurationId : String

/-- Response of `exchange.GetTokenLiquidity`. -/
structure TokenLiquidityResponse where
  ExchangeTokenBalanceWei : Int

/-- Response of `exchange.GetTokenPrice`. -/
structure TokenPriceResponse where
  MaxEtherPriceWei : Int

/-- The collaborators of `makeDeposit` in one run: what each call into the services,
the API packages and the prompt returns, `none` or `false` standing for a returned
error. A call that takes arguments is a function of them; `GetDepositStatus` is
called up to twice and is indexed by the call number; a validator key is a number. -/
structure Env where
  NewProvider : Bool
  GetDepositStatus : Nat → Option DepositStatusResponse
  CreateValidatorKey : Option Nat
  CanReserveDeposit : Nat → Option CanReserveDepositResponse
  ReserveDeposit : Nat → String → Bool
  actionAnswer : String
  CanCompleteDeposit : Option CanCompleteDepositResponse
  GetTokenLiquidity : Option TokenLiquidityResponse
  GetTokenPrice : Int → Option TokenPriceResponse
  confirmAnswer : String
  BuyTokens : Int → Int → Bool
  SendFromNode : Int → Bool
  CompleteDeposit : Int → String → Bool
  CancelDeposit : Bool

/-- The calls into collaborators that a run of `makeDeposit` makes, with the
arguments that matter (writes to `p.Output` are left out). -/
inductive Call where
  | NewProvider
  | GetDepositStatus
  | CreateValidatorKey
  | CanReserveDeposit (validatorKey : Nat)
  | ReserveDeposit (validatorKey : Nat) (durationId : String)
  | PromptAction
  | CanCompleteDeposit
  | GetTokenLiquidity
  | GetTokenPrice (amountWei : Int)
  | PromptConfirm
  | BuyTokens (maxEtherPriceWei : Int) (amountWei : Int)
  | SendFromNode (amountWei : Int)
  | CompleteDeposit (etherRequiredWei : Int) (durationId : String)
  | CancelDeposit
  deriving DecidableEq, Repr

/-- How a run ends: `return nil`, `return err`, or a run-time panic. -/
inductive Outcome where
  | ok
  | err
  | panic
  deriving DecidableEq, Repr

/-- A call that moves funds: `exchange.BuyTokens`, `node.SendFromNode` or
`deposit.CompleteDeposit`. -/
def Call.movesFunds : Call → Bool
  | .BuyTokens _ _ => true
  | .SendFromNode _ => true
  | .CompleteDeposit _ _ => true
  | _ => false

/-- A call of `exchange.BuyTokens`. -/
def Call.isBuyTokens : Call → Bool
  | .BuyTokens _ _ => true
  | _ => false

/-- Lines 176 to 187 of `makeDeposit`: transfer the required RPL and complete the
deposit. `t` is the trace of calls so far. -/
def transferAndComplete (env : Env) (canComplete : CanCompleteDepositResponse)
    (t : List Call) : List Call × Outcome :=
  -- Transfer remaining required RPL
  let t := t ++ [.SendFromNode canComplete.RplRequiredWei]
  if !env.SendFromNode canComplete.RplRequiredWei then (t, .err) else
  -- Complete deposit
  let t := t ++ [.CompleteDeposit canComplete.EtherRequiredWei canComplete.DepositDurationId]
  if !env.CompleteDeposit canComplete.EtherRequiredWei canComplete.DepositDurationId then
    (t, .err) else
  (t, .ok)

/-- Lines 102 to 187 of `makeDeposit`, the case `"1"` of the action switch. The test
`strings.ToLower(rplPurchaseConfirmed[:1]) == "n"` holds exactly when the answer
begins with `n` or `N`. -/
def completeDeposit (env : Env) (status : DepositStatusResponse) (t : List Call) :
    List Call × Outcome :=
  -- Check deposit can be completed
  let t := t ++ [.CanCompleteDeposit]
  match env.CanCompleteDeposit with
  | none => (t, .err)
  | some canComplete =>
    -- Check response
    if canComplete.DepositsDisabled || canComplete.MinipoolCreationDisabled
        || canComplete.InsufficientNodeEtherBalance then (t, .ok) else
    -- RPL purchase required
    if canComplete.RplShortByWei > 0 then
      -- Get exchange liquidity
      let t := t ++ [.GetTokenLiquidity]
      match env.GetTokenLiquidity with
      | none => (t, .err)
      | some liquidity =>
        -- Check exchange has sufficient liquidity
        if liquidity.ExchangeTokenBalanceWei < canComplete.RplShortByWei then (t, .ok) else
        -- Get exchange token price
        let t := t ++ [.GetTokenPrice canComplete.RplShortByWei]
        match env.GetTokenPrice canComplete.RplShortByWei with
        | none => (t, .err)
        | some price =>
          -- Get total ether required including exchange price
          let totalEtherRequiredWei := canComplete.EtherRequiredWei + price.MaxEtherPriceWei
          -- Check total ether required
          if status.NodeAccountBalanceEtherWei < totalEtherRequiredWei then (t, .ok) else
          -- Confirm purchase of RPL
          let t := t ++ [.PromptConfirm]
          match env.confirmAnswer.data with
          | [] => (t, .panic)
          | c :: _ =>
            if c = 'n' ∨ c = 'N' then (t, .ok) else
            -- Purchase RPL
            let t := t ++ [.BuyTokens price.MaxEtherPriceWei canComplete.RplShortByWei]
            if !env.BuyTokens price.MaxEtherPriceWei canComplete.RplShortByWei then
              (t, .err) else
            transferAndComplete env canComplete t
    else
      transferAndComplete env canComplete t

/-- Lines 97 to 204 of `makeDeposit`: the action prompt and its switch. -/
def promptAction (env : Env) (status : DepositStatusResponse) (t : List Call) :
    List Call × Outcome :=
  -- Prompt for action
  let t := t ++ [.PromptAction]
  let action := env.actionAnswer
  if action = "1" then
    -- Complete deposit
    completeDeposit env status t
  else if action = "2" then
    -- Cancel deposit
    let t := t ++ [.CancelDeposit]
    if !env.CancelDeposit then (t, .err) else (t, .ok)
  else
    (t, .ok)

/-- The command `makeDeposit(c, durationId)`: the calls it makes, in order, and how it
ends. A prompt is taken to return its answer; a run in which it never does, or which
panics on a nil pointer, makes a prefix of the calls given here. The only panic kept
is the slice `rplPurchaseConfirmed[:1]` of an empty answer. -/
def makeDeposit (env : Env) (durationId : String) : List Call × Outcome :=
  -- Initialise services
  let t := [Call.NewProvider]
  if !env.NewProvider then (t, .err) else
  -- Get deposit status
  let t := t ++ [.GetDepositStatus]
  match env.GetDepositStatus 0 with
  | none => (t, .err)
  | some status =>
    -- Reserve deposit if reservation doesn't exist
    if status.ReservationExists then
      promptAction env status t
    else
      -- Generate new validator key
      let t := t ++ [.CreateValidatorKey]
      match env.CreateValidatorKey with
      | none => (t, .err)
      | some validatorKey =>
        -- Check node deposit can be reserved
        let t := t ++ [.CanReserveDeposit validatorKey]
        match env.CanReserveDeposit validatorKey with
        | none => (t, .err)
        | some canReserve =>
          -- Check response
          if !canReserve.Success then (t, .ok) else
          -- Reserve deposit
          let t := t ++ [.ReserveDeposit validatorKey durationId]
          if !env.ReserveDeposit validatorKey durationId then (t, .err) else
          -- Get deposit status
          let t := t ++ [.GetDepositStatus]
          match env.GetDepositStatus 1 with
          | none => (t, .err)
          | some status => promptAction env status t

/-- Sample run: a reservation exists, the user answers `1`, 5 wei of RPL are short,
the exchange holds 9, the purchase costs at most 3 wei on top of the 10 required,
the account holds 20, and the user confirms with `y`. -/
def sampleEnv : Env where
  NewProvider := true
  GetDepositStatus := fun _ => some ⟨true, 20⟩
  CreateValidatorKey := some 7
  CanReserveDeposit := fun _ => some ⟨true, false, false⟩
  ReserveDeposit := fun _ _ => true
  actionAnswer := "1"
  CanCompleteDeposit := some ⟨false, false, false, 5, 10, 8, "3m"⟩
  GetTokenLiquidity := some ⟨9⟩
  GetTokenPrice := fun _ => some ⟨3⟩
  confirmAnswer := "y"
  BuyTokens := fun _ _ => true
  SendFromNode := fun _ => true
  CompleteDeposit := fun _ _ => true
  CancelDeposit := true

end Deposit

/-! ### The network calls of the daemon client (`shared/services/rocketpool/network.go`) -/

namespace Rocketpool

/-- The client, as far as the network calls use it: its method `callAPI(args)`, which
returns the response bytes of the daemon and an error (`none` for `nil`, else the
message of the error). -/
structure Client where
  callAPI : String → List Nat × Option String

/-- A response type of package `shared/types/api` (`NodeFeeResponse`,
`NetworkStatsResponse`, ...): the field `Error` that the client reads, and the
remaining fields together as `Data`. -/
structure ApiResponse (α : Type) where
  Error : String
  Data : α
  deriving DecidableEq, Repr

/-- Zero value `api.XResponse{}`. -/
def ApiResponse.zero {α : Type} [Inhabited α] : ApiResponse α := ⟨"", default⟩

/-- The type `api.RplPriceResponse`: the field `Error`, the three `*big.Int` amounts
that `RplPrice` reads (`none` for a nil pointer), and the remaining fields as `Data`. -/
structure RplPriceResponse (α : Type) where
  Error : String
  RplPrice : Option Int
  MinPerMinipoolRplStake : Option Int
  MaxPerMinipoolRplStake : Option Int
  Data : α
  deriving DecidableEq, Repr

/-- Zero value `api.RplPriceResponse{}`. -/
def RplPriceResponse.zero {α : Type} [Inhabited α] : RplPriceResponse α :=
  ⟨"", none, none, none, default⟩

/-- `Client.NodeFee()`. The argument `jsonUnmarshal` is `json.Unmarshal` into a fresh
`var response` of the response type: the value it leaves in `response` and its error. -/
def Client.NodeFee {α : Type} [Inhabited α] (c : Client)
    (jsonUnmarshal : List Nat → ApiResponse α × Option String) :
    ApiResponse α × Option String :=
  match c.callAPI "network node-fee" with
  | (_, some err) => (ApiResponse.zero, some ("Could not get network node fee: " ++ err))
  | (responseBytes, none) =>
    match jsonUnmarshal responseBytes with
    | (_, some err) =>
      (ApiResponse.zero, some ("Could not decode network node fee response: " ++ err))
    | (response, none) =>
      if response.Error ≠ "" then
        (ApiResponse.zero, some ("Could not get network node fee: " ++ response.Error))
      else (response, none)

/-- `Client.RplPrice()`. -/
def Client.RplPrice {α : Type} [Inhabited α] (c : Client)
    (jsonUnmarshal : List Nat → RplPriceResponse α × Option String) :
    RplPriceResponse α × Option String :=
  match c.callAPI "network rpl-price" with
  | (_, some err) => (RplPriceResponse.zero, some ("Could not get network RPL price: " ++ err))
  | (responseBytes, none) =>
    match jsonUnmarshal responseBytes with
    | (_, some err) =>
      (RplPriceResponse.zero, some ("Could not decode network RPL price response: " ++ err))
    | (response, none) =>
      if response.Error ≠ "" then
        (RplPriceResponse.zero, some ("Could not get network RPL price: " ++ response.Error))
      else
        let response := if response.RplPrice = none then
          { response with RplPrice := some 0 } else response
        let response := if response.MinPerMinipoolRplStake = none then
          { response with MinPerMinipoolRplStake := some 0 } else response
        let response := if response.MaxPerMinipoolRplStake = none then
          { response with MaxPerMinipoolRplStake := some 0 } else response
        (response, none)

/-- `Client.NetworkStats()`. -/
def Client.NetworkStats {α : Type} [Inhabited α] (c : Client)
    (jsonUnmarshal : List Nat → ApiResponse α × Option String) :
    ApiResponse α × Option String :=
  match c.callAPI "network stats" with
  | (_, some err) => (ApiResponse.zero, some ("Could not get network stats: " ++ err))
  | (responseBytes, none) =>
    match jsonUnmarshal responseBytes with
    | (_, some err) =>
      (ApiResponse.zero, some ("Could not decode network stats response: " ++ err))
    | (response, none) =>
      if response.Error ≠ "" then
        (ApiResponse.zero, some ("Could not get network stats: " ++ response.Error))
      else (response, none)

/-- `Client.TimezoneMap()`. -/
def Client.TimezoneMap {α : Type} [Inhabited α] (c : Client)
    (jsonUnmarshal : List Nat → ApiResponse α × Option String) :
    ApiResponse α × Option String :=
  match c.callAPI "network timezone-map" with
  | (_, some err) => (ApiResponse.zero, some ("Could not get network timezone map: " ++ err))
  | (responseBytes, none) =>
    match jsonUnmarshal responseBytes with
    | (_, some err) =>
      (ApiResponse.zero, some ("Could not decode network timezone map response: " ++ err))
    | (response, none) =>
      if response.Error ≠ "" then
        (ApiResponse.zero, some ("Could not get network timezone map: " ++ response.Error))
      else (response, none)

/-- `Client.CanGenerateRewardsTree(index)`; `%d` prints the index in decimal. -/
def Client.CanGenerateRewardsTree {α : Type} [Inhabited α] (c : Client) (index : Nat)
    (jsonUnmarshal : List Nat → ApiResponse α × Option String) :
    ApiResponse α × Option String :=
  match c.callAPI ("network can-generate-rewards-tree " ++ toString index) with
  | (_, some err) =>
    (ApiResponse.zero, some ("Could not check rewards tree generation status: " ++ err))
  | (responseBytes, none) =>
    match jsonUnmarshal responseBytes with
    | (_, some err) =>
      (ApiResponse.zero,
        some ("Could not decode rewards tree generation status response: " ++ err))
    | (response, none) =>
      if response.Error ≠ "" then
        (ApiResponse.zero,
          some ("Could not check rewards tree generation status: " ++ response.Error))
      else (response, none)

/-- `Client.GenerateRewardsTree(index)`. -/
def Client.GenerateRewardsTree {α : Type} [Inhabited α] (c : Client) (index : Nat)
    (jsonUnmarshal : List Nat → ApiResponse α × Option String) :
    ApiResponse α × Option String :=
  match c.callAPI ("network generate-rewards-tree " ++ toString index) with
  | (_, some err) =>
    (ApiResponse.zero, some ("Could not initialize rewards tree generation: " ++ err))
  | (responseBytes, none) =>
    match jsonUnmarshal responseBytes with
    | (_, some err) =>
      (ApiResponse.zero, some ("Could not decode rewards tree generation response: " ++ err))
    | (response, none) =>
      if response.Error ≠ "" then
        (ApiResponse.zero,
          some ("Could not initialize rewards tree generation: " ++ response.Error))
      else (response, none)

/-- `Client.GetActiveDAOProposals()`. -/
def Client.GetActiveDAOProposals {α : Type} [Inhabited α] (c : Client)
    (jsonUnmarshal : List Nat → ApiResponse α × Option String) :
    ApiResponse α × Option String :=
  match c.callAPI "network dao-proposals" with
  | (_, some err) =>
    (ApiResponse.zero, some ("could not request active DAO proposals: " ++ err))
  | (responseBytes, none) =>
    match jsonUnmarshal responseBytes with
    | (_, some err) =>
      (ApiResponse.zero, some ("could not decode dao proposals response: " ++ err))
    | (response, none) =>
      if response.Error ≠ "" then
        (ApiResponse.zero, some ("error after requesting dao proposals: " ++ response.Error))
      else (response, none)

/-- Sample client: every call returns the bytes `1, 2, 3` without error. -/
def sampleClient : Client := ⟨fun _ => ([1, 2, 3], none)⟩

/-- Sample decoder of `api.RplPriceResponse`: a response without `Error`, with the
price 7 present and both stakes absent. -/
def sampleRplPriceJson : List Nat → RplPriceResponse Nat × Option String :=
  fun _ => (⟨"", some 7, none, none, 42⟩, none)

/-- Sample decoder of a response that carries a daemon-side error and some data. -/
def sampleErrorJson : List Nat → ApiResponse Nat × Option String :=
  fun _ => (⟨"boom", 42⟩, none)

end Rocketpool

/-! ## Lemmas on the library functions -/

namespace Ssz

theorem putUint64_eq_LE64 (v : Nat) : putUint64 v = LE64 v := by
  simp [putUint64, LE64, List.range, List.range.loop, Nat.shiftRight_eq_div_pow]

theorem putUint64_length (v : Nat) : (putUint64 v).length = 8 := rfl

theorem lor_shiftLeft_eq_add {a i : Nat} (h : a < 2 ^ i) (b : Nat) :
    a ||| (b <<< i) = a + b * 2 ^ i := by
  rw [Nat.shiftLeft_eq, Nat.lor_comm, Nat.mul_comm, ← Nat.mul_add_lt_is_or h, Nat.add_comm]

theorem UnmarshallUint64_eq_leValue (s : List Nat) (hlen : s.length = 8)
    (hb : ∀ b ∈ s, b < 256) : UnmarshallUint64 s = leValue s := by
  match s, hlen with
  | [b0, b1, b2, b3, b4, b5, b6, b7], _ =>
    simp only [List.mem_cons, List.mem_singleton, forall_eq_or_imp, forall_eq,
      List.not_mem_nil, false_imp_iff, implies_true, and_true] at hb
    obtain ⟨h0, h1, h2, h3, h4, h5, h6, h7⟩ := hb
    simp only [UnmarshallUint64, List.getD_cons_zero, List.getD_cons_succ, leValue]
    rw [lor_shiftLeft_eq_add (i := 8) (by omega), lor_shiftLeft_eq_add (i := 16) (by omega),
      lor_shiftLeft_eq_add (i := 24) (by omega), lor_shiftLeft_eq_add (i := 32) (by omega),
      lor_shiftLeft_eq_add (i := 40) (by omega), lor_shiftLeft_eq_add (i := 48) (by omega),
      lor_shiftLeft_eq_add (i := 56) (by omega)]
    omega

theorem UnmarshallUint64_putUint64 (v : Nat) (hv : v < 2 ^ 64) :
    UnmarshallUint64 (putUint64 v) = v := by
  simp only [UnmarshallUint64, putUint64, List.getD_cons_zero, List.getD_cons_succ]
  rw [lor_shiftLeft_eq_add (i := 8) (by omega), lor_shiftLeft_eq_add (i := 16) (by omega),
    lor_shiftLeft_eq_add (i := 24) (by omega), lor_shiftLeft_eq_add (i := 32) (by omega),
    lor_shiftLeft_eq_add (i := 40) (by omega), lor_shiftLeft_eq_add (i := 48) (by omega),
    lor_shiftLeft_eq_add (i := 56) (by omega)]
  simp only [Nat.shiftRight_eq_div_pow]
  omega

theorem sub_zero_append (a b : List Nat) (n : Nat) (h : a.length = n) :
    sub (a ++ b) 0 n = a := by
  subst h; simp [sub]

theorem sub_append_right (a b : List Nat) (lo hi : Nat) (h : a.length ≤ lo) :
    sub (a ++ b) lo hi = sub b (lo - a.length) (hi - a.length) := by
  unfold sub
  rw [List.take_append_eq_append_take, List.drop_append_eq_append_drop,
    List.drop_eq_nil_of_le (by rw [List.length_take]; exact le_trans (min_le_right _ _) h),
    List.nil_append]
  by_cases hh : a.length ≤ hi
  · rw [List.length_take, min_eq_right hh]
  · have h0 : hi - a.length = 0 := by omega
    simp [h0]

theorem sub_full (a : List Nat) (n : Nat) (h : a.length = n) : sub a 0 n = a := by
  subst h; simp [sub]

end Ssz

/-! ## Closed forms of the generated methods -/

namespace Eth2
open Ssz

theorem sub_length (buf : List Nat) (lo hi : Nat) (h : hi ≤ buf.length) :
    (sub buf lo hi).length = hi - lo := by
  simp [sub, List.length_drop, List.length_take, min_eq_left h]

theorem mem_sub {buf : List Nat} {lo hi b : Nat} (h : b ∈ sub buf lo hi) : b ∈ buf :=
  List.mem_of_mem_take (List.mem_of_mem_drop h)

theorem ddns_MarshalSSZTo_valid (d : DepositDataNoSignature) (buf : List Nat)
    (hpk : d.PublicKey.len = 48) (hwc : d.WithdrawalCredentials.len = 32) :
    d.MarshalSSZTo buf =
      (buf ++ d.PublicKey.data ++ d.WithdrawalCredentials.data ++ putUint64 d.Amount, none) := by
  simp [DepositDataNoSignature.MarshalSSZTo, hpk, hwc, MarshalUint64]

theorem dd_MarshalSSZTo_valid (d : DepositData) (buf : List Nat)
    (hpk : d.PublicKey.len = 48) (hwc : d.WithdrawalCredentials.len = 32)
    (hsig : d.Signature.len = 96) :
    d.MarshalSSZTo buf =
      (buf ++ d.PublicKey.data ++ d.WithdrawalCredentials.data ++ putUint64 d.Amount
        ++ d.Signature.data, none) := by
  simp [DepositData.MarshalSSZTo, hpk, hwc, hsig, MarshalUint64]

theorem sr_MarshalSSZTo_valid (s : SigningRoot) (buf : List Nat)
    (hor : s.ObjectRoot.len = 32) (hdo : s.Domain.len = 32) :
    s.MarshalSSZTo buf = (buf ++ s.ObjectRoot.data ++ s.Domain.data, none) := by
  simp [SigningRoot.MarshalSSZTo, hor, hdo]

theorem ve_MarshalSSZTo_eq (v : VoluntaryExit) (buf : List Nat) :
    v.MarshalSSZTo buf = (buf ++ putUint64 v.Epoch ++ putUint64 v.ValidatorIndex, none) := by
  simp [VoluntaryExit.MarshalSSZTo, MarshalUint64]

theorem ddns_MarshalSSZ_valid (d : DepositDataNoSignature)
    (hpk : d.PublicKey.len = 48) (hwc : d.WithdrawalCredentials.len = 32) :
    d.MarshalSSZ =
      (d.PublicKey.data ++ d.WithdrawalCredentials.data ++ putUint64 d.Amount, none) := by
  simp [DepositDataNoSignature.MarshalSSZ, ddns_MarshalSSZTo_valid d _ hpk hwc]

theorem dd_MarshalSSZ_valid (d : DepositData)
    (hpk : d.PublicKey.len = 48) (hwc : d.WithdrawalCredentials.len = 32)
    (hsig : d.Signature.len = 96) :
    d.MarshalSSZ =
      (d.PublicKey.data ++ d.WithdrawalCredentials.data ++ putUint64 d.Amount
        ++ d.Signature.data, none) := by
  simp [DepositData.MarshalSSZ, dd_MarshalSSZTo_valid d _ hpk hwc hsig]

theorem sr_MarshalSSZ_valid (s : SigningRoot)
    (hor : s.ObjectRoot.len = 32) (hdo : s.Domain.len = 32) :
    s.MarshalSSZ = (s.ObjectRoot.data ++ s.Domain.data, none) := by
  simp [SigningRoot.MarshalSSZ, sr_MarshalSSZTo_valid s _ hor hdo]

theorem ve_MarshalSSZ_eq (v : VoluntaryExit) :
    v.MarshalSSZ = (putUint64 v.Epoch ++ putUint64 v.ValidatorIndex, none) := by
  simp [VoluntaryExit.MarshalSSZ, ve_MarshalSSZTo_eq]

theorem Slice.data_of_cap_zero (s : Slice) (h : s.cap = 0) : s.data = [] :=
  List.eq_nil_of_length_eq_zero (Nat.le_zero.mp (h ▸ s.len_le_cap))

/-- Decode of an exact-size buffer: every byte field becomes its old contents
followed by its span of the buffer, every integer field the value of its span. -/
theorem ddns_UnmarshalSSZ_exact (d : DepositDataNoSignature) (buf : List Nat)
    (h : buf.length = 88) :
    (d.UnmarshalSSZ buf).2 = none ∧
    (d.UnmarshalSSZ buf).1.PublicKey.data = d.PublicKey.data ++ sub buf 0 48 ∧
    (d.UnmarshalSSZ buf).1.WithdrawalCredentials.data =
      d.WithdrawalCredentials.data ++ sub buf 48 80 ∧
    (d.UnmarshalSSZ buf).1.Amount = UnmarshallUint64 (sub buf 80 88) := by
  by_cases hc1 : d.PublicKey.cap = 0 <;> by_cases hc2 : d.WithdrawalCredentials.cap = 0 <;>
    simp [DepositDataNoSignature.UnmarshalSSZ, h, hc1, hc2, Slice.append, Slice.make,
      Slice.data_of_cap_zero]

theorem dd_UnmarshalSSZ_exact (d : DepositData) (buf : List Nat)
    (h : buf.length = 184) :
    (d.UnmarshalSSZ buf).2 = none ∧
    (d.UnmarshalSSZ buf).1.PublicKey.data = d.PublicKey.data ++ sub buf 0 48 ∧
    (d.UnmarshalSSZ buf).1.WithdrawalCredentials.data =
      d.WithdrawalCredentials.data ++ sub buf 48 80 ∧
    (d.UnmarshalSSZ buf).1.Amount = UnmarshallUint64 (sub buf 80 88) ∧
    (d.UnmarshalSSZ buf).1.Signature.data = d.Signature.data ++ sub buf 88 184 := by
  by_cases hc1 : d.PublicKey.cap = 0 <;> by_cases hc2 : d.WithdrawalCredentials.cap = 0 <;>
    by_cases hc3 : d.Signature.cap = 0 <;>
    simp [DepositData.UnmarshalSSZ, h, hc1, hc2, hc3, Slice.append, Slice.make,
      Slice.data_of_cap_zero]

theorem sr_UnmarshalSSZ_exact (s : SigningRoot) (buf : List Nat)
    (h : buf.length = 64) :
    (s.UnmarshalSSZ buf).2 = none ∧
    (s.UnmarshalSSZ buf).1.ObjectRoot.data = s.ObjectRoot.data ++ sub buf 0 32 ∧
    (s.UnmarshalSSZ buf).1.Domain.data = s.Domain.data ++ sub buf 32 64 := by
  by_cases hc1 : s.ObjectRoot.cap = 0 <;> by_cases hc2 : s.Domain.cap = 0 <;>
    simp [SigningRoot.UnmarshalSSZ, h, hc1, hc2, Slice.append, Slice.make,
      Slice.data_of_cap_zero]

theorem ve_UnmarshalSSZ_exact (v : VoluntaryExit) (buf : List Nat)
    (h : buf.length = 16) :
    v.UnmarshalSSZ buf =
      (⟨UnmarshallUint64 (sub buf 0 8), UnmarshallUint64 (sub buf 8 16)⟩, none) := by
  simp [VoluntaryExit.UnmarshalSSZ, h]

theorem sub_append_right_of_length (a b : List Nat) (n lo hi : Nat) (h : a.length = n)
    (hlo : n ≤ lo) : sub (a ++ b) lo hi = sub b (lo - n) (hi - n) := by
  subst h; exact sub_append_right a b lo hi hlo

theorem ddns_spans (pk wc am : List Nat) (hpk : pk.length = 48)
    (hwc : wc.length = 32) (ham : am.length = 8) :
    (pk ++ wc ++ am).length = 88 ∧ sub (pk ++ wc ++ am) 0 48 = pk ∧
    sub (pk ++ wc ++ am) 48 80 = wc ∧ sub (pk ++ wc ++ am) 80 88 = am := by
  refine ⟨by simp [hpk, hwc, ham], ?_, ?_, ?_⟩
  · rw [List.append_assoc, sub_zero_append _ _ 48 hpk]
  · rw [List.append_assoc, sub_append_right_of_length _ _ 48 _ _ hpk (by decide),
      sub_zero_append _ _ _ hwc]
  · rw [List.append_assoc, sub_append_right_of_length _ _ 48 _ _ hpk (by decide),
      sub_append_right_of_length _ _ 32 _ _ hwc (by decide), sub_full _ _ ham]

theorem dd_spans (pk wc am sg : List Nat) (hpk : pk.length = 48)
    (hwc : wc.length = 32) (ham : am.length = 8) (hsg : sg.length = 96) :
    (pk ++ wc ++ am ++ sg).length = 184 ∧ sub (pk ++ wc ++ am ++ sg) 0 48 = pk ∧
    sub (pk ++ wc ++ am ++ sg) 48 80 = wc ∧ sub (pk ++ wc ++ am ++ sg) 80 88 = am ∧
    sub (pk ++ wc ++ am ++ sg) 88 184 = sg := by
  refine ⟨by simp [hpk, hwc, ham, hsg], ?_, ?_, ?_, ?_⟩
  · rw [List.append_assoc, List.append_assoc, sub_zero_append _ _ 48 hpk]
  · rw [List.append_assoc, List.append_assoc,
      sub_append_right_of_length _ _ 48 _ _ hpk (by decide), sub_zero_append _ _ _ hwc]
  · rw [List.append_assoc, List.append_assoc,
      sub_append_right_of_length _ _ 48 _ _ hpk (by decide),
      sub_append_right_of_length _ _ 32 _ _ hwc (by decide), sub_zero_append _ _ _ ham]
  · rw [List.append_assoc, List.append_assoc,
      sub_append_right_of_length _ _ 48 _ _ hpk (by decide),
      sub_append_right_of_length _ _ 32 _ _ hwc (by decide),
      sub_append_right_of_length _ _ 8 _ _ ham (by decide), sub_full _ _ hsg]

theorem sr_spans (r dm : List Nat) (hr : r.length = 32) (hdm : dm.length = 32) :
    (r ++ dm).length = 64 ∧ sub (r ++ dm) 0 32 = r ∧ sub (r ++ dm) 32 64 = dm := by
  refine ⟨by simp [hr, hdm], ?_, ?_⟩
  · rw [sub_zero_append _ _ 32 hr]
  · rw [sub_append_right_of_length _ _ 32 _ _ hr (by decide), sub_full _ _ hdm]

theorem ve_spans (e vi : List Nat) (he : e.length = 8) (hvi : vi.length = 8) :
    (e ++ vi).length = 16 ∧ sub (e ++ vi) 0 8 = e ∧ sub (e ++ vi) 8 16 = vi := by
  refine ⟨by simp [he, hvi], ?_, ?_⟩
  · rw [sub_zero_append _ _ 8 he]
  · rw [sub_append_right_of_length _ _ 8 _ _ he (by decide), sub_full _ _ hvi]

end Eth2

/-! ## The hasher -/

namespace Ssz

theorem getDepth_two : getDepth 2 = 1 := by decide
theorem getDepth_three : getDepth 3 = 2 := by decide
theorem getDepth_four : getDepth 4 = 2 := by decide

theorem zeroBytes_length : zeroBytes.length = 32 := rfl

/-- Merkle root of two chunks: one hash. -/
theorem merkleizeImpl_two (H : HashFn) (input : List Nat) (h : input.length = 64) :
    merkleizeImpl H [] input = H.sum input := by
  have ht : input.take 64 = input := List.take_of_length_le (by omega)
  simp [merkleizeImpl, h, getDepth_two, merkleizeLayers, hashPairs, ht, H.sum_length,
    List.take_append_eq_append_take, List.take_of_length_le]

/-- Merkle root of four chunks: two hashes, then one. -/
theorem merkleizeImpl_four (H : HashFn) (input : List Nat) (h : input.length = 128) :
    merkleizeImpl H [] input = H.sum (H.sum (input.take 64) ++ H.sum (input.drop 64)) := by
  have ht : (input.drop 64).take 64 = input.drop 64 :=
    List.take_of_length_le (by rw [List.length_drop]; omega)
  simp [merkleizeImpl, h, getDepth_four, merkleizeLayers, hashPairs, ht, H.sum_length,
    List.take_append_eq_append_take, List.take_of_length_le]

/-- Merkle root of three chunks: the layer is completed by the zero chunk. -/
theorem merkleizeImpl_three (H : HashFn) (input : List Nat) (h : input.length = 96) :
    merkleizeImpl H [] input
      = H.sum (H.sum (input.take 64) ++ H.sum (input.drop 64 ++ zeroBytes)) := by
  have ht : (input ++ zeroBytes).take 64 = input.take 64 := by
    rw [List.take_append_of_le_length (by omega)]
  have hd : ((input ++ zeroBytes).drop 64).take 64 = input.drop 64 ++ zeroBytes := by
    rw [List.drop_append_of_le_length (by omega)]
    exact List.take_of_length_le (by simp [h, zeroBytes_length])
  simp [merkleizeImpl, h, getDepth_three, merkleizeLayers, hashPairs, ht, hd, H.sum_length,
    zeroHashes, zeroBytes_length, List.take_append_eq_append_take, List.take_of_length_le]

theorem Merkleize_eq (H : HashFn) (p input : List Nat) :
    Hasher.Merkleize H ⟨p ++ input⟩ p.length = ⟨p ++ merkleizeImpl H [] input⟩ := by
  simp [Hasher.Merkleize]

theorem appendBytes32_of_aligned (hh : Hasher) (b : List Nat) (h : b.length % 32 = 0) :
    hh.appendBytes32 b = ⟨hh.buf ++ b⟩ := by
  simp [Hasher.appendBytes32, h]

theorem appendBytes32_of_rest (hh : Hasher) (b : List Nat) (r : Nat) (h : b.length % 32 = r)
    (hr : r ≠ 0) : hh.appendBytes32 b = ⟨hh.buf ++ (b ++ zeroBytes.take (32 - r))⟩ := by
  subst h
  simp only [Hasher.appendBytes32, ne_eq, hr, not_false_eq_true, if_true, List.append_assoc]

/-- `PutBytes` of a 32-byte value appends it as one chunk. -/
theorem PutBytes_32 (H : HashFn) (hh : Hasher) (b : List Nat) (h : b.length = 32) :
    hh.PutBytes H b = ⟨hh.buf ++ b⟩ := by
  rw [Hasher.PutBytes, if_pos (by omega), appendBytes32_of_aligned _ _ (by omega)]

/-- `PutBytes` of a 48-byte value appends the root of its two chunks. -/
theorem PutBytes_48 (H : HashFn) (hh : Hasher) (b : List Nat) (h : b.length = 48) :
    hh.PutBytes H b = ⟨hh.buf ++ H.sum (b ++ List.replicate 16 0)⟩ := by
  rw [Hasher.PutBytes, if_neg (by omega)]
  simp only [Hasher.Index]
  rw [appendBytes32_of_rest _ _ 16 (by omega) (by decide), Merkleize_eq,
    merkleizeImpl_two H _ (by simp [h, zeroBytes])]
  rfl

/-- `PutBytes` of a 96-byte value appends the root of its three chunks. -/
theorem PutBytes_96 (H : HashFn) (hh : Hasher) (b : List Nat) (h : b.length = 96) :
    hh.PutBytes H b
      = ⟨hh.buf ++ H.sum (H.sum (b.take 64) ++ H.sum (b.drop 64 ++ zeroBytes))⟩ := by
  rw [Hasher.PutBytes, if_neg (by omega)]
  simp only [Hasher.Index]
  rw [appendBytes32_of_aligned _ _ (by omega), Merkleize_eq, merkleizeImpl_three H _ h]

/-- `PutUint64` appends the 8 little-endian bytes and 24 zero bytes. -/
theorem PutUint64_eq (hh : Hasher) (v : Nat) :
    hh.PutUint64 v = ⟨hh.buf ++ (putUint64 v ++ List.replicate 24 0)⟩ := by
  rw [Hasher.PutUint64, appendBytes32_of_rest _ _ 8 (by rfl) (by decide)]
  rfl

/-- `Merkleize` of two pending chunks. -/
theorem Merkleize_two (H : HashFn) (p a : List Nat) (ha : a.length = 64) :
    Hasher.Merkleize H ⟨p ++ a⟩ p.length = ⟨p ++ H.sum a⟩ := by
  rw [Merkleize_eq, merkleizeImpl_two H _ ha]

/-- `Merkleize` of three pending chunks. -/
theorem Merkleize_three (H : HashFn) (p a b : List Nat) (ha : a.length = 64)
    (hb : b.length = 32) :
    Hasher.Merkleize H ⟨p ++ (a ++ b)⟩ p.length
      = ⟨p ++ H.sum (H.sum a ++ H.sum (b ++ zeroBytes))⟩ := by
  rw [Merkleize_eq, merkleizeImpl_three H _ (by rw [List.length_append, ha, hb]),
    List.take_left' ha, List.drop_left' ha]

/-- `Merkleize` of four pending chunks. -/
theorem Merkleize_four (H : HashFn) (p a b : List Nat) (ha : a.length = 64)
    (hb : b.length = 64) :
    Hasher.Merkleize H ⟨p ++ (a ++ b)⟩ p.length = ⟨p ++ H.sum (H.sum a ++ H.sum b)⟩ := by
  rw [Merkleize_eq, merkleizeImpl_four H _ (by rw [List.length_append, ha, hb]),
    List.take_left' ha, List.drop_left' ha]

end Ssz

namespace Eth2
open Ssz

/-- Leaf of a `uint64` field: its 8 little-endian bytes and 24 zero bytes. -/
theorem uint64_chunk_length (v : Nat) : (putUint64 v ++ List.replicate 24 0).length = 32 := rfl

/-- Closed form of `DepositDataNoSignature.HashTreeRootWith` on a valid record: the
hasher buffer gets the record's root appended. -/
theorem ddns_HashTreeRootWith_valid (H : HashFn) (d : DepositDataNoSignature) (hh : Hasher)
    (hpk : d.PublicKey.len = 48) (hwc : d.WithdrawalCredentials.len = 32) :
    d.HashTreeRootWith H hh =
      (⟨hh.buf ++ H.sum (H.sum (H.sum (d.PublicKey.data ++ List.replicate 16 0)
          ++ d.WithdrawalCredentials.data)
        ++ H.sum (putUint64 d.Amount ++ List.replicate 24 0 ++ zeroBytes))⟩, none) := by
  unfold DepositDataNoSignature.HashTreeRootWith
  simp only [hpk, hwc, ne_eq, not_true_eq_false, if_false, Hasher.Index]
  rw [PutBytes_48 H _ _ hpk, PutBytes_32 H _ _ hwc, PutUint64_eq]
  simp only [List.append_assoc hh.buf]
  rw [Merkleize_three H _ _ _
    (by rw [List.length_append, H.sum_length]; exact congrArg (32 + ·) hwc)
    (uint64_chunk_length _)]

/-- Closed form of `DepositData.HashTreeRootWith` on a valid record. -/
theorem dd_HashTreeRootWith_valid (H : HashFn) (d : DepositData) (hh : Hasher)
    (hpk : d.PublicKey.len = 48) (hwc : d.WithdrawalCredentials.len = 32)
    (hsig : d.Signature.len = 96) :
    d.HashTreeRootWith H hh =
      (⟨hh.buf ++ H.sum (H.sum (H.sum (d.PublicKey.data ++ List.replicate 16 0)
          ++ d.WithdrawalCredentials.data)
        ++ H.sum (putUint64 d.Amount ++ List.replicate 24 0
          ++ H.sum (H.sum (d.Signature.data.take 64)
            ++ H.sum (d.Signature.data.drop 64 ++ zeroBytes))))⟩, none) := by
  unfold DepositData.HashTreeRootWith
  simp only [hpk, hwc, hsig, ne_eq, not_true_eq_false, if_false, Hasher.Index]
  rw [PutBytes_48 H _ _ hpk, PutBytes_32 H _ _ hwc, PutUint64_eq, PutBytes_96 H _ _ hsig]
  simp only [List.append_assoc hh.buf]
  rw [List.append_assoc (H.sum _ ++ _), Merkleize_four H _ _ _
    (by rw [List.length_append, H.sum_length]; exact congrArg (32 + ·) hwc)
    (by rw [List.length_append, H.sum_length, uint64_chunk_length])]

/-- Closed form of `SigningRoot.HashTreeRootWith` on a valid record. -/
theorem sr_HashTreeRootWith_valid (H : HashFn) (s : SigningRoot) (hh : Hasher)
    (hor : s.ObjectRoot.len = 32) (hdo : s.Domain.len = 32) :
    s.HashTreeRootWith H hh = (⟨hh.buf ++ H.sum (s.ObjectRoot.data ++ s.Domain.data)⟩, none) := by
  unfold SigningRoot.HashTreeRootWith
  simp only [hor, hdo, ne_eq, not_true_eq_false, if_false, Hasher.Index]
  rw [PutBytes_32 H _ _ hor, PutBytes_32 H _ _ hdo]
  simp only [List.append_assoc hh.buf]
  rw [Merkleize_two H _ _ (by rw [List.length_append]; exact (congrArg (· + _) hor).trans (congrArg (32 + ·) hdo))]

/-- Closed form of `VoluntaryExit.HashTreeRootWith`. -/
theorem ve_HashTreeRootWith_eq (H : HashFn) (v : VoluntaryExit) (hh : Hasher) :
    v.HashTreeRootWith H hh =
      (⟨hh.buf ++ H.sum ((putUint64 v.Epoch ++ List.replicate 24 0)
        ++ (putUint64 v.ValidatorIndex ++ List.replicate 24 0))⟩, none) := by
  unfold VoluntaryExit.HashTreeRootWith
  simp only [Hasher.Index]
  rw [PutUint64_eq, PutUint64_eq]
  simp only [List.append_assoc hh.buf]
  rw [Merkleize_two H hh.buf ((putUint64 v.Epoch ++ List.replicate 24 0)
    ++ (putUint64 v.ValidatorIndex ++ List.replicate 24 0))
    (by rw [List.length_append, uint64_chunk_length, uint64_chunk_length])]

/-- `HashWithDefaultHasher` on a method that appends one 32-byte root. -/
theorem HashWithDefaultHasher_root (f : Hasher → Hasher × Option SszError) (root : List Nat)
    (hf : f ⟨[]⟩ = (⟨[] ++ root⟩, none)) (hlen : root.length = 32) :
    HashWithDefaultHasher f = (root, none) := by
  simp [HashWithDefaultHasher, hf, Hasher.HashRoot, hlen]

end Eth2

/-! ## SHA-256 test vectors -/

namespace Ssz

/-- The digest of `"abc"` (FIPS 180-4, example B.1). -/
theorem sha256_abc :
    Sha256.sha256 [0x61, 0x62, 0x63] =
      [0xba, 0x78, 0x16, 0xbf, 0x8f, 0x01, 0xcf, 0xea, 0x41, 0x41, 0x40, 0xde, 0x5d, 0xae,
       0x22, 0x23, 0xb0, 0x03, 0x61, 0xa3, 0x96, 0x17, 0x7a, 0x9c, 0xb4, 0x10, 0xff, 0x61,
       0xf2, 0x00, 0x15, 0xad] := by
  decide

set_option maxRecDepth 100000 in
/-- The digest of 64 zero bytes, the hash of two zero chunks (`zeroHashes[1]`). -/
theorem sha256_zero_pair :
    zeroHashes sha256Hash 1 =
      [0xf5, 0xa5, 0xfd, 0x42, 0xd1, 0x6a, 0x20, 0x30, 0x27, 0x98, 0xef, 0x6e, 0xd3, 0x09,
       0x97, 0x9b, 0x43, 0x00, 0x3d, 0x23, 0x20, 0xd9, 0xf0, 0xe8, 0xea, 0x98, 0x31, 0xa9,
       0x27, 0x59, 0xfb, 0x4b] := by
  decide

end Ssz

/-! ## Further lemmas on the codec -/

namespace Ssz

theorem leBytes_leValue (s : List Nat) (hb : ∀ b ∈ s, b < 256) :
    leBytes s.length (leValue s) = s := by
  induction s with
  | nil => rfl
  | cons b bs ih =>
    have hb0 : b < 256 := hb b (List.mem_cons_self _ _)
    have e1 : (b + 256 * leValue bs) % 256 = b := by omega
    have e2 : (b + 256 * leValue bs) / 256 = leValue bs := by omega
    simp only [List.length_cons, leBytes, leValue, e1, e2,
      ih (fun x hx => hb x (List.mem_cons_of_mem _ hx))]

theorem putUint64_eq_leBytes (v : Nat) : putUint64 v = leBytes 8 v := by
  simp only [putUint64, leBytes, Nat.shiftRight_eq_div_pow, Nat.div_div_eq_div_mul]

/-- Re-encoding the value of eight bytes gives the bytes back. -/
theorem putUint64_UnmarshallUint64 (s : List Nat) (hlen : s.length = 8)
    (hb : ∀ b ∈ s, b < 256) : putUint64 (UnmarshallUint64 s) = s := by
  rw [UnmarshallUint64_eq_leValue s hlen hb, putUint64_eq_leBytes, ← hlen, leBytes_leValue s hb]

/-- Consecutive spans of a buffer concatenate. -/
theorem sub_append_sub (buf : List Nat) (a b c : Nat) (hab : a ≤ b) (hbc : b ≤ c)
    (hc : c ≤ buf.length) : sub buf a b ++ sub buf b c = sub buf a c := by
  unfold sub
  have e : List.take b buf = List.take b (List.take c buf) := by
    rw [List.take_take, min_eq_left hbc]
  rw [e, ← List.drop_append_of_le_length (by rw [List.length_take, List.length_take]; omega),
    List.take_append_drop]

/-- The little-endian value of `n` bytes is below `256 ^ n`. -/
theorem leValue_lt (s : List Nat) (hb : ∀ b ∈ s, b < 256) : leValue s < 256 ^ s.length := by
  induction s with
  | nil => simp [leValue]
  | cons b bs ih =>
    have hb0 : b < 256 := hb b (List.mem_cons_self _ _)
    have := ih (fun x hx => hb x (List.mem_cons_of_mem _ hx))
    simp only [leValue, List.length_cons, pow_succ]
    omega

/-- The value decoded from eight bytes is a `uint64`. -/
theorem UnmarshallUint64_lt (s : List Nat) (hlen : s.length = 8) (hb : ∀ b ∈ s, b < 256) :
    UnmarshallUint64 s < 2 ^ 64 := by
  rw [UnmarshallUint64_eq_leValue s hlen hb]
  have := leValue_lt s hb
  rw [hlen] at this
  exact this

end Ssz

namespace Eth2
open Ssz

/-- Result of `HashTreeRoot` when `HashTreeRootWith` fails on the empty hasher. -/
theorem HashWithDefaultHasher_error (f : Hasher → Hasher × Option SszError) (hh : Hasher)
    (e : SszError) (hf : f ⟨[]⟩ = (hh, some e)) :
    HashWithDefaultHasher f = (zeroBytes, some e) := by
  simp [HashWithDefaultHasher, hf]

/-- Closed form of `DepositDataNoSignature.HashTreeRoot` on a valid record. -/
theorem ddns_HashTreeRoot_valid (H : HashFn) (d : DepositDataNoSignature)
    (hpk : d.PublicKey.len = 48) (hwc : d.WithdrawalCredentials.len = 32) :
    d.HashTreeRoot H =
      (H.sum (H.sum (H.sum (d.PublicKey.data ++ List.replicate 16 0)
          ++ d.WithdrawalCredentials.data)
        ++ H.sum (putUint64 d.Amount ++ List.replicate 24 0 ++ zeroBytes)), none) :=
  HashWithDefaultHasher_root _ _ (ddns_HashTreeRootWith_valid H d ⟨[]⟩ hpk hwc) (H.sum_length _)

/-- Closed form of `DepositData.HashTreeRoot` on a valid record. -/
theorem dd_HashTreeRoot_valid (H : HashFn) (d : DepositData)
    (hpk : d.PublicKey.len = 48) (hwc : d.WithdrawalCredentials.len = 32)
    (hsig : d.Signature.len = 96) :
    d.HashTreeRoot H =
      (H.sum (H.sum (H.sum (d.PublicKey.data ++ List.replicate 16 0)
          ++ d.WithdrawalCredentials.data)
        ++ H.sum (putUint64 d.Amount ++ List.replicate 24 0
          ++ H.sum (H.sum (d.Signature.data.take 64)
            ++ H.sum (d.Signature.data.drop 64 ++ zeroBytes)))), none) :=
  HashWithDefaultHasher_root _ _ (dd_HashTreeRootWith_valid H d ⟨[]⟩ hpk hwc hsig)
    (H.sum_length _)

/-- Closed form of `SigningRoot.HashTreeRoot` on a valid record. -/
theorem sr_HashTreeRoot_valid (H : HashFn) (s : SigningRoot)
    (hor : s.ObjectRoot.len = 32) (hdo : s.Domain.len = 32) :
    s.HashTreeRoot H = (H.sum (s.ObjectRoot.data ++ s.Domain.data), none) :=
  HashWithDefaultHasher_root _ _ (sr_HashTreeRootWith_valid H s ⟨[]⟩ hor hdo) (H.sum_length _)

/-- Closed form of `VoluntaryExit.HashTreeRoot`. -/
theorem ve_HashTreeRoot_eq (H : HashFn) (v : VoluntaryExit) :
    v.HashTreeRoot H =
      (H.sum ((putUint64 v.Epoch ++ List.replicate 24 0)
        ++ (putUint64 v.ValidatorIndex ++ List.replicate 24 0)), none) :=
  HashWithDefaultHasher_root _ _ (ve_HashTreeRootWith_eq H v ⟨[]⟩) (H.sum_length _)

/-- `DepositDataNoSignature.HashTreeRootWith` on an invalid record: the hasher holds
the chunks of the fields before the first mismatched one. -/
theorem ddns_HashTreeRootWith_invalid (H : HashFn) (d : DepositDataNoSignature) (hh : Hasher) :
    (d.PublicKey.len ≠ 48 → d.HashTreeRootWith H hh = (hh, some .ErrBytesLength)) ∧
    (d.PublicKey.len = 48 → d.WithdrawalCredentials.len ≠ 32 →
      d.HashTreeRootWith H hh =
        (⟨hh.buf ++ H.sum (d.PublicKey.data ++ List.replicate 16 0)⟩, some .ErrBytesLength)) := by
  constructor
  · intro h1; simp [DepositDataNoSignature.HashTreeRootWith, h1]
  · intro h1 h2
    simp only [DepositDataNoSignature.HashTreeRootWith, h1, h2, ne_eq, not_true_eq_false,
      not_false_eq_true, if_false, if_true]
    rw [PutBytes_48 H _ _ h1]

/-- `DepositData.HashTreeRootWith` on an invalid record. -/
theorem dd_HashTreeRootWith_invalid (H : HashFn) (d : DepositData) (hh : Hasher) :
    (d.PublicKey.len ≠ 48 → d.HashTreeRootWith H hh = (hh, some .ErrBytesLength)) ∧
    (d.PublicKey.len = 48 → d.WithdrawalCredentials.len ≠ 32 →
      d.HashTreeRootWith H hh =
        (⟨hh.buf ++ H.sum (d.PublicKey.data ++ List.replicate 16 0)⟩,
          some .ErrBytesLength)) ∧
    (d.PublicKey.len = 48 → d.WithdrawalCredentials.len = 32 → d.Signature.len ≠ 96 →
      d.HashTreeRootWith H hh =
        (⟨hh.buf ++ H.sum (d.PublicKey.data ++ List.replicate 16 0)
            ++ d.WithdrawalCredentials.data ++ (putUint64 d.Amount ++ List.replicate 24 0)⟩,
          some .ErrBytesLength)) := by
  refine ⟨?_, ?_, ?_⟩
  · intro h1; simp [DepositData.HashTreeRootWith, h1]
  · intro h1 h2
    simp only [DepositData.HashTreeRootWith, h1, h2, ne_eq, not_true_eq_false,
      not_false_eq_true, if_false, if_true]
    rw [PutBytes_48 H _ _ h1]
  · intro h1 h2 h3
    simp only [DepositData.HashTreeRootWith, h1, h2, h3, ne_eq, not_true_eq_false,
      not_false_eq_true, if_false, if_true]
    rw [PutBytes_48 H _ _ h1, PutBytes_32 H _ _ h2, PutUint64_eq]

/-- `SigningRoot.HashTreeRootWith` on an invalid record. -/
theorem sr_HashTreeRootWith_invalid (H : HashFn) (s : SigningRoot) (hh : Hasher) :
    (s.ObjectRoot.len ≠ 32 → s.HashTreeRootWith H hh = (hh, some .ErrBytesLength)) ∧
    (s.ObjectRoot.len = 32 → s.Domain.len ≠ 32 →
      s.HashTreeRootWith H hh = (⟨hh.buf ++ s.ObjectRoot.data⟩, some .ErrBytesLength)) := by
  constructor
  · intro h1; simp [SigningRoot.HashTreeRootWith, h1]
  · intro h1 h2
    simp only [SigningRoot.HashTreeRootWith, h1, h2, ne_eq, not_true_eq_false,
      not_false_eq_true, if_false, if_true]
    rw [PutBytes_32 H _ _ h1]

/-- The error of `DepositDataNoSignature.HashTreeRoot`, and the zero array beside it. -/
theorem ddns_HashTreeRoot_error (H : HashFn) (d : DepositDataNoSignature) :
    ((d.HashTreeRoot H).2 = some .ErrBytesLength ↔
        (d.PublicKey.len ≠ 48 ∨ d.WithdrawalCredentials.len ≠ 32)) ∧
    ((d.HashTreeRoot H).2 = none ↔ (d.PublicKey.len = 48 ∧ d.WithdrawalCredentials.len = 32)) ∧
    ((d.PublicKey.len ≠ 48 ∨ d.WithdrawalCredentials.len ≠ 32) →
      d.HashTreeRoot H = (zeroBytes, some .ErrBytesLength)) := by
  by_cases h1 : d.PublicKey.len = 48
  · by_cases h2 : d.WithdrawalCredentials.len = 32
    · simp [ddns_HashTreeRoot_valid H d h1 h2, h1, h2]
    · have e := HashWithDefaultHasher_error _ _ _
        ((ddns_HashTreeRootWith_invalid H d ⟨[]⟩).2 h1 h2)
      simp [DepositDataNoSignature.HashTreeRoot, e, h1, h2]
  · have e := HashWithDefaultHasher_error _ _ _ ((ddns_HashTreeRootWith_invalid H d ⟨[]⟩).1 h1)
    simp [DepositDataNoSignature.HashTreeRoot, e, h1]

/-- The error of `DepositData.HashTreeRoot`, and the zero array beside it. -/
theorem dd_HashTreeRoot_error (H : HashFn) (d : DepositData) :
    ((d.HashTreeRoot H).2 = some .ErrBytesLength ↔
        (d.PublicKey.len ≠ 48 ∨ d.WithdrawalCredentials.len ≠ 32 ∨ d.Signature.len ≠ 96)) ∧
    ((d.HashTreeRoot H).2 = none ↔
        (d.PublicKey.len = 48 ∧ d.WithdrawalCredentials.len = 32 ∧ d.Signature.len = 96)) ∧
    ((d.PublicKey.len ≠ 48 ∨ d.WithdrawalCredentials.len ≠ 32 ∨ d.Signature.len ≠ 96) →
      d.HashTreeRoot H = (zeroBytes, some .ErrBytesLength)) := by
  by_cases h1 : d.PublicKey.len = 48
  · by_cases h2 : d.WithdrawalCredentials.len = 32
    · by_cases h3 : d.Signature.len = 96
      · simp [dd_HashTreeRoot_valid H d h1 h2 h3, h1, h2, h3]
      · have e := HashWithDefaultHasher_error _ _ _
          ((dd_HashTreeRootWith_invalid H d ⟨[]⟩).2.2 h1 h2 h3)
        simp [DepositData.HashTreeRoot, e, h1, h2, h3]
    · have e := HashWithDefaultHasher_error _ _ _
        ((dd_HashTreeRootWith_invalid H d ⟨[]⟩).2.1 h1 h2)
      simp [DepositData.HashTreeRoot, e, h1, h2]
  · have e := HashWithDefaultHasher_error _ _ _ ((dd_HashTreeRootWith_invalid H d ⟨[]⟩).1 h1)
    simp [DepositData.HashTreeRoot, e, h1]

/-- The error of `SigningRoot.HashTreeRoot`, and the zero array beside it. -/
theorem sr_HashTreeRoot_error (H : HashFn) (s : SigningRoot) :
    ((s.HashTreeRoot H).2 = some .ErrBytesLength ↔
        (s.ObjectRoot.len ≠ 32 ∨ s.Domain.len ≠ 32)) ∧
    ((s.HashTreeRoot H).2 = none ↔ (s.ObjectRoot.len = 32 ∧ s.Domain.len = 32)) ∧
    ((s.ObjectRoot.len ≠ 32 ∨ s.Domain.len ≠ 32) →
      s.HashTreeRoot H = (zeroBytes, some .ErrBytesLength)) := by
  by_cases h1 : s.ObjectRoot.len = 32
  · by_cases h2 : s.Domain.len = 32
    · simp [sr_HashTreeRoot_valid H s h1 h2, h1, h2]
    · have e := HashWithDefaultHasher_error _ _ _
        ((sr_HashTreeRootWith_invalid H s ⟨[]⟩).2 h1 h2)
      simp [SigningRoot.HashTreeRoot, e, h1, h2]
  · have e := HashWithDefaultHasher_error _ _ _ ((sr_HashTreeRootWith_invalid H s ⟨[]⟩).1 h1)
    simp [SigningRoot.HashTreeRoot, e, h1]

/-- The error of `DepositDataNoSignature.MarshalSSZ`. -/
theorem ddns_MarshalSSZ_error (d : DepositDataNoSignature) :
    (d.MarshalSSZ.2 = some .ErrBytesLength ↔
        (d.PublicKey.len ≠ 48 ∨ d.WithdrawalCredentials.len ≠ 32)) ∧
    (d.MarshalSSZ.2 = none ↔ (d.PublicKey.len = 48 ∧ d.WithdrawalCredentials.len = 32)) := by
  by_cases h1 : d.PublicKey.len = 48 <;> by_cases h2 : d.WithdrawalCredentials.len = 32 <;>
    simp [DepositDataNoSignature.MarshalSSZ, DepositDataNoSignature.MarshalSSZTo, h1, h2]

/-- The error of `DepositData.MarshalSSZ`. -/
theorem dd_MarshalSSZ_error (d : DepositData) :
    (d.MarshalSSZ.2 = some .ErrBytesLength ↔
        (d.PublicKey.len ≠ 48 ∨ d.WithdrawalCredentials.len ≠ 32 ∨ d.Signature.len ≠ 96)) ∧
    (d.MarshalSSZ.2 = none ↔
        (d.PublicKey.len = 48 ∧ d.WithdrawalCredentials.len = 32 ∧ d.Signature.len = 96)) := by
  by_cases h1 : d.PublicKey.len = 48 <;> by_cases h2 : d.WithdrawalCredentials.len = 32 <;>
    by_cases h3 : d.Signature.len = 96 <;>
    simp [DepositData.MarshalSSZ, DepositData.MarshalSSZTo, h1, h2, h3]

/-- The error of `SigningRoot.MarshalSSZ`. -/
theorem sr_MarshalSSZ_error (s : SigningRoot) :
    (s.MarshalSSZ.2 = some .ErrBytesLength ↔ (s.ObjectRoot.len ≠ 32 ∨ s.Domain.len ≠ 32)) ∧
    (s.MarshalSSZ.2 = none ↔ (s.ObjectRoot.len = 32 ∧ s.Domain.len = 32)) := by
  by_cases h1 : s.ObjectRoot.len = 32 <;> by_cases h2 : s.Domain.len = 32 <;>
    simp [SigningRoot.MarshalSSZ, SigningRoot.MarshalSSZTo, h1, h2]

end Eth2

/-! ## Equal roots and collisions of the hash primitive -/

namespace Eth2
open Ssz

/-- Without a collision the hash primitive is injective on pairs of chunks. -/
theorem sum_inj_of_no_collision (H : HashFn) (hno : ¬ H.Collision) (x y : List Nat)
    (hx : x.length = 64) (hy : y.length = 64) (h : H.sum x = H.sum y) : x = y := by
  by_contra hne
  exact hno ⟨x, y, hx, hy, hne, h⟩

/-- The little-endian encoding is injective on `uint64` values. -/
theorem putUint64_inj (v w : Nat) (hv : v < 2 ^ 64) (hw : w < 2 ^ 64)
    (h : putUint64 v = putUint64 w) : v = w := by
  rw [← UnmarshallUint64_putUint64 v hv, ← UnmarshallUint64_putUint64 w hw, h]

/-- Equal roots of two `VoluntaryExit` values: equal fields, or a collision of the hash
primitive. -/
theorem ve_root_eq_fields_or_collision (H : HashFn) (v w : VoluntaryExit)
    (hv : v.Epoch < 2 ^ 64 ∧ v.ValidatorIndex < 2 ^ 64)
    (hw : w.Epoch < 2 ^ 64 ∧ w.ValidatorIndex < 2 ^ 64)
    (h : v.HashTreeRoot H = w.HashTreeRoot H) : v = w ∨ H.Collision := by
  by_cases hno : H.Collision
  · exact Or.inr hno
  · left
    rw [ve_HashTreeRoot_eq, ve_HashTreeRoot_eq] at h
    have l (x y : Nat) : ((putUint64 x ++ List.replicate 24 0)
        ++ (putUint64 y ++ List.replicate 24 0)).length = 64 := rfl
    have e := sum_inj_of_no_collision H hno _ _ (l _ _) (l _ _) (congrArg Prod.fst h)
    obtain ⟨e1, e2⟩ := List.append_inj e rfl
    have f1 := putUint64_inj _ _ hv.1 hw.1 (List.append_inj e1 rfl).1
    have f2 := putUint64_inj _ _ hv.2 hw.2 (List.append_inj e2 rfl).1
    cases v; cases w; simp_all

/-- Equal roots of two valid `SigningRoot` values: equal fields, or a collision. -/
theorem sr_root_eq_fields_or_collision (H : HashFn) (s s' : SigningRoot)
    (hs : s.ObjectRoot.len = 32 ∧ s.Domain.len = 32)
    (hs' : s'.ObjectRoot.len = 32 ∧ s'.Domain.len = 32)
    (h : s.HashTreeRoot H = s'.HashTreeRoot H) :
    (s.ObjectRoot.data = s'.ObjectRoot.data ∧ s.Domain.data = s'.Domain.data) ∨
      H.Collision := by
  by_cases hno : H.Collision
  · exact Or.inr hno
  · left
    rw [sr_HashTreeRoot_valid H s hs.1 hs.2, sr_HashTreeRoot_valid H s' hs'.1 hs'.2] at h
    have l (x : SigningRoot) (h1 : x.ObjectRoot.len = 32) (h2 : x.Domain.len = 32) :
        (x.ObjectRoot.data ++ x.Domain.data).length = 64 := (sr_spans _ _ h1 h2).1
    have e := sum_inj_of_no_collision H hno _ _ (l s hs.1 hs.2) (l s' hs'.1 hs'.2)
      (congrArg Prod.fst h)
    exact List.append_inj e (hs.1.trans hs'.1.symm)

/-- Equal roots of two valid `DepositDataNoSignature` values: equal fields, or a
collision. -/
theorem ddns_root_eq_fields_or_collision (H : HashFn) (a a' : DepositDataNoSignature)
    (ha : a.PublicKey.len = 48 ∧ a.WithdrawalCredentials.len = 32 ∧ a.Amount < 2 ^ 64)
    (ha' : a'.PublicKey.len = 48 ∧ a'.WithdrawalCredentials.len = 32 ∧ a'.Amount < 2 ^ 64)
    (h : a.HashTreeRoot H = a'.HashTreeRoot H) :
    (a.PublicKey.data = a'.PublicKey.data ∧
      a.WithdrawalCredentials.data = a'.WithdrawalCredentials.data ∧ a.Amount = a'.Amount) ∨
      H.Collision := by
  by_cases hno : H.Collision
  · exact Or.inr hno
  · left
    have inj := sum_inj_of_no_collision H hno
    rw [ddns_HashTreeRoot_valid H a ha.1 ha.2.1, ddns_HashTreeRoot_valid H a' ha'.1 ha'.2.1] at h
    have l32 (x y : List Nat) (hy : y.length = 32) : (H.sum x ++ y).length = 64 := by
      rw [List.length_append, H.sum_length, hy]
    have l48 (x : List Nat) (hx : x.length = 48) : (x ++ List.replicate 16 0).length = 64 := by
      rw [List.length_append, hx]; rfl
    have e := inj _ _ (l32 _ _ (H.sum_length _)) (l32 _ _ (H.sum_length _))
      (congrArg Prod.fst h)
    obtain ⟨e1, e2⟩ := List.append_inj e ((H.sum_length _).trans (H.sum_length _).symm)
    have e1' := inj _ _ (l32 _ _ ha.2.1) (l32 _ _ ha'.2.1) e1
    obtain ⟨e3, e4⟩ := List.append_inj e1' ((H.sum_length _).trans (H.sum_length _).symm)
    have e3' := inj _ _ (l48 _ ha.1) (l48 _ ha'.1) e3
    have lz (x : Nat) : (putUint64 x ++ List.replicate 24 0 ++ zeroBytes).length = 64 := rfl
    have e2' := inj _ _ (lz _) (lz _) e2
    exact ⟨(List.append_inj e3' (ha.1.trans ha'.1.symm)).1, e4,
      putUint64_inj _ _ ha.2.2 ha'.2.2
        (List.append_inj (List.append_inj e2' rfl).1 rfl).1⟩

/-- Equal roots of two valid `DepositData` values: equal fields, or a collision. -/
theorem dd_root_eq_fields_or_collision (H : HashFn) (b b' : DepositData)
    (hb : b.PublicKey.len = 48 ∧ b.WithdrawalCredentials.len = 32 ∧ b.Amount < 2 ^ 64 ∧
      b.Signature.len = 96)
    (hb' : b'.PublicKey.len = 48 ∧ b'.WithdrawalCredentials.len = 32 ∧ b'.Amount < 2 ^ 64 ∧
      b'.Signature.len = 96)
    (h : b.HashTreeRoot H = b'.HashTreeRoot H) :
    (b.PublicKey.data = b'.PublicKey.data ∧
      b.WithdrawalCredentials.data = b'.WithdrawalCredentials.data ∧ b.Amount = b'.Amount ∧
      b.Signature.data = b'.Signature.data) ∨ H.Collision := by
  by_cases hno : H.Collision
  · exact Or.inr hno
  · left
    have inj := sum_inj_of_no_collision H hno
    rw [dd_HashTreeRoot_valid H b hb.1 hb.2.1 hb.2.2.2,
      dd_HashTreeRoot_valid H b' hb'.1 hb'.2.1 hb'.2.2.2] at h
    have l32 (x y : List Nat) (hy : y.length = 32) : (H.sum x ++ y).length = 64 := by
      rw [List.length_append, H.sum_length, hy]
    have l48 (x : List Nat) (hx : x.length = 48) : (x ++ List.replicate 16 0).length = 64 := by
      rw [List.length_append, hx]; rfl
    have lam (v : Nat) (x : List Nat) :
        (putUint64 v ++ List.replicate 24 0 ++ H.sum x).length = 64 := by
      rw [List.length_append, H.sum_length]; rfl
    have lt64 (x : DepositData) (hx : x.Signature.len = 96) :
        (x.Signature.data.take 64).length = 64 := by
      rw [List.length_take]; exact min_eq_left (by rw [show x.Signature.data.length = 96 from hx]; decide)
    have ld64 (x : DepositData) (hx : x.Signature.len = 96) :
        (x.Signature.data.drop 64 ++ zeroBytes).length = 64 := by
      rw [List.length_append, List.length_drop, show x.Signature.data.length = 96 from hx]; rfl
    have e := inj _ _ (l32 _ _ (H.sum_length _)) (l32 _ _ (H.sum_length _))
      (congrArg Prod.fst h)
    obtain ⟨e1, e2⟩ := List.append_inj e ((H.sum_length _).trans (H.sum_length _).symm)
    have e1' := inj _ _ (l32 _ _ hb.2.1) (l32 _ _ hb'.2.1) e1
    obtain ⟨e3, e4⟩ := List.append_inj e1' ((H.sum_length _).trans (H.sum_length _).symm)
    have e3' := inj _ _ (l48 _ hb.1) (l48 _ hb'.1) e3
    have e2' := inj _ _ (lam _ _) (lam _ _) e2
    obtain ⟨e5, e6⟩ := List.append_inj e2' rfl
    have e6' := inj _ _ (l32 _ _ (H.sum_length _)) (l32 _ _ (H.sum_length _)) e6
    obtain ⟨e7, e8⟩ := List.append_inj e6' ((H.sum_length _).trans (H.sum_length _).symm)
    have e7' := inj _ _ (lt64 b hb.2.2.2) (lt64 b' hb'.2.2.2) e7
    have e8' := inj _ _ (ld64 b hb.2.2.2) (ld64 b' hb'.2.2.2) e8
    have e8'' := (List.append_inj' e8' rfl).1
    refine ⟨(List.append_inj e3' (hb.1.trans hb'.1.symm)).1, e4,
      putUint64_inj _ _ hb.2.2.1 hb'.2.2.1 (List.append_inj e5 rfl).1, ?_⟩
    rw [← List.take_append_drop 64 b.Signature.data,
      ← List.take_append_drop 64 b'.Signature.data, e7', e8'']

end Eth2

/-! ## The deposit command -/

namespace Deposit

/-- The calls made from the transfer on: the trace so far, `SendFromNode`, and
possibly `CompleteDeposit`. -/
theorem mem_transferAndComplete (env : Env) (cc : CanCompleteDepositResponse) (t : List Call)
    (c : Call) (h : c ∈ (transferAndComplete env cc t).1) :
    c ∈ t ∨ c = .SendFromNode cc.RplRequiredWei ∨
      c = .CompleteDeposit cc.EtherRequiredWei cc.DepositDurationId := by
  unfold transferAndComplete at h
  split_ifs at h <;> simp at h <;> tauto

/-- Appending a call that moves no funds keeps a trace free of fund-moving calls. -/
theorem no_funds_append (t : List Call) (x : Call) (ht : ∀ c ∈ t, c.movesFunds = false)
    (hx : x.movesFunds = false) : ∀ c ∈ t ++ [x], c.movesFunds = false := by
  intro c hc
  rcases List.mem_append.mp hc with h | h
  · exact ht c h
  · rw [List.mem_singleton.mp h]; exact hx

/-- What a fund-moving call in the trace of the case `"1"` implies. -/
theorem completeDeposit_movesFunds (env : Env) (status : DepositStatusResponse)
    (t : List Call) (ht : ∀ c ∈ t, c.movesFunds = false) (c : Call)
    (h : c ∈ (completeDeposit env status t).1) (hc : c.movesFunds = true) :
    ∃ cc, env.CanCompleteDeposit = some cc ∧ cc.DepositsDisabled = false ∧
      cc.MinipoolCreationDisabled = false ∧ cc.InsufficientNodeEtherBalance = false ∧
      (c.isBuyTokens = true →
        0 < cc.RplShortByWei ∧
        ∃ liquidity price, env.GetTokenLiquidity = some liquidity ∧
          cc.RplShortByWei ≤ liquidity.ExchangeTokenBalanceWei ∧
          env.GetTokenPrice cc.RplShortByWei = some price ∧
          cc.EtherRequiredWei + price.MaxEtherPriceWei ≤ status.NodeAccountBalanceEtherWei ∧
          ¬ (env.confirmAnswer.data.head? = some 'n' ∨
            env.confirmAnswer.data.head? = some 'N')) := by
  have stop : ∀ t' : List Call, (∀ x ∈ t', x.movesFunds = false) → c ∈ t' → False :=
    fun t' h1 h2 => by rw [h1 c h2] at hc; exact Bool.false_ne_true hc
  have t1 := no_funds_append t .CanCompleteDeposit ht rfl
  unfold completeDeposit at h
  cases hcc : env.CanCompleteDeposit with
  | none => rw [hcc] at h; exact (stop _ t1 h).elim
  | some cc =>
    rw [hcc] at h
    simp only at h
    by_cases hflags : (cc.DepositsDisabled || cc.MinipoolCreationDisabled
        || cc.InsufficientNodeEtherBalance) = true
    · rw [if_pos hflags] at h; exact (stop _ t1 h).elim
    · rw [if_neg hflags] at h
      simp only [Bool.or_eq_true, not_or, Bool.not_eq_true] at hflags
      refine ⟨cc, rfl, hflags.1.1, hflags.1.2, hflags.2, ?_⟩
      by_cases hshort : cc.RplShortByWei > 0
      · rw [if_pos hshort] at h
        have t2 := no_funds_append _ .GetTokenLiquidity t1 rfl
        cases hl : env.GetTokenLiquidity with
        | none => rw [hl] at h; exact (stop _ t2 h).elim
        | some liquidity =>
          rw [hl] at h
          simp only at h
          by_cases hliq : liquidity.ExchangeTokenBalanceWei < cc.RplShortByWei
          · rw [if_pos hliq] at h; exact (stop _ t2 h).elim
          · rw [if_neg hliq] at h
            have t3 := no_funds_append _ (.GetTokenPrice cc.RplShortByWei) t2 rfl
            cases hp : env.GetTokenPrice cc.RplShortByWei with
            | none => rw [hp] at h; exact (stop _ t3 h).elim
            | some price =>
              rw [hp] at h
              simp only at h
              by_cases hbal : status.NodeAccountBalanceEtherWei
                  < cc.EtherRequiredWei + price.MaxEtherPriceWei
              · rw [if_pos hbal] at h; exact (stop _ t3 h).elim
              · rw [if_neg hbal] at h
                have t4 := no_funds_append _ .PromptConfirm t3 rfl
                cases ha : env.confirmAnswer.data with
                | nil => rw [ha] at h; exact (stop _ t4 h).elim
                | cons ch rest =>
                  rw [ha] at h
                  simp only at h
                  by_cases hn : ch = 'n' ∨ ch = 'N'
                  · rw [if_pos hn] at h; exact (stop _ t4 h).elim
                  · intro _
                    refine ⟨hshort, liquidity, price, rfl, not_lt.mp hliq, rfl,
                      not_lt.mp hbal, ?_⟩
                    simpa [List.head?] using hn
      · rw [if_neg hshort] at h
        intro hb
        rcases mem_transferAndComplete env cc _ c h with h1 | h1 | h1
        · exact (stop _ t1 h1).elim
        · rw [h1] at hb; exact (Bool.false_ne_true hb).elim
        · rw [h1] at hb; exact (Bool.false_ne_true hb).elim

/-- What a fund-moving call in the trace after the action prompt implies. -/
theorem promptAction_movesFunds (env : Env) (status : DepositStatusResponse)
    (t : List Call) (ht : ∀ c ∈ t, c.movesFunds = false) (c : Call)
    (h : c ∈ (promptAction env status t).1) (hc : c.movesFunds = true) :
    env.actionAnswer = "1" ∧ c ∈ (completeDeposit env status (t ++ [.PromptAction])).1 := by
  have stop : ∀ t' : List Call, (∀ x ∈ t', x.movesFunds = false) → c ∈ t' → False :=
    fun t' h1 h2 => by rw [h1 c h2] at hc; exact Bool.false_ne_true hc
  have t1 := no_funds_append t .PromptAction ht rfl
  unfold promptAction at h
  simp only at h
  by_cases h1 : env.actionAnswer = "1"
  · rw [if_pos h1] at h; exact ⟨h1, h⟩
  · rw [if_neg h1] at h
    by_cases h2 : env.actionAnswer = "2"
    · rw [if_pos h2] at h
      have t2 := no_funds_append _ .CancelDeposit t1 rfl
      split_ifs at h <;> exact (stop _ t2 h).elim
    · rw [if_neg h2] at h; exact (stop _ t1 h).elim

/-- A fund-moving call in a run of `makeDeposit` was made after the action prompt,
under the deposit status then in effect. -/
theorem makeDeposit_movesFunds (env : Env) (durationId : String) (c : Call)
    (h : c ∈ (makeDeposit env durationId).1) (hc : c.movesFunds = true) :
    ∃ status t, (∀ x ∈ t, x.movesFunds = false) ∧ c ∈ (promptAction env status t).1 ∧
      ((env.GetDepositStatus 0 = some status ∧ status.ReservationExists = true) ∨
        (∃ st0, env.GetDepositStatus 0 = some st0 ∧ st0.ReservationExists = false ∧
          env.GetDepositStatus 1 = some status)) := by
  have stop : ∀ t' : List Call, (∀ x ∈ t', x.movesFunds = false) → c ∈ t' → False :=
    fun t' h1 h2 => by rw [h1 c h2] at hc; exact Bool.false_ne_true hc
  have t0 : ∀ x ∈ [Call.NewProvider], x.movesFunds = false := by
    intro x hx; rw [List.mem_singleton.mp hx]; rfl
  have t1 := no_funds_append _ .GetDepositStatus t0 rfl
  unfold makeDeposit at h
  simp only at h
  by_cases hp : env.NewProvider = true
  · simp only [hp, Bool.not_true, Bool.false_eq_true, if_false] at h
    cases hs : env.GetDepositStatus 0 with
    | none => rw [hs] at h; exact (stop _ t1 h).elim
    | some status =>
      rw [hs] at h
      simp only at h
      by_cases hr : status.ReservationExists = true
      · rw [if_pos hr] at h
        exact ⟨status, _, t1, h, Or.inl ⟨rfl, hr⟩⟩
      · rw [if_neg hr] at h
        have t2 := no_funds_append _ .CreateValidatorKey t1 rfl
        cases hk : env.CreateValidatorKey with
        | none => rw [hk] at h; exact (stop _ t2 h).elim
        | some key =>
          rw [hk] at h
          simp only at h
          have t3 := no_funds_append _ (.CanReserveDeposit key) t2 rfl
          cases hcr : env.CanReserveDeposit key with
          | none => rw [hcr] at h; exact (stop _ t3 h).elim
          | some canReserve =>
            rw [hcr] at h
            simp only at h
            by_cases hsu : canReserve.Success = true
            · simp only [hsu, Bool.not_true, Bool.false_eq_true, if_false] at h
              have t4 := no_funds_append _ (.ReserveDeposit key durationId) t3 rfl
              by_cases hrd : env.ReserveDeposit key durationId = true
              · simp only [hrd, Bool.not_true, Bool.false_eq_true, if_false] at h
                have t5 := no_funds_append _ .GetDepositStatus t4 rfl
                cases hs1 : env.GetDepositStatus 1 with
                | none => rw [hs1] at h; exact (stop _ t5 h).elim
                | some status1 =>
                  rw [hs1] at h
                  exact ⟨status1, _, t5, h,
                    Or.inr ⟨status, rfl, by simpa using hr, rfl⟩⟩
              · simp only [hrd, Bool.not_false, if_true] at h
                exact (stop _ t4 h).elim
            · simp only [hsu, Bool.not_false, if_true] at h
              exact (stop _ t3 h).elim
  · simp only [hp, Bool.not_false, if_true] at h
    exact (stop _ t0 h).elim

end Deposit

/-! ## The network calls of the daemon client -/

namespace Rocketpool

/-- When `NodeFee` fails, and what it then returns. -/
theorem NodeFee_error {α : Type} [Inhabited α] (c : Client)
    (j : List Nat → ApiResponse α × Option String) :
    ((c.NodeFee j).2 ≠ none ↔
      ((c.callAPI "network node-fee").2 ≠ none ∨
        (j (c.callAPI "network node-fee").1).2 ≠ none ∨
        (j (c.callAPI "network node-fee").1).1.Error ≠ "")) ∧
    ((c.NodeFee j).2 ≠ none → (c.NodeFee j).1 = ApiResponse.zero) ∧
    ((c.NodeFee j).2 = none →
      (c.NodeFee j).1 = (j (c.callAPI "network node-fee").1).1) := by
  rcases hc : c.callAPI "network node-fee" with ⟨bytes, _ | e⟩
  · rcases hj : j bytes with ⟨r, _ | e⟩
    · by_cases hE : r.Error = "" <;> simp [Client.NodeFee, hc, hj, hE]
    · simp [Client.NodeFee, hc, hj]
  · simp [Client.NodeFee, hc]

/-- When `NetworkStats` fails, and what it then returns. -/
theorem NetworkStats_error {α : Type} [Inhabited α] (c : Client)
    (j : List Nat → ApiResponse α × Option String) :
    ((c.NetworkStats j).2 ≠ none ↔
      ((c.callAPI "network stats").2 ≠ none ∨
        (j (c.callAPI "network stats").1).2 ≠ none ∨
        (j (c.callAPI "network stats").1).1.Error ≠ "")) ∧
    ((c.NetworkStats j).2 ≠ none → (c.NetworkStats j).1 = ApiResponse.zero) ∧
    ((c.NetworkStats j).2 = none →
      (c.NetworkStats j).1 = (j (c.callAPI "network stats").1).1) := by
  rcases hc : c.callAPI "network stats" with ⟨bytes, _ | e⟩
  · rcases hj : j bytes with ⟨r, _ | e⟩
    · by_cases hE : r.Error = "" <;> simp [Client.NetworkStats, hc, hj, hE]
    · simp [Client.NetworkStats, hc, hj]
  · simp [Client.NetworkStats, hc]

/-- When `TimezoneMap` fails, and what it then returns. -/
theorem TimezoneMap_error {α : Type} [Inhabited α] (c : Client)
    (j : List Nat → ApiResponse α × Option String) :
    ((c.TimezoneMap j).2 ≠ none ↔
      ((c.callAPI "network timezone-map").2 ≠ none ∨
        (j (c.callAPI "network timezone-map").1).2 ≠ none ∨
        (j (c.callAPI "network timezone-map").1).1.Error ≠ "")) ∧
    ((c.TimezoneMap j).2 ≠ none → (c.TimezoneMap j).1 = ApiResponse.zero) ∧
    ((c.TimezoneMap j).2 = none →
      (c.TimezoneMap j).1 = (j (c.callAPI "network timezone-map").1).1) := by
  rcases hc : c.callAPI "network timezone-map" with ⟨bytes, _ | e⟩
  · rcases hj : j bytes with ⟨r, _ | e⟩
    · by_cases hE : r.Error = "" <;> simp [Client.TimezoneMap, hc, hj, hE]
    · simp [Client.TimezoneMap, hc, hj]
  · simp [Client.TimezoneMap, hc]

/-- When `CanGenerateRewardsTree` fails, and what it then returns. -/
theorem CanGenerateRewardsTree_error {α : Type} [Inhabited α] (c : Client) (index : Nat)
    (j : List Nat → ApiResponse α × Option String) :
    ((c.CanGenerateRewardsTree index j).2 ≠ none ↔
      ((c.callAPI ("network can-generate-rewards-tree " ++ toString index)).2 ≠ none ∨
        (j (c.callAPI ("network can-generate-rewards-tree " ++ toString index)).1).2 ≠ none ∨
        (j (c.callAPI ("network can-generate-rewards-tree " ++ toString index)).1).1.Error ≠ "")) ∧
    ((c.CanGenerateRewardsTree index j).2 ≠ none → (c.CanGenerateRewardsTree index j).1 = ApiResponse.zero) ∧
    ((c.CanGenerateRewardsTree index j).2 = none →
      (c.CanGenerateRewardsTree index j).1 = (j (c.callAPI ("network can-generate-rewards-tree " ++ toString index)).1).1) := by
  rcases hc : c.callAPI ("network can-generate-rewards-tree " ++ toString index) with ⟨bytes, _ | e⟩
  · rcases hj : j bytes with ⟨r, _ | e⟩
    · by_cases hE : r.Error = "" <;> simp [Client.CanGenerateRewardsTree, hc, hj, hE]
    · simp [Client.CanGenerateRewardsTree, hc, hj]
  · simp [Client.CanGenerateRewardsTree, hc]

/-- When `GenerateRewardsTree` fails, and what it then returns. -/
theorem GenerateRewardsTree_error {α : Type} [Inhabited α] (c : Client) (index : Nat)
    (j : List Nat → ApiResponse α × Option String) :
    ((c.GenerateRewardsTree index j).2 ≠ none ↔
      ((c.callAPI ("network generate-rewards-tree " ++ toString index)).2 ≠ none ∨
        (j (c.callAPI ("network generate-rewards-tree " ++ toString index)).1).2 ≠ none ∨
        (j (c.callAPI ("network generate-rewards-tree " ++ toString index)).1).1.Error ≠ "")) ∧
    ((c.GenerateRewardsTree index j).2 ≠ none → (c.GenerateRewardsTree index j).1 = ApiResponse.zero) ∧
    ((c.GenerateRewardsTree index j).2 = none →
      (c.GenerateRewardsTree index j).1 = (j (c.callAPI ("network generate-rewards-tree " ++ toString index)).1).1) := by
  rcases hc : c.callAPI ("network generate-rewards-tree " ++ toString index) with ⟨bytes, _ | e⟩
  · rcases hj : j bytes with ⟨r, _ | e⟩
    · by_cases hE : r.Error = "" <;> simp [Client.GenerateRewardsTree, hc, hj, hE]
    · simp [Client.GenerateRewardsTree, hc, hj]
  · simp [Client.GenerateRewardsTree, hc]

/-- When `GetActiveDAOProposals` fails, and what it then returns. -/
theorem GetActiveDAOProposals_error {α : Type} [Inhabited α] (c : Client)
    (j : List Nat → ApiResponse α × Option String) :
    ((c.GetActiveDAOProposals j).2 ≠ none ↔
      ((c.callAPI "network dao-proposals").2 ≠ none ∨
        (j (c.callAPI "network dao-proposals").1).2 ≠ none ∨
        (j (c.callAPI "network dao-proposals").1).1.Error ≠ "")) ∧
    ((c.GetActiveDAOProposals j).2 ≠ none → (c.GetActiveDAOProposals j).1 = ApiResponse.zero) ∧
    ((c.GetActiveDAOProposals j).2 = none →
      (c.GetActiveDAOProposals j).1 = (j (c.callAPI "network dao-proposals").1).1) := by
  rcases hc : c.callAPI "network dao-proposals" with ⟨bytes, _ | e⟩
  · rcases hj : j bytes with ⟨r, _ | e⟩
    · by_cases hE : r.Error = "" <;> simp [Client.GetActiveDAOProposals, hc, hj, hE]
    · simp [Client.GetActiveDAOProposals, hc, hj]
  · simp [Client.GetActiveDAOProposals, hc]

/-- When `RplPrice` fails, and what it then returns. -/
theorem RplPrice_error {α : Type} [Inhabited α] (c : Client)
    (j : List Nat → RplPriceResponse α × Option String) :
    ((c.RplPrice j).2 ≠ none ↔
      ((c.callAPI "network rpl-price").2 ≠ none ∨
        (j (c.callAPI "network rpl-price").1).2 ≠ none ∨
        (j (c.callAPI "network rpl-price").1).1.Error ≠ "")) ∧
    ((c.RplPrice j).2 ≠ none → (c.RplPrice j).1 = RplPriceResponse.zero) := by
  rcases hc : c.callAPI "network rpl-price" with ⟨bytes, _ | e⟩
  · rcases hj : j bytes with ⟨r, _ | e⟩
    · by_cases hE : r.Error = "" <;> simp [Client.RplPrice, hc, hj, hE]
    · simp [Client.RplPrice, hc, hj]
  · simp [Client.RplPrice, hc]

/-- The response of a successful `RplPrice`: the decoded response with each absent
amount replaced by 0. -/
theorem RplPrice_success {α : Type} [Inhabited α] (c : Client)
    (j : List Nat → RplPriceResponse α × Option String) (h : (c.RplPrice j).2 = none) :
    (c.RplPrice j).1 =
      ⟨(j (c.callAPI "network rpl-price").1).1.Error,
        some ((j (c.callAPI "network rpl-price").1).1.RplPrice.getD 0),
        some ((j (c.callAPI "network rpl-price").1).1.MinPerMinipoolRplStake.getD 0),
        some ((j (c.callAPI "network rpl-price").1).1.MaxPerMinipoolRplStake.getD 0),
        (j (c.callAPI "network rpl-price").1).1.Data⟩ := by
  rcases hc : c.callAPI "network rpl-price" with ⟨bytes, _ | e⟩
  · rcases hj : j bytes with ⟨r, _ | e⟩
    · by_cases hE : r.Error = ""
      · obtain ⟨er, p, mn, mx, d⟩ := r
        cases p <;> cases mn <;> cases mx <;> simp [Client.RplPrice, hc, hj] at hE ⊢ <;>
          simp [hE]
      · simp [Client.RplPrice, hc, hj, hE] at h
    · simp [Client.RplPrice, hc, hj] at h
  · simp [Client.RplPrice, hc] at h

end Rocketpool

/-! ## The hasher pool -/

namespace Ssz

theorem Hasher.Reset_buf (hh : Hasher) : hh.Reset.buf = [] := by
  simp [Hasher.Reset]

theorem HasherPool.Put_clean (pool : HasherPool) (h : Hasher) (hp : pool.Clean) :
    (pool.Put h).Clean := by
  intro x hx
  rcases List.mem_cons.mp hx with e | e
  · rw [e]; exact Hasher.Reset_buf h
  · exact hp x e

/-- `Get` on a clean pool gives a hasher with an empty buffer, whichever idle hasher
is handed out, and leaves a clean pool. -/
theorem HasherPool.Get_clean (pool : HasherPool) (pick : Nat) (hp : pool.Clean) :
    (pool.Get pick).1 = ⟨[]⟩ ∧ (pool.Get pick).2.Clean := by
  unfold HasherPool.Get
  rcases hg : pool.idle.get? pick with _ | h
  · exact ⟨rfl, hp⟩
  · refine ⟨?_, fun x hx => hp x (List.mem_of_mem_eraseIdx hx)⟩
    have hb := hp h (List.get?_mem hg)
    cases h
    simp only at hb ⊢
    rw [hb]

/-- On a clean pool `HashWithDefaultHasher` returns what it returns on a fresh hasher,
and the pool stays clean. -/
theorem HashWithDefaultHasherIn_clean (pool : HasherPool) (pick : Nat) (hp : pool.Clean)
    (f : Hasher → Hasher × Option SszError) :
    (HashWithDefaultHasherIn pool pick f).1 = HashWithDefaultHasher f ∧
    (HashWithDefaultHasherIn pool pick f).2.Clean := by
  obtain ⟨g1, g2⟩ := HasherPool.Get_clean pool pick hp
  unfold HashWithDefaultHasherIn HashWithDefaultHasher
  rcases hg : pool.Get pick with ⟨hh, pool'⟩
  rw [hg] at g1 g2
  simp only at g1 g2
  subst g1
  rcases hf : f ⟨[]⟩ with ⟨hh', _ | e⟩
  · simp only [hf]; exact ⟨trivial, HasherPool.Put_clean _ _ g2⟩
  · simp only [hf]; exact ⟨trivial, HasherPool.Put_clean _ _ g2⟩

/-- The pool is clean after every history of uses. -/
theorem poolAfter_clean (history : List PoolUse) : (poolAfter history).Clean := by
  induction history with
  | nil => intro x hx; cases hx
  | cons u earlier ih =>
    cases u with
    | hash pick f => exact (HashWithDefaultHasherIn_clean _ pick ih f).2
    | get pick => exact (HasherPool.Get_clean _ pick ih).2
    | put hh => exact HasherPool.Put_clean _ hh ih

/-- After every history of uses of the pool and for every choice of the runtime,
`HashWithDefaultHasher` returns what it returns on a fresh hasher. -/
theorem HashWithDefaultHasherIn_poolAfter (history : List PoolUse) (pick : Nat)
    (f : Hasher → Hasher × Option SszError) :
    (HashWithDefaultHasherIn (poolAfter history) pick f).1 = HashWithDefaultHasher f :=
  (HashWithDefaultHasherIn_clean _ pick (poolAfter_clean history) f).1

end Ssz

namespace Eth2
open Ssz

/-- The result of `DepositDataNoSignature.HashTreeRoot` in terms of the field values. -/
theorem ddns_HashTreeRoot_rootOf (H : HashFn) (d : DepositDataNoSignature) :
    d.HashTreeRoot H = rootOfDepositDataNoSignature H d.PublicKey.data
      d.WithdrawalCredentials.data d.Amount := by
  unfold rootOfDepositDataNoSignature
  by_cases h : d.PublicKey.data.length = 48 ∧ d.WithdrawalCredentials.data.length = 32
  · rw [if_pos h, ddns_HashTreeRoot_valid H d h.1 h.2, putUint64_eq_LE64]; rfl
  · rw [if_neg h]
    exact (ddns_HashTreeRoot_error H d).2.2 (by
      simp only [Slice.len]; exact not_and_or.mp h)

/-- The result of `DepositData.HashTreeRoot` in terms of the field values. -/
theorem dd_HashTreeRoot_rootOf (H : HashFn) (d : DepositData) :
    d.HashTreeRoot H = rootOfDepositData H d.PublicKey.data d.WithdrawalCredentials.data
      d.Amount d.Signature.data := by
  unfold rootOfDepositData
  by_cases h : d.PublicKey.data.length = 48 ∧ d.WithdrawalCredentials.data.length = 32 ∧
      d.Signature.data.length = 96
  · rw [if_pos h, dd_HashTreeRoot_valid H d h.1 h.2.1 h.2.2, putUint64_eq_LE64]; rfl
  · rw [if_neg h]
    exact (dd_HashTreeRoot_error H d).2.2 (by
      simp only [Slice.len]
      rcases not_and_or.mp h with h1 | h1
      · exact Or.inl h1
      · exact Or.inr (not_and_or.mp h1))

/-- The result of `SigningRoot.HashTreeRoot` in terms of the field values. -/
theorem sr_HashTreeRoot_rootOf (H : HashFn) (s : SigningRoot) :
    s.HashTreeRoot H = rootOfSigningRoot H s.ObjectRoot.data s.Domain.data := by
  unfold rootOfSigningRoot
  by_cases h : s.ObjectRoot.data.length = 32 ∧ s.Domain.data.length = 32
  · rw [if_pos h, sr_HashTreeRoot_valid H s h.1 h.2]
  · rw [if_neg h]
    exact (sr_HashTreeRoot_error H s).2.2 (by
      simp only [Slice.len]; exact not_and_or.mp h)

/-- The result of `VoluntaryExit.HashTreeRoot` in terms of the field values. -/
theorem ve_HashTreeRoot_rootOf (H : HashFn) (v : VoluntaryExit) :
    v.HashTreeRoot H = rootOfVoluntaryExit H v.Epoch v.ValidatorIndex := by
  rw [ve_HashTreeRoot_eq, putUint64_eq_LE64, putUint64_eq_LE64]; rfl

end Eth2

/-! ## The claims -/

namespace Eth2
open Ssz

/-- C1. Round trip: for a record of each of the four types whose byte fields have
their declared lengths (and whose integer fields are `uint64` values), `MarshalSSZ`
succeeds, and `UnmarshalSSZ` of the resulting bytes into the zero record succeeds and
restores every field: byte fields as byte sequences, integer fields as numbers. -/
theorem marshal_unmarshal_roundtrip
    (a : DepositDataNoSignature) (b : DepositData) (s : SigningRoot) (v : VoluntaryExit)
    (ha : a.PublicKey.len = 48 ∧ a.WithdrawalCredentials.len = 32 ∧ a.Amount < 2 ^ 64)
    (hb : b.PublicKey.len = 48 ∧ b.WithdrawalCredentials.len = 32 ∧ b.Amount < 2 ^ 64 ∧
      b.Signature.len = 96)
    (hs : s.ObjectRoot.len = 32 ∧ s.Domain.len = 32)
    (hv : v.Epoch < 2 ^ 64 ∧ v.ValidatorIndex < 2 ^ 64) :
    (a.MarshalSSZ.2 = none ∧
      (DepositDataNoSignature.zero.UnmarshalSSZ a.MarshalSSZ.1).2 = none ∧
      (DepositDataNoSignature.zero.UnmarshalSSZ a.MarshalSSZ.1).1.PublicKey.data
        = a.PublicKey.data ∧
      (DepositDataNoSignature.zero.UnmarshalSSZ a.MarshalSSZ.1).1.WithdrawalCredentials.data
        = a.WithdrawalCredentials.data ∧
      (DepositDataNoSignature.zero.UnmarshalSSZ a.MarshalSSZ.1).1.Amount = a.Amount) ∧
    (b.MarshalSSZ.2 = none ∧
      (DepositData.zero.UnmarshalSSZ b.MarshalSSZ.1).2 = none ∧
      (DepositData.zero.UnmarshalSSZ b.MarshalSSZ.1).1.PublicKey.data = b.PublicKey.data ∧
      (DepositData.zero.UnmarshalSSZ b.MarshalSSZ.1).1.WithdrawalCredentials.data
        = b.WithdrawalCredentials.data ∧
      (DepositData.zero.UnmarshalSSZ b.MarshalSSZ.1).1.Amount = b.Amount ∧
      (DepositData.zero.UnmarshalSSZ b.MarshalSSZ.1).1.Signature.data = b.Signature.data) ∧
    (s.MarshalSSZ.2 = none ∧
      (SigningRoot.zero.UnmarshalSSZ s.MarshalSSZ.1).2 = none ∧
      (SigningRoot.zero.UnmarshalSSZ s.MarshalSSZ.1).1.ObjectRoot.data = s.ObjectRoot.data ∧
      (SigningRoot.zero.UnmarshalSSZ s.MarshalSSZ.1).1.Domain.data = s.Domain.data) ∧
    (v.MarshalSSZ.2 = none ∧
      VoluntaryExit.zero.UnmarshalSSZ v.MarshalSSZ.1 = (v, none)) := by
  obtain ⟨ha1, ha2, ha3⟩ := ha
  obtain ⟨hb1, hb2, hb3, hb4⟩ := hb
  obtain ⟨hs1, hs2⟩ := hs
  obtain ⟨hv1, hv2⟩ := hv
  refine ⟨?_, ?_, ?_, ?_⟩
  · rw [ddns_MarshalSSZ_valid a ha1 ha2]
    obtain ⟨hl, e1, e2, e3⟩ := ddns_spans _ _ _ ha1 ha2 (putUint64_length a.Amount)
    obtain ⟨u0, u1, u2, u3⟩ := ddns_UnmarshalSSZ_exact .zero _ hl
    refine ⟨rfl, u0, ?_, ?_, ?_⟩
    · rw [u1, e1]; rfl
    · rw [u2, e2]; rfl
    · rw [u3, e3, UnmarshallUint64_putUint64 _ ha3]
  · rw [dd_MarshalSSZ_valid b hb1 hb2 hb4]
    obtain ⟨hl, e1, e2, e3, e4⟩ :=
      dd_spans _ _ _ _ hb1 hb2 (putUint64_length b.Amount) hb4
    obtain ⟨u0, u1, u2, u3, u4⟩ := dd_UnmarshalSSZ_exact .zero _ hl
    refine ⟨rfl, u0, ?_, ?_, ?_, ?_⟩
    · rw [u1, e1]; rfl
    · rw [u2, e2]; rfl
    · rw [u3, e3, UnmarshallUint64_putUint64 _ hb3]
    · rw [u4, e4]; rfl
  · rw [sr_MarshalSSZ_valid s hs1 hs2]
    obtain ⟨hl, e1, e2⟩ := sr_spans _ _ hs1 hs2
    obtain ⟨u0, u1, u2⟩ := sr_UnmarshalSSZ_exact .zero _ hl
    refine ⟨rfl, u0, ?_, ?_⟩
    · rw [u1, e1]; rfl
    · rw [u2, e2]; rfl
  · rw [ve_MarshalSSZ_eq v]
    obtain ⟨hl, e1, e2⟩ :=
      ve_spans _ _ (putUint64_length v.Epoch) (putUint64_length v.ValidatorIndex)
    refine ⟨rfl, ?_⟩
    rw [ve_UnmarshalSSZ_exact _ _ hl, e1, e2, UnmarshallUint64_putUint64 _ hv1,
      UnmarshallUint64_putUint64 _ hv2]

/-- Witness of C1 at the sample records. -/
theorem marshal_unmarshal_roundtrip_witness :
    (sampleDDNS.PublicKey.len = 48 ∧ sampleDDNS.WithdrawalCredentials.len = 32 ∧
      sampleDDNS.Amount < 2 ^ 64) ∧
    (DepositDataNoSignature.zero.UnmarshalSSZ sampleDDNS.MarshalSSZ.1).1.Amount
      = sampleDDNS.Amount ∧
    (DepositData.zero.UnmarshalSSZ sampleDD.MarshalSSZ.1).1.Signature.data
      = sampleDD.Signature.data ∧
    (SigningRoot.zero.UnmarshalSSZ sampleSR.MarshalSSZ.1).1.Domain.data = sampleSR.Domain.data ∧
    VoluntaryExit.zero.UnmarshalSSZ sampleVE.MarshalSSZ.1 = (sampleVE, none) :=
  have h := marshal_unmarshal_roundtrip sampleDDNS sampleDD sampleSR sampleVE
    (by decide) (by decide) (by decide) (by decide)
  ⟨by decide, h.1.2.2.2.2, h.2.1.2.2.2.2.2, h.2.2.1.2.2.2, h.2.2.2.2⟩

/-- C2. Encoded byte layout: for a valid record `MarshalSSZ` returns exactly the
concatenation of the fields in declared order, byte fields verbatim and `uint64`
fields as their 8 little-endian bytes; Scenario A encodes to 80 zero bytes followed
by `00 40 59 73 07 00 00 00`. -/
theorem marshal_layout
    (a : DepositDataNoSignature) (b : DepositData) (s : SigningRoot) (v : VoluntaryExit)
    (ha : a.PublicKey.len = 48 ∧ a.WithdrawalCredentials.len = 32)
    (hb : b.PublicKey.len = 48 ∧ b.WithdrawalCredentials.len = 32 ∧ b.Signature.len = 96)
    (hs : s.ObjectRoot.len = 32 ∧ s.Domain.len = 32) :
    a.MarshalSSZ = (a.PublicKey.data ++ a.WithdrawalCredentials.data ++ LE64 a.Amount, none) ∧
    b.MarshalSSZ = (b.PublicKey.data ++ b.WithdrawalCredentials.data ++ LE64 b.Amount
      ++ b.Signature.data, none) ∧
    s.MarshalSSZ = (s.ObjectRoot.data ++ s.Domain.data, none) ∧
    v.MarshalSSZ = (LE64 v.Epoch ++ LE64 v.ValidatorIndex, none) ∧
    (DepositDataNoSignature.MarshalSSZ
        ⟨Slice.ofList (List.replicate 48 0), Slice.ofList (List.replicate 32 0), 32000000000⟩
      = (List.replicate 80 0 ++ [0x00, 0x40, 0x59, 0x73, 0x07, 0x00, 0x00, 0x00], none)) := by
  refine ⟨?_, ?_, ?_, ?_, by decide⟩
  · rw [ddns_MarshalSSZ_valid a ha.1 ha.2, putUint64_eq_LE64]
  · rw [dd_MarshalSSZ_valid b hb.1 hb.2.1 hb.2.2, putUint64_eq_LE64]
  · rw [sr_MarshalSSZ_valid s hs.1 hs.2]
  · rw [ve_MarshalSSZ_eq, putUint64_eq_LE64, putUint64_eq_LE64]

/-- Witness of C2 at the sample records. -/
theorem marshal_layout_witness :
    (sampleDD.PublicKey.len = 48 ∧ sampleDD.WithdrawalCredentials.len = 32 ∧
      sampleDD.Signature.len = 96) ∧
    sampleDD.MarshalSSZ = (sampleDD.PublicKey.data ++ sampleDD.WithdrawalCredentials.data
      ++ LE64 sampleDD.Amount ++ sampleDD.Signature.data, none) ∧
    sampleVE.MarshalSSZ = (LE64 sampleVE.Epoch ++ LE64 sampleVE.ValidatorIndex, none) :=
  have h := marshal_layout sampleDDNS sampleDD sampleSR sampleVE
    (by decide) (by decide) (by decide)
  ⟨by decide, h.2.1, h.2.2.2.1⟩

set_option maxRecDepth 100000 in
/-- C3, counterexample. With SHA-256 as the hash primitive, the root that
`HashTreeRoot` returns for the sample `DepositDataNoSignature` (Scenario A) is not the
root of the spec's flat leaf list `pk0, pk1, wc, amount`, which is the formula
`Hash(Hash(pk[0:32] ++ pad32(pk[32:48])) ++ Hash(wc ++ pad32(LE64(Amount))))` of the
claim; and the root of the sample `DepositData` is not the root of the 7 flat leaves. -/
theorem hashTreeRoot_ne_flat_root :
    ((sampleDDNS.HashTreeRoot sha256Hash).2 = none ∧
      specFlatRoot sha256Hash [sampleDDNS.PublicKey.data, sampleDDNS.WithdrawalCredentials.data,
          specUint64Field sampleDDNS.Amount]
        = sha256Hash.sum
            (sha256Hash.sum (sub sampleDDNS.PublicKey.data 0 32
                ++ (sub sampleDDNS.PublicKey.data 32 48 ++ List.replicate 16 0))
              ++ sha256Hash.sum (sampleDDNS.WithdrawalCredentials.data
                ++ (LE64 sampleDDNS.Amount ++ List.replicate 24 0))) ∧
      (sampleDDNS.HashTreeRoot sha256Hash).1 ≠
        specFlatRoot sha256Hash [sampleDDNS.PublicKey.data,
          sampleDDNS.WithdrawalCredentials.data, specUint64Field sampleDDNS.Amount]) ∧
    ((sampleDD.HashTreeRoot sha256Hash).2 = none ∧
      (sampleDD.HashTreeRoot sha256Hash).1 ≠
        specFlatRoot sha256Hash [sampleDD.PublicKey.data, sampleDD.WithdrawalCredentials.data,
          specUint64Field sampleDD.Amount, sampleDD.Signature.data]) := by
  decide

/-- C3, as amended. `HashTreeRoot` merkleizes the roots of the fields: every field
contributes one 32-byte leaf (a field of at most 32 bytes its zero-padded chunk, a
`uint64` its 8 little-endian bytes and 24 zero bytes, a longer byte field the Merkle
root of its own chunks), and the result is the Merkle root of these leaves, padded
with zero chunks to a power of two. For a valid `DepositDataNoSignature` this is
`Hash(Hash(pkRoot ++ wc) ++ Hash(amount ++ zero32))` and for a valid `DepositData`
`Hash(Hash(pkRoot ++ wc) ++ Hash(amount ++ sigRoot))`, with
`pkRoot = Hash(pk[0:32] ++ pad32(pk[32:48]))` and
`sigRoot = Hash(Hash(sig[0:32] ++ sig[32:64]) ++ Hash(sig[64:96] ++ zero32))`. -/
theorem hashTreeRoot_merkleizes_field_roots (H : HashFn)
    (a : DepositDataNoSignature) (b : DepositData)
    (ha : a.PublicKey.len = 48 ∧ a.WithdrawalCredentials.len = 32)
    (hb : b.PublicKey.len = 48 ∧ b.WithdrawalCredentials.len = 32 ∧ b.Signature.len = 96) :
    a.HashTreeRoot H =
      (H.sum (H.sum (H.sum (sub a.PublicKey.data 0 32
              ++ (sub a.PublicKey.data 32 48 ++ List.replicate 16 0))
            ++ a.WithdrawalCredentials.data)
          ++ H.sum ((LE64 a.Amount ++ List.replicate 24 0) ++ List.replicate 32 0)), none) ∧
    b.HashTreeRoot H =
      (H.sum (H.sum (H.sum (sub b.PublicKey.data 0 32
              ++ (sub b.PublicKey.data 32 48 ++ List.replicate 16 0))
            ++ b.WithdrawalCredentials.data)
          ++ H.sum ((LE64 b.Amount ++ List.replicate 24 0)
            ++ H.sum (H.sum (sub b.Signature.data 0 32 ++ sub b.Signature.data 32 64)
              ++ H.sum (sub b.Signature.data 64 96 ++ List.replicate 32 0)))), none) := by
  have hsplit (l : List Nat) (h : l.length = 48) : sub l 0 32 ++ sub l 32 48 = l := by
    have e : sub l 32 48 = l.drop 32 := by
      unfold sub; rw [List.take_of_length_le (by omega)]
    rw [e]; exact List.take_append_drop 32 l
  constructor
  · have hw := ddns_HashTreeRootWith_valid H a ⟨[]⟩ ha.1 ha.2
    rw [DepositDataNoSignature.HashTreeRoot,
      HashWithDefaultHasher_root _ _ hw (H.sum_length _), ← putUint64_eq_LE64,
      ← List.append_assoc (sub _ 0 32), hsplit _ ha.1]
    rfl
  · have hw := dd_HashTreeRootWith_valid H b ⟨[]⟩ hb.1 hb.2.1 hb.2.2
    have e1 : sub b.Signature.data 0 32 ++ sub b.Signature.data 32 64
        = b.Signature.data.take 64 := by
      have e : List.take 32 b.Signature.data = List.take 32 (List.take 64 b.Signature.data) := by
        simp [List.take_take]
      unfold sub
      rw [List.drop_zero, e]
      exact List.take_append_drop 32 _
    have e2 : sub b.Signature.data 64 96 = b.Signature.data.drop 64 := by
      have hl : b.Signature.data.length = 96 := hb.2.2
      unfold sub; rw [List.take_of_length_le (by omega)]
    rw [DepositData.HashTreeRoot,
      HashWithDefaultHasher_root _ _ hw (H.sum_length _), ← putUint64_eq_LE64,
      ← List.append_assoc (sub _ 0 32), hsplit _ hb.1, e1, e2]
    rfl

/-- Witness of C3 (amended) at the sample records, with SHA-256. -/
theorem hashTreeRoot_merkleizes_field_roots_witness :
    (sampleDD.PublicKey.len = 48 ∧ sampleDD.WithdrawalCredentials.len = 32 ∧
      sampleDD.Signature.len = 96) ∧
    (sampleDDNS.HashTreeRoot sha256Hash).2 = none ∧
    (sampleDD.HashTreeRoot sha256Hash).2 = none :=
  have h := hashTreeRoot_merkleizes_field_roots sha256Hash sampleDDNS sampleDD
    (by decide) (by decide)
  ⟨by decide, congrArg Prod.snd h.1, congrArg Prod.snd h.2⟩

/-- C4. Decode rejects exactly the wrong-sized inputs: for each record type, every
receiver and every buffer, `UnmarshalSSZ` returns `ErrSize` if and only if the buffer
length differs from the declared size (88, 184, 64, 16), and returns no error if and
only if the length is exactly the declared size. -/
theorem unmarshal_size_error_iff
    (a : DepositDataNoSignature) (b : DepositData) (s : SigningRoot) (v : VoluntaryExit)
    (buf : List Nat) :
    (((a.UnmarshalSSZ buf).2 = some .ErrSize ↔ buf.length ≠ 88) ∧
      ((a.UnmarshalSSZ buf).2 = none ↔ buf.length = 88)) ∧
    (((b.UnmarshalSSZ buf).2 = some .ErrSize ↔ buf.length ≠ 184) ∧
      ((b.UnmarshalSSZ buf).2 = none ↔ buf.length = 184)) ∧
    (((s.UnmarshalSSZ buf).2 = some .ErrSize ↔ buf.length ≠ 64) ∧
      ((s.UnmarshalSSZ buf).2 = none ↔ buf.length = 64)) ∧
    (((v.UnmarshalSSZ buf).2 = some .ErrSize ↔ buf.length ≠ 16) ∧
      ((v.UnmarshalSSZ buf).2 = none ↔ buf.length = 16)) := by
  refine ⟨?_, ?_, ?_, ?_⟩
  · by_cases h : buf.length = 88 <;> simp [DepositDataNoSignature.UnmarshalSSZ, h]
  · by_cases h : buf.length = 184 <;> simp [DepositData.UnmarshalSSZ, h]
  · by_cases h : buf.length = 64 <;> simp [SigningRoot.UnmarshalSSZ, h]
  · by_cases h : buf.length = 16 <;> simp [VoluntaryExit.UnmarshalSSZ, h]

/-- C5. Encode fails exactly on a field-length mismatch: `MarshalSSZ` of a
`DepositDataNoSignature`, `DepositData` or `SigningRoot` returns `ErrBytesLength` if
and only if some byte field's length differs from its declared length, and returns
no error otherwise; a `DepositDataNoSignature` with a 47- or 49-byte `PublicKey`
fails. -/
theorem marshal_length_error_iff
    (a : DepositDataNoSignature) (b : DepositData) (s : SigningRoot) :
    ((a.MarshalSSZ.2 = some .ErrBytesLength ↔
        (a.PublicKey.len ≠ 48 ∨ a.WithdrawalCredentials.len ≠ 32)) ∧
      (a.MarshalSSZ.2 = none ↔ (a.PublicKey.len = 48 ∧ a.WithdrawalCredentials.len = 32))) ∧
    ((b.MarshalSSZ.2 = some .ErrBytesLength ↔
        (b.PublicKey.len ≠ 48 ∨ b.WithdrawalCredentials.len ≠ 32 ∨ b.Signature.len ≠ 96)) ∧
      (b.MarshalSSZ.2 = none ↔
        (b.PublicKey.len = 48 ∧ b.WithdrawalCredentials.len = 32 ∧ b.Signature.len = 96))) ∧
    ((s.MarshalSSZ.2 = some .ErrBytesLength ↔ (s.ObjectRoot.len ≠ 32 ∨ s.Domain.len ≠ 32)) ∧
      (s.MarshalSSZ.2 = none ↔ (s.ObjectRoot.len = 32 ∧ s.Domain.len = 32))) ∧
    (DepositDataNoSignature.MarshalSSZ
        ⟨Slice.ofList (List.replicate 47 0), Slice.ofList (List.replicate 32 0), 1⟩).2
      = some .ErrBytesLength ∧
    (DepositDataNoSignature.MarshalSSZ
        ⟨Slice.ofList (List.replicate 49 0), Slice.ofList (List.replicate 32 0), 1⟩).2
      = some .ErrBytesLength := by
  refine ⟨?_, ?_, ?_, by decide, by decide⟩
  · by_cases h1 : a.PublicKey.len = 48 <;> by_cases h2 : a.WithdrawalCredentials.len = 32 <;>
      simp [DepositDataNoSignature.MarshalSSZ, DepositDataNoSignature.MarshalSSZTo, h1, h2]
  · by_cases h1 : b.PublicKey.len = 48 <;> by_cases h2 : b.WithdrawalCredentials.len = 32 <;>
      by_cases h3 : b.Signature.len = 96 <;>
      simp [DepositData.MarshalSSZ, DepositData.MarshalSSZTo, h1, h2, h3]
  · by_cases h1 : s.ObjectRoot.len = 32 <;> by_cases h2 : s.Domain.len = 32 <;>
      simp [SigningRoot.MarshalSSZ, SigningRoot.MarshalSSZTo, h1, h2]

/-- C6, counterexample. A `DepositData` with a valid 48-byte `PublicKey` and a 31-byte
`WithdrawalCredentials` fails with the length error and returns the 48 key bytes, not
the empty sequence; one with three valid first fields and a 95-byte `Signature` fails
and returns 88 bytes; and `MarshalSSZTo` on a one-byte destination returns more than
that destination. -/
theorem marshal_failure_returns_partial_bytes :
    DepositData.MarshalSSZ ⟨Slice.ofList (List.range 48), Slice.ofList (List.replicate 31 0), 1,
        Slice.ofList (List.replicate 96 0)⟩
      = (List.range 48, some .ErrBytesLength) ∧
    DepositData.MarshalSSZ ⟨Slice.ofList (List.range 48), Slice.ofList (List.replicate 32 0), 1,
        Slice.ofList (List.replicate 95 0)⟩
      = (List.range 48 ++ List.replicate 32 0 ++ [1, 0, 0, 0, 0, 0, 0, 0],
          some .ErrBytesLength) ∧
    DepositData.MarshalSSZTo ⟨Slice.ofList (List.range 48), Slice.ofList (List.replicate 31 0),
        1, Slice.ofList (List.replicate 96 0)⟩ [255]
      ≠ ([255], some .ErrBytesLength) := by
  decide

/-- C6, as amended. Whenever `MarshalSSZTo(buf)` fails with the length error, the
returned byte sequence is `buf` followed by the encodings of exactly the fields that
precede the first mismatched byte field, in declared order: it is `buf` itself when
the first field (`PublicKey`, `ObjectRoot`) is the mismatched one, and no byte of the
mismatched field or of a later field is ever appended. -/
theorem marshal_failure_returns_preceding_fields
    (a : DepositDataNoSignature) (b : DepositData) (s : SigningRoot) (buf : List Nat) :
    ((a.PublicKey.len ≠ 48 → a.MarshalSSZTo buf = (buf, some .ErrBytesLength)) ∧
      (a.PublicKey.len = 48 → a.WithdrawalCredentials.len ≠ 32 →
        a.MarshalSSZTo buf = (buf ++ a.PublicKey.data, some .ErrBytesLength))) ∧
    ((b.PublicKey.len ≠ 48 → b.MarshalSSZTo buf = (buf, some .ErrBytesLength)) ∧
      (b.PublicKey.len = 48 → b.WithdrawalCredentials.len ≠ 32 →
        b.MarshalSSZTo buf = (buf ++ b.PublicKey.data, some .ErrBytesLength)) ∧
      (b.PublicKey.len = 48 → b.WithdrawalCredentials.len = 32 → b.Signature.len ≠ 96 →
        b.MarshalSSZTo buf = (buf ++ b.PublicKey.data ++ b.WithdrawalCredentials.data
          ++ LE64 b.Amount, some .ErrBytesLength))) ∧
    ((s.ObjectRoot.len ≠ 32 → s.MarshalSSZTo buf = (buf, some .ErrBytesLength)) ∧
      (s.ObjectRoot.len = 32 → s.Domain.len ≠ 32 →
        s.MarshalSSZTo buf = (buf ++ s.ObjectRoot.data, some .ErrBytesLength))) := by
  refine ⟨⟨?_, ?_⟩, ⟨?_, ?_, ?_⟩, ⟨?_, ?_⟩⟩
  · intro h1; simp [DepositDataNoSignature.MarshalSSZTo, h1]
  · intro h1 h2; simp [DepositDataNoSignature.MarshalSSZTo, h1, h2]
  · intro h1; simp [DepositData.MarshalSSZTo, h1]
  · intro h1 h2; simp [DepositData.MarshalSSZTo, h1, h2]
  · intro h1 h2 h3
    simp [DepositData.MarshalSSZTo, h1, h2, h3, MarshalUint64, putUint64_eq_LE64]
  · intro h1; simp [SigningRoot.MarshalSSZTo, h1]
  · intro h1 h2; simp [SigningRoot.MarshalSSZTo, h1, h2]

/-- Witness of C6 (amended): the three failure cases of `DepositData` at concrete
records and a one-byte destination. -/
theorem marshal_failure_returns_preceding_fields_witness :
    DepositData.MarshalSSZTo ⟨Slice.ofList (List.range 47), Slice.nil, 1, Slice.nil⟩ [255]
      = ([255], some .ErrBytesLength) ∧
    DepositData.MarshalSSZTo ⟨Slice.ofList (List.range 48), Slice.ofList (List.replicate 31 0),
        1, Slice.nil⟩ [255]
      = ([255] ++ List.range 48, some .ErrBytesLength) ∧
    DepositData.MarshalSSZTo ⟨Slice.ofList (List.range 48), Slice.ofList (List.replicate 32 0),
        1, Slice.ofList (List.replicate 95 0)⟩ [255]
      = ([255] ++ List.range 48 ++ List.replicate 32 0 ++ LE64 1, some .ErrBytesLength) :=
  ⟨(marshal_failure_returns_preceding_fields sampleDDNS
      ⟨Slice.ofList (List.range 47), Slice.nil, 1, Slice.nil⟩ sampleSR [255]).2.1.1 (by decide),
    (marshal_failure_returns_preceding_fields sampleDDNS
      ⟨Slice.ofList (List.range 48), Slice.ofList (List.replicate 31 0), 1, Slice.nil⟩
      sampleSR [255]).2.1.2.1 (by decide) (by decide),
    (marshal_failure_returns_preceding_fields sampleDDNS
      ⟨Slice.ofList (List.range 48), Slice.ofList (List.replicate 32 0), 1,
        Slice.ofList (List.replicate 95 0)⟩
      sampleSR [255]).2.1.2.2 (by decide) (by decide) (by decide)⟩

/-- C7. Fixed size: for a valid record of each type the encoding has exactly
`SizeSSZ` bytes; `SizeSSZ` is the constant 88 / 184 / 64 / 16 for every record,
valid or not; and the constant is the sum of the declared field lengths. -/
theorem marshal_length_eq_size
    (a : DepositDataNoSignature) (b : DepositData) (s : SigningRoot) (v : VoluntaryExit)
    (ha : a.PublicKey.len = 48 ∧ a.WithdrawalCredentials.len = 32)
    (hb : b.PublicKey.len = 48 ∧ b.WithdrawalCredentials.len = 32 ∧ b.Signature.len = 96)
    (hs : s.ObjectRoot.len = 32 ∧ s.Domain.len = 32) :
    (a.MarshalSSZ.1.length = a.SizeSSZ ∧ b.MarshalSSZ.1.length = b.SizeSSZ ∧
      s.MarshalSSZ.1.length = s.SizeSSZ ∧ v.MarshalSSZ.1.length = v.SizeSSZ) ∧
    ((∀ x : DepositDataNoSignature, x.SizeSSZ = 88) ∧ (∀ x : DepositData, x.SizeSSZ = 184) ∧
      (∀ x : SigningRoot, x.SizeSSZ = 64) ∧ (∀ x : VoluntaryExit, x.SizeSSZ = 16)) ∧
    (a.SizeSSZ = 48 + 32 + 8 ∧ b.SizeSSZ = 48 + 32 + 8 + 96 ∧ s.SizeSSZ = 32 + 32 ∧
      v.SizeSSZ = 8 + 8) := by
  refine ⟨⟨?_, ?_, ?_, ?_⟩, ⟨fun _ => rfl, fun _ => rfl, fun _ => rfl, fun _ => rfl⟩,
    ⟨rfl, rfl, rfl, rfl⟩⟩
  · rw [ddns_MarshalSSZ_valid a ha.1 ha.2]
    exact (ddns_spans _ _ _ ha.1 ha.2 (putUint64_length _)).1
  · rw [dd_MarshalSSZ_valid b hb.1 hb.2.1 hb.2.2]
    exact (dd_spans _ _ _ _ hb.1 hb.2.1 (putUint64_length _) hb.2.2).1
  · rw [sr_MarshalSSZ_valid s hs.1 hs.2]
    exact (sr_spans _ _ hs.1 hs.2).1
  · rw [ve_MarshalSSZ_eq]
    exact (ve_spans _ _ (putUint64_length _) (putUint64_length _)).1

/-- Witness of C7 at the sample records. -/
theorem marshal_length_eq_size_witness :
    (sampleSR.ObjectRoot.len = 32 ∧ sampleSR.Domain.len = 32) ∧
    sampleDDNS.MarshalSSZ.1.length = 88 ∧ sampleDD.MarshalSSZ.1.length = 184 ∧
    sampleSR.MarshalSSZ.1.length = 64 ∧ sampleVE.MarshalSSZ.1.length = 16 :=
  have h := marshal_length_eq_size sampleDDNS sampleDD sampleSR sampleVE
    (by decide) (by decide) (by decide)
  ⟨by decide, h.1.1, h.1.2.1, h.1.2.2.1, h.1.2.2.2⟩

/-- C8. Decoded field spans: `UnmarshalSSZ` of an exact-size buffer into the zero
record succeeds and sets each byte field to its span of the layout table and each
`uint64` field to the little-endian value of its 8-byte span. -/
theorem unmarshal_field_spans (b1 b2 b3 b4 : List Nat)
    (h1 : b1.length = 88 ∧ ∀ x ∈ b1, x < 256) (h2 : b2.length = 184 ∧ ∀ x ∈ b2, x < 256)
    (h3 : b3.length = 64) (h4 : b4.length = 16 ∧ ∀ x ∈ b4, x < 256) :
    ((DepositDataNoSignature.zero.UnmarshalSSZ b1).2 = none ∧
      (DepositDataNoSignature.zero.UnmarshalSSZ b1).1.PublicKey.data = sub b1 0 48 ∧
      (DepositDataNoSignature.zero.UnmarshalSSZ b1).1.WithdrawalCredentials.data
        = sub b1 48 80 ∧
      (DepositDataNoSignature.zero.UnmarshalSSZ b1).1.Amount = leValue (sub b1 80 88)) ∧
    ((DepositData.zero.UnmarshalSSZ b2).2 = none ∧
      (DepositData.zero.UnmarshalSSZ b2).1.PublicKey.data = sub b2 0 48 ∧
      (DepositData.zero.UnmarshalSSZ b2).1.WithdrawalCredentials.data = sub b2 48 80 ∧
      (DepositData.zero.UnmarshalSSZ b2).1.Amount = leValue (sub b2 80 88) ∧
      (DepositData.zero.UnmarshalSSZ b2).1.Signature.data = sub b2 88 184) ∧
    ((SigningRoot.zero.UnmarshalSSZ b3).2 = none ∧
      (SigningRoot.zero.UnmarshalSSZ b3).1.ObjectRoot.data = sub b3 0 32 ∧
      (SigningRoot.zero.UnmarshalSSZ b3).1.Domain.data = sub b3 32 64) ∧
    ((VoluntaryExit.zero.UnmarshalSSZ b4).2 = none ∧
      (VoluntaryExit.zero.UnmarshalSSZ b4).1.Epoch = leValue (sub b4 0 8) ∧
      (VoluntaryExit.zero.UnmarshalSSZ b4).1.ValidatorIndex = leValue (sub b4 8 16)) := by
  have le (buf : List Nat) (lo hi : Nat) (hh : hi ≤ buf.length) (hd : hi - lo = 8)
      (hx : ∀ x ∈ buf, x < 256) : UnmarshallUint64 (sub buf lo hi) = leValue (sub buf lo hi) :=
    UnmarshallUint64_eq_leValue _ (by rw [sub_length _ _ _ hh, hd])
      (fun x hxs => hx x (mem_sub hxs))
  refine ⟨?_, ?_, ?_, ?_⟩
  · obtain ⟨u0, u1, u2, u3⟩ := ddns_UnmarshalSSZ_exact .zero b1 h1.1
    exact ⟨u0, u1, u2, by rw [u3, le b1 80 88 (by omega) rfl h1.2]⟩
  · obtain ⟨u0, u1, u2, u3, u4⟩ := dd_UnmarshalSSZ_exact .zero b2 h2.1
    exact ⟨u0, u1, u2, by rw [u3, le b2 80 88 (by omega) rfl h2.2], u4⟩
  · exact sr_UnmarshalSSZ_exact .zero b3 h3
  · rw [ve_UnmarshalSSZ_exact _ _ h4.1]
    exact ⟨rfl, le b4 0 8 (by omega) rfl h4.2, le b4 8 16 (by omega) rfl h4.2⟩

set_option maxRecDepth 8000 in
/-- Witness of C8 at the buffers `0, 1, ..., n - 1`. -/
theorem unmarshal_field_spans_witness :
    ((List.range 88).length = 88 ∧ ∀ x ∈ List.range 88, x < 256) ∧
    (DepositDataNoSignature.zero.UnmarshalSSZ (List.range 88)).1.Amount
      = leValue (sub (List.range 88) 80 88) ∧
    (DepositData.zero.UnmarshalSSZ (List.range 184)).1.Signature.data
      = sub (List.range 184) 88 184 ∧
    (SigningRoot.zero.UnmarshalSSZ (List.range 64)).1.Domain.data = sub (List.range 64) 32 64 ∧
    (VoluntaryExit.zero.UnmarshalSSZ (List.range 16)).1.Epoch
      = leValue (sub (List.range 16) 0 8) :=
  have h := unmarshal_field_spans (List.range 88) (List.range 184) (List.range 64)
    (List.range 16) (by decide) (by decide) (by decide) (by decide)
  ⟨by decide, h.1.2.2.2, h.2.1.2.2.2.2, h.2.2.1.2.2, h.2.2.2.2.1⟩

set_option maxRecDepth 8000 in
/-- C9, the code at the failing input. Decoding the 88-byte buffer `0, 1, ..., 87`
into a `DepositDataNoSignature` that was already decoded once from the same buffer
succeeds and leaves `PublicKey` with 96 bytes and `WithdrawalCredentials` with 64
bytes, the old contents followed by the new span; the byte fields of `SigningRoot`
and `DepositData` double in the same way, and the encoder rejects the decoded record. -/
theorem unmarshal_twice_appends :
    ((DepositDataNoSignature.zero.UnmarshalSSZ (List.range 88)).1.UnmarshalSSZ
        (List.range 88)).2 = none ∧
    ((DepositDataNoSignature.zero.UnmarshalSSZ (List.range 88)).1.UnmarshalSSZ
        (List.range 88)).1.PublicKey.len = 96 ∧
    ((DepositDataNoSignature.zero.UnmarshalSSZ (List.range 88)).1.UnmarshalSSZ
        (List.range 88)).1.PublicKey.data = List.range 48 ++ List.range 48 ∧
    ((DepositDataNoSignature.zero.UnmarshalSSZ (List.range 88)).1.UnmarshalSSZ
        (List.range 88)).1.WithdrawalCredentials.len = 64 ∧
    ((DepositDataNoSignature.zero.UnmarshalSSZ (List.range 88)).1.UnmarshalSSZ
        (List.range 88)).1.PublicKey.data ≠ sub (List.range 88) 0 48 ∧
    ((SigningRoot.zero.UnmarshalSSZ (List.range 64)).1.UnmarshalSSZ
        (List.range 64)).2 = none ∧
    ((SigningRoot.zero.UnmarshalSSZ (List.range 64)).1.UnmarshalSSZ
        (List.range 64)).1.ObjectRoot.len = 64 ∧
    ((DepositData.zero.UnmarshalSSZ (List.range 184)).1.UnmarshalSSZ
        (List.range 184)).1.Signature.len = 192 ∧
    ((DepositDataNoSignature.zero.UnmarshalSSZ (List.range 88)).1.UnmarshalSSZ
        (List.range 88)).1.MarshalSSZ = ([], some .ErrBytesLength) := by
  decide

/-- C10. Scenario C, generalised: for every `SigningRoot` whose `ObjectRoot` `R` and
`Domain` `D` are both 32 bytes long, `HashTreeRoot` succeeds and returns exactly
`Hash(R ++ D)`, one application of the hash primitive and no padding chunk. -/
theorem signingRoot_hashTreeRoot (H : HashFn) (s : SigningRoot)
    (hs : s.ObjectRoot.len = 32 ∧ s.Domain.len = 32) :
    s.HashTreeRoot H = (H.sum (s.ObjectRoot.data ++ s.Domain.data), none) := by
  have hw := sr_HashTreeRootWith_valid H s ⟨[]⟩ hs.1 hs.2
  rw [SigningRoot.HashTreeRoot, HashWithDefaultHasher_root _ _ hw (H.sum_length _)]

/-- Witness of C10 at the sample record, with SHA-256. -/
theorem signingRoot_hashTreeRoot_witness :
    (sampleSR.ObjectRoot.len = 32 ∧ sampleSR.Domain.len = 32) ∧
    sampleSR.HashTreeRoot sha256Hash
      = (sha256Hash.sum (sampleSR.ObjectRoot.data ++ sampleSR.Domain.data), none) :=
  ⟨by decide, signingRoot_hashTreeRoot sha256Hash sampleSR (by decide)⟩

/-- C11. Scenario B, generalised: for every `VoluntaryExit` and every hash primitive,
`HashTreeRoot` returns `Hash(c1 ++ c2)` where `c1` is the 8 little-endian bytes of
`Epoch` followed by 24 zero bytes and `c2` the same for `ValidatorIndex`; the root of
`VoluntaryExit{Epoch: 0, ValidatorIndex: 0}` is `Hash(64 zero bytes)`, which under
SHA-256 is `f5a5fd42...fb4b`. -/
theorem voluntaryExit_hashTreeRoot (H : HashFn) (v : VoluntaryExit) :
    v.HashTreeRoot H =
      (H.sum ((LE64 v.Epoch ++ List.replicate 24 0)
        ++ (LE64 v.ValidatorIndex ++ List.replicate 24 0)), none) ∧
    VoluntaryExit.HashTreeRoot H ⟨0, 0⟩ = (H.sum (List.replicate 64 0), none) ∧
    VoluntaryExit.HashTreeRoot sha256Hash ⟨0, 0⟩ =
      ([0xf5, 0xa5, 0xfd, 0x42, 0xd1, 0x6a, 0x20, 0x30, 0x27, 0x98, 0xef, 0x6e, 0xd3, 0x09,
        0x97, 0x9b, 0x43, 0x00, 0x3d, 0x23, 0x20, 0xd9, 0xf0, 0xe8, 0xea, 0x98, 0x31, 0xa9,
        0x27, 0x59, 0xfb, 0x4b], none) := by
  refine ⟨?_, ?_, ?_⟩
  · rw [ve_HashTreeRoot_eq, putUint64_eq_LE64, putUint64_eq_LE64]
  · rw [ve_HashTreeRoot_eq]; rfl
  · rw [ve_HashTreeRoot_eq]
    exact congrArg (fun r => (r, none)) sha256_zero_pair

/-- C12. Decode is all-or-nothing: for each record type, every receiver and every
buffer whose length differs from the declared size, `UnmarshalSSZ` returns the size
error and the receiver is exactly as it was before the call. -/
theorem unmarshal_wrong_size_keeps_receiver
    (a : DepositDataNoSignature) (b : DepositData) (s : SigningRoot) (v : VoluntaryExit)
    (buf : List Nat) :
    (buf.length ≠ 88 → a.UnmarshalSSZ buf = (a, some .ErrSize)) ∧
    (buf.length ≠ 184 → b.UnmarshalSSZ buf = (b, some .ErrSize)) ∧
    (buf.length ≠ 64 → s.UnmarshalSSZ buf = (s, some .ErrSize)) ∧
    (buf.length ≠ 16 → v.UnmarshalSSZ buf = (v, some .ErrSize)) := by
  refine ⟨?_, ?_, ?_, ?_⟩
  · intro h; simp [DepositDataNoSignature.UnmarshalSSZ, h]
  · intro h; simp [DepositData.UnmarshalSSZ, h]
  · intro h; simp [SigningRoot.UnmarshalSSZ, h]
  · intro h; simp [VoluntaryExit.UnmarshalSSZ, h]

/-- Witness of C12: a 15-byte buffer is rejected by all four decoders, which leave
the (non-empty) sample receivers as they were. -/
theorem unmarshal_wrong_size_keeps_receiver_witness :
    sampleDDNS.UnmarshalSSZ (List.range 15) = (sampleDDNS, some .ErrSize) ∧
    sampleDD.UnmarshalSSZ (List.range 15) = (sampleDD, some .ErrSize) ∧
    sampleSR.UnmarshalSSZ (List.range 15) = (sampleSR, some .ErrSize) ∧
    sampleVE.UnmarshalSSZ (List.range 15) = (sampleVE, some .ErrSize) :=
  have h := unmarshal_wrong_size_keeps_receiver sampleDDNS sampleDD sampleSR sampleVE
    (List.range 15)
  ⟨h.1 (by decide), h.2.1 (by decide), h.2.2.1 (by decide), h.2.2.2 (by decide)⟩

/-- C13. Appending encode: for a valid record of each type and every destination
buffer, `MarshalSSZTo(buf)` succeeds and returns `buf ++ MarshalSSZ(r)`: the
caller's bytes stay as a prefix and the record's encoding, of the declared size, is
appended. -/
theorem marshalTo_appends_encoding
    (a : DepositDataNoSignature) (b : DepositData) (s : SigningRoot) (v : VoluntaryExit)
    (buf : List Nat)
    (ha : a.PublicKey.len = 48 ∧ a.WithdrawalCredentials.len = 32)
    (hb : b.PublicKey.len = 48 ∧ b.WithdrawalCredentials.len = 32 ∧ b.Signature.len = 96)
    (hs : s.ObjectRoot.len = 32 ∧ s.Domain.len = 32) :
    (a.MarshalSSZTo buf = (buf ++ a.MarshalSSZ.1, none) ∧ a.MarshalSSZ.2 = none ∧
      a.MarshalSSZ.1.length = 88) ∧
    (b.MarshalSSZTo buf = (buf ++ b.MarshalSSZ.1, none) ∧ b.MarshalSSZ.2 = none ∧
      b.MarshalSSZ.1.length = 184) ∧
    (s.MarshalSSZTo buf = (buf ++ s.MarshalSSZ.1, none) ∧ s.MarshalSSZ.2 = none ∧
      s.MarshalSSZ.1.length = 64) ∧
    (v.MarshalSSZTo buf = (buf ++ v.MarshalSSZ.1, none) ∧ v.MarshalSSZ.2 = none ∧
      v.MarshalSSZ.1.length = 16) := by
  refine ⟨?_, ?_, ?_, ?_⟩
  · rw [ddns_MarshalSSZ_valid a ha.1 ha.2, ddns_MarshalSSZTo_valid a buf ha.1 ha.2]
    exact ⟨by simp only [List.append_assoc], rfl,
      (ddns_spans _ _ _ ha.1 ha.2 (putUint64_length _)).1⟩
  · rw [dd_MarshalSSZ_valid b hb.1 hb.2.1 hb.2.2,
      dd_MarshalSSZTo_valid b buf hb.1 hb.2.1 hb.2.2]
    exact ⟨by simp only [List.append_assoc], rfl,
      (dd_spans _ _ _ _ hb.1 hb.2.1 (putUint64_length _) hb.2.2).1⟩
  · rw [sr_MarshalSSZ_valid s hs.1 hs.2, sr_MarshalSSZTo_valid s buf hs.1 hs.2]
    exact ⟨by simp only [List.append_assoc], rfl, (sr_spans _ _ hs.1 hs.2).1⟩
  · rw [ve_MarshalSSZ_eq, ve_MarshalSSZTo_eq]
    exact ⟨by simp only [List.append_assoc], rfl,
      (ve_spans _ _ (putUint64_length _) (putUint64_length _)).1⟩

/-- Witness of C13 at the sample records and the destination `[1, 2, 3]`. -/
theorem marshalTo_appends_encoding_witness :
    (sampleDD.PublicKey.len = 48 ∧ sampleDD.WithdrawalCredentials.len = 32 ∧
      sampleDD.Signature.len = 96) ∧
    sampleDDNS.MarshalSSZTo [1, 2, 3] = ([1, 2, 3] ++ sampleDDNS.MarshalSSZ.1, none) ∧
    sampleDD.MarshalSSZTo [1, 2, 3] = ([1, 2, 3] ++ sampleDD.MarshalSSZ.1, none) ∧
    sampleSR.MarshalSSZTo [1, 2, 3] = ([1, 2, 3] ++ sampleSR.MarshalSSZ.1, none) ∧
    sampleVE.MarshalSSZTo [1, 2, 3] = ([1, 2, 3] ++ sampleVE.MarshalSSZ.1, none) :=
  have h := marshalTo_appends_encoding sampleDDNS sampleDD sampleSR sampleVE [1, 2, 3]
    (by decide) (by decide) (by decide)
  ⟨by decide, h.1.1, h.2.1.1, h.2.2.1.1, h.2.2.2.1⟩

/-- C14. The Merkleizer fails the same way as the Encoder: for every
`DepositDataNoSignature`, `DepositData` and `SigningRoot` and every hash primitive,
`HashTreeRoot` returns the length error if and only if `MarshalSSZ` of the same value
returns it, that is exactly when some byte field's length differs from its declared
length; it then returns the zero array, never a root over the malformed field, and
it succeeds for every valid record. -/
theorem hashTreeRoot_error_iff_marshal_error (H : HashFn)
    (a : DepositDataNoSignature) (b : DepositData) (s : SigningRoot) :
    (((a.HashTreeRoot H).2 = some .ErrBytesLength ↔ a.MarshalSSZ.2 = some .ErrBytesLength) ∧
      ((a.HashTreeRoot H).2 = some .ErrBytesLength ↔
        (a.PublicKey.len ≠ 48 ∨ a.WithdrawalCredentials.len ≠ 32)) ∧
      ((a.HashTreeRoot H).2 = none ↔ a.MarshalSSZ.2 = none) ∧
      ((a.HashTreeRoot H).2 = some .ErrBytesLength → (a.HashTreeRoot H).1 = zeroBytes)) ∧
    (((b.HashTreeRoot H).2 = some .ErrBytesLength ↔ b.MarshalSSZ.2 = some .ErrBytesLength) ∧
      ((b.HashTreeRoot H).2 = some .ErrBytesLength ↔
        (b.PublicKey.len ≠ 48 ∨ b.WithdrawalCredentials.len ≠ 32 ∨ b.Signature.len ≠ 96)) ∧
      ((b.HashTreeRoot H).2 = none ↔ b.MarshalSSZ.2 = none) ∧
      ((b.HashTreeRoot H).2 = some .ErrBytesLength → (b.HashTreeRoot H).1 = zeroBytes)) ∧
    (((s.HashTreeRoot H).2 = some .ErrBytesLength ↔ s.MarshalSSZ.2 = some .ErrBytesLength) ∧
      ((s.HashTreeRoot H).2 = some .ErrBytesLength ↔
        (s.ObjectRoot.len ≠ 32 ∨ s.Domain.len ≠ 32)) ∧
      ((s.HashTreeRoot H).2 = none ↔ s.MarshalSSZ.2 = none) ∧
      ((s.HashTreeRoot H).2 = some .ErrBytesLength → (s.HashTreeRoot H).1 = zeroBytes)) := by
  obtain ⟨ma1, ma2⟩ := ddns_MarshalSSZ_error a
  obtain ⟨mb1, mb2⟩ := dd_MarshalSSZ_error b
  obtain ⟨ms1, ms2⟩ := sr_MarshalSSZ_error s
  obtain ⟨a1, a2, a3⟩ := ddns_HashTreeRoot_error H a
  obtain ⟨b1, b2, b3⟩ := dd_HashTreeRoot_error H b
  obtain ⟨s1, s2, s3⟩ := sr_HashTreeRoot_error H s
  refine ⟨⟨a1.trans ma1.symm, a1, a2.trans ma2.symm, fun h => ?_⟩,
    ⟨b1.trans mb1.symm, b1, b2.trans mb2.symm, fun h => ?_⟩,
    ⟨s1.trans ms1.symm, s1, s2.trans ms2.symm, fun h => ?_⟩⟩
  · rw [a3 (a1.mp h)]
  · rw [b3 (b1.mp h)]
  · rw [s3 (s1.mp h)]

/-- C16. Determinism: for each record type and every hash primitive, `HashTreeRoot`
returns the value of an explicit function of the field values (`rootOf...`: the root
over the fields when the byte fields have their declared lengths, else the zero
array with `ErrBytesLength`), and it does so in every state of the hasher pool: after
any history of earlier uses of the pool, and whichever idle hasher the pool hands
out. So two records with equal field values (equal byte contents and equal integers,
whatever the capacities of their slices) get the same result, the same root or the
same error, also when they are hashed after different histories. -/
theorem hashTreeRoot_deterministic (H : HashFn)
    (a a' : DepositDataNoSignature) (b b' : DepositData) (s s' : SigningRoot)
    (v v' : VoluntaryExit) (history history' : List PoolUse) (pick pick' : Nat)
    (ha : a.PublicKey.data = a'.PublicKey.data ∧
      a.WithdrawalCredentials.data = a'.WithdrawalCredentials.data ∧ a.Amount = a'.Amount)
    (hb : b.PublicKey.data = b'.PublicKey.data ∧
      b.WithdrawalCredentials.data = b'.WithdrawalCredentials.data ∧ b.Amount = b'.Amount ∧
      b.Signature.data = b'.Signature.data)
    (hs : s.ObjectRoot.data = s'.ObjectRoot.data ∧ s.Domain.data = s'.Domain.data)
    (hv : v.Epoch = v'.Epoch ∧ v.ValidatorIndex = v'.ValidatorIndex) :
    (a.HashTreeRoot H = a'.HashTreeRoot H ∧ b.HashTreeRoot H = b'.HashTreeRoot H ∧
      s.HashTreeRoot H = s'.HashTreeRoot H ∧ v.HashTreeRoot H = v'.HashTreeRoot H) ∧
    ((a.HashTreeRootIn H (poolAfter history) pick).1
        = (a'.HashTreeRootIn H (poolAfter history') pick').1 ∧
      (b.HashTreeRootIn H (poolAfter history) pick).1
        = (b'.HashTreeRootIn H (poolAfter history') pick').1 ∧
      (s.HashTreeRootIn H (poolAfter history) pick).1
        = (s'.HashTreeRootIn H (poolAfter history') pick').1 ∧
      (v.HashTreeRootIn H (poolAfter history) pick).1
        = (v'.HashTreeRootIn H (poolAfter history') pick').1) ∧
    ((a.HashTreeRootIn H (poolAfter history) pick).1 = a.HashTreeRoot H ∧
      a.HashTreeRoot H = rootOfDepositDataNoSignature H a.PublicKey.data
        a.WithdrawalCredentials.data a.Amount) ∧
    ((b.HashTreeRootIn H (poolAfter history) pick).1 = b.HashTreeRoot H ∧
      b.HashTreeRoot H = rootOfDepositData H b.PublicKey.data b.WithdrawalCredentials.data
        b.Amount b.Signature.data) ∧
    ((s.HashTreeRootIn H (poolAfter history) pick).1 = s.HashTreeRoot H ∧
      s.HashTreeRoot H = rootOfSigningRoot H s.ObjectRoot.data s.Domain.data) ∧
    ((v.HashTreeRootIn H (poolAfter history) pick).1 = v.HashTreeRoot H ∧
      v.HashTreeRoot H = rootOfVoluntaryExit H v.Epoch v.ValidatorIndex) := by
  have ea : a.HashTreeRoot H = a'.HashTreeRoot H := by
    rw [ddns_HashTreeRoot_rootOf, ddns_HashTreeRoot_rootOf, ha.1, ha.2.1, ha.2.2]
  have eb : b.HashTreeRoot H = b'.HashTreeRoot H := by
    rw [dd_HashTreeRoot_rootOf, dd_HashTreeRoot_rootOf, hb.1, hb.2.1, hb.2.2.1, hb.2.2.2]
  have es : s.HashTreeRoot H = s'.HashTreeRoot H := by
    rw [sr_HashTreeRoot_rootOf, sr_HashTreeRoot_rootOf, hs.1, hs.2]
  have ev : v.HashTreeRoot H = v'.HashTreeRoot H := by
    rw [ve_HashTreeRoot_rootOf, ve_HashTreeRoot_rootOf, hv.1, hv.2]
  have pa : ∀ (x : DepositDataNoSignature) (l : List PoolUse) (p : Nat),
      (x.HashTreeRootIn H (poolAfter l) p).1 = x.HashTreeRoot H :=
    fun x l p => HashWithDefaultHasherIn_poolAfter l p (x.HashTreeRootWith H)
  have pb : ∀ (x : DepositData) (l : List PoolUse) (p : Nat),
      (x.HashTreeRootIn H (poolAfter l) p).1 = x.HashTreeRoot H :=
    fun x l p => HashWithDefaultHasherIn_poolAfter l p (x.HashTreeRootWith H)
  have ps : ∀ (x : SigningRoot) (l : List PoolUse) (p : Nat),
      (x.HashTreeRootIn H (poolAfter l) p).1 = x.HashTreeRoot H :=
    fun x l p => HashWithDefaultHasherIn_poolAfter l p (x.HashTreeRootWith H)
  have pv : ∀ (x : VoluntaryExit) (l : List PoolUse) (p : Nat),
      (x.HashTreeRootIn H (poolAfter l) p).1 = x.HashTreeRoot H :=
    fun x l p => HashWithDefaultHasherIn_poolAfter l p (x.HashTreeRootWith H)
  refine ⟨⟨ea, eb, es, ev⟩, ⟨?_, ?_, ?_, ?_⟩, ⟨pa a history pick, ddns_HashTreeRoot_rootOf H a⟩,
    ⟨pb b history pick, dd_HashTreeRoot_rootOf H b⟩,
    ⟨ps s history pick, sr_HashTreeRoot_rootOf H s⟩,
    ⟨pv v history pick, ve_HashTreeRoot_rootOf H v⟩⟩
  · rw [pa, pa, ea]
  · rw [pb, pb, eb]
  · rw [ps, ps, es]
  · rw [pv, pv, ev]

/-- Witness of C16: a sample record against a copy whose slices have a larger
capacity, the copy hashed after a history of pool uses that put back a hasher with
a filled buffer; and an invalid record against its copy (same error). -/
theorem hashTreeRoot_deterministic_witness :
    (sampleDDNS.HashTreeRootIn sha256Hash (poolAfter []) 0).1
      = (DepositDataNoSignature.HashTreeRootIn sha256Hash
          ⟨⟨List.replicate 48 0, 64, by decide⟩, ⟨List.replicate 32 0, 32, by decide⟩,
            32000000000⟩
          (poolAfter [.get 1, .hash 0 (sampleDD.HashTreeRootWith sha256Hash),
            .put ⟨[1, 2, 3]⟩, .hash 0 (fun hh => (⟨hh.buf ++ [9]⟩, none))]) 1).1 ∧
    SigningRoot.HashTreeRoot sha256Hash ⟨Slice.ofList [1], Slice.nil⟩
      = SigningRoot.HashTreeRoot sha256Hash ⟨⟨[1], 8, by decide⟩, Slice.make 32⟩ ∧
    SigningRoot.HashTreeRoot sha256Hash ⟨Slice.ofList [1], Slice.nil⟩
      = (List.replicate 32 0, some .ErrBytesLength) :=
  have h := hashTreeRoot_deterministic sha256Hash sampleDDNS
    ⟨⟨List.replicate 48 0, 64, by decide⟩, ⟨List.replicate 32 0, 32, by decide⟩, 32000000000⟩
    sampleDD sampleDD ⟨Slice.ofList [1], Slice.nil⟩ ⟨⟨[1], 8, by decide⟩, Slice.make 32⟩
    sampleVE sampleVE []
    [.get 1, .hash 0 (sampleDD.HashTreeRootWith sha256Hash), .put ⟨[1, 2, 3]⟩,
      .hash 0 (fun hh => (⟨hh.buf ++ [9]⟩, none))] 0 1
    ⟨rfl, rfl, rfl⟩ ⟨rfl, rfl, rfl, rfl⟩ ⟨rfl, rfl⟩ ⟨rfl, rfl⟩
  ⟨h.2.1.1, h.1.2.2.1, h.2.2.2.2.1.2⟩

/-- C17. Reverse round trip: for each record type and every buffer of exactly the
declared size (of bytes), `UnmarshalSSZ` into the zero record succeeds, the decoded
record is valid (byte fields of their declared lengths, integers below `2 ^ 64`), and
`MarshalSSZ` of it succeeds and returns exactly the buffer. -/
theorem unmarshal_marshal_roundtrip (b1 b2 b3 b4 : List Nat)
    (h1 : b1.length = 88 ∧ ∀ x ∈ b1, x < 256) (h2 : b2.length = 184 ∧ ∀ x ∈ b2, x < 256)
    (h3 : b3.length = 64) (h4 : b4.length = 16 ∧ ∀ x ∈ b4, x < 256) :
    ((DepositDataNoSignature.zero.UnmarshalSSZ b1).2 = none ∧
      (DepositDataNoSignature.zero.UnmarshalSSZ b1).1.PublicKey.len = 48 ∧
      (DepositDataNoSignature.zero.UnmarshalSSZ b1).1.WithdrawalCredentials.len = 32 ∧
      (DepositDataNoSignature.zero.UnmarshalSSZ b1).1.Amount < 2 ^ 64 ∧
      (DepositDataNoSignature.zero.UnmarshalSSZ b1).1.MarshalSSZ = (b1, none)) ∧
    ((DepositData.zero.UnmarshalSSZ b2).2 = none ∧
      (DepositData.zero.UnmarshalSSZ b2).1.PublicKey.len = 48 ∧
      (DepositData.zero.UnmarshalSSZ b2).1.WithdrawalCredentials.len = 32 ∧
      (DepositData.zero.UnmarshalSSZ b2).1.Amount < 2 ^ 64 ∧
      (DepositData.zero.UnmarshalSSZ b2).1.Signature.len = 96 ∧
      (DepositData.zero.UnmarshalSSZ b2).1.MarshalSSZ = (b2, none)) ∧
    ((SigningRoot.zero.UnmarshalSSZ b3).2 = none ∧
      (SigningRoot.zero.UnmarshalSSZ b3).1.ObjectRoot.len = 32 ∧
      (SigningRoot.zero.UnmarshalSSZ b3).1.Domain.len = 32 ∧
      (SigningRoot.zero.UnmarshalSSZ b3).1.MarshalSSZ = (b3, none)) ∧
    ((VoluntaryExit.zero.UnmarshalSSZ b4).2 = none ∧
      (VoluntaryExit.zero.UnmarshalSSZ b4).1.Epoch < 2 ^ 64 ∧
      (VoluntaryExit.zero.UnmarshalSSZ b4).1.ValidatorIndex < 2 ^ 64 ∧
      (VoluntaryExit.zero.UnmarshalSSZ b4).1.MarshalSSZ = (b4, none)) := by
  have re (buf : List Nat) (lo hi : Nat) (hh : hi ≤ buf.length) (hd : hi - lo = 8)
      (hx : ∀ x ∈ buf, x < 256) :
      putUint64 (UnmarshallUint64 (sub buf lo hi)) = sub buf lo hi ∧
      UnmarshallUint64 (sub buf lo hi) < 2 ^ 64 :=
    ⟨putUint64_UnmarshallUint64 _ (by rw [sub_length _ _ _ hh, hd])
        (fun x hxs => hx x (mem_sub hxs)),
      UnmarshallUint64_lt _ (by rw [sub_length _ _ _ hh, hd])
        (fun x hxs => hx x (mem_sub hxs))⟩
  refine ⟨?_, ?_, ?_, ?_⟩
  · obtain ⟨u0, u1, u2, u3⟩ := ddns_UnmarshalSSZ_exact .zero b1 h1.1
    have e1 : (DepositDataNoSignature.zero.UnmarshalSSZ b1).1.PublicKey.data = sub b1 0 48 := u1
    have e2 : (DepositDataNoSignature.zero.UnmarshalSSZ b1).1.WithdrawalCredentials.data
        = sub b1 48 80 := u2
    have l1 : (DepositDataNoSignature.zero.UnmarshalSSZ b1).1.PublicKey.len = 48 := by
      rw [Slice.len, e1, sub_length _ _ _ (by omega)]
    have l2 : (DepositDataNoSignature.zero.UnmarshalSSZ b1).1.WithdrawalCredentials.len = 32 := by
      rw [Slice.len, e2, sub_length _ _ _ (by omega)]
    obtain ⟨r1, r2⟩ := re b1 80 88 (by omega) rfl h1.2
    refine ⟨u0, l1, l2, by rw [u3]; exact r2, ?_⟩
    rw [ddns_MarshalSSZ_valid _ l1 l2, e1, e2, u3, r1,
      sub_append_sub _ _ _ _ (by decide) (by decide) (by omega),
      sub_append_sub _ _ _ _ (by decide) (by decide) (by omega), sub_full _ _ h1.1]
  · obtain ⟨u0, u1, u2, u3, u4⟩ := dd_UnmarshalSSZ_exact .zero b2 h2.1
    have e1 : (DepositData.zero.UnmarshalSSZ b2).1.PublicKey.data = sub b2 0 48 := u1
    have e2 : (DepositData.zero.UnmarshalSSZ b2).1.WithdrawalCredentials.data
        = sub b2 48 80 := u2
    have e4 : (DepositData.zero.UnmarshalSSZ b2).1.Signature.data = sub b2 88 184 := u4
    have l1 : (DepositData.zero.UnmarshalSSZ b2).1.PublicKey.len = 48 := by
      rw [Slice.len, e1, sub_length _ _ _ (by omega)]
    have l2 : (DepositData.zero.UnmarshalSSZ b2).1.WithdrawalCredentials.len = 32 := by
      rw [Slice.len, e2, sub_length _ _ _ (by omega)]
    have l4 : (DepositData.zero.UnmarshalSSZ b2).1.Signature.len = 96 := by
      rw [Slice.len, e4, sub_length _ _ _ (by omega)]
    obtain ⟨r1, r2⟩ := re b2 80 88 (by omega) rfl h2.2
    refine ⟨u0, l1, l2, by rw [u3]; exact r2, l4, ?_⟩
    rw [dd_MarshalSSZ_valid _ l1 l2 l4, e1, e2, e4, u3, r1,
      sub_append_sub _ _ _ _ (by decide) (by decide) (by omega),
      sub_append_sub _ _ _ _ (by decide) (by decide) (by omega),
      sub_append_sub _ _ _ _ (by decide) (by decide) (by omega), sub_full _ _ h2.1]
  · obtain ⟨u0, u1, u2⟩ := sr_UnmarshalSSZ_exact .zero b3 h3
    have e1 : (SigningRoot.zero.UnmarshalSSZ b3).1.ObjectRoot.data = sub b3 0 32 := u1
    have e2 : (SigningRoot.zero.UnmarshalSSZ b3).1.Domain.data = sub b3 32 64 := u2
    have l1 : (SigningRoot.zero.UnmarshalSSZ b3).1.ObjectRoot.len = 32 := by
      rw [Slice.len, e1, sub_length _ _ _ (by omega)]
    have l2 : (SigningRoot.zero.UnmarshalSSZ b3).1.Domain.len = 32 := by
      rw [Slice.len, e2, sub_length _ _ _ (by omega)]
    refine ⟨u0, l1, l2, ?_⟩
    rw [sr_MarshalSSZ_valid _ l1 l2, e1, e2,
      sub_append_sub _ _ _ _ (by decide) (by decide) (by omega), sub_full _ _ h3]
  · obtain ⟨r1, r2⟩ := re b4 0 8 (by omega) rfl h4.2
    obtain ⟨r3, r4⟩ := re b4 8 16 (by omega) rfl h4.2
    rw [ve_UnmarshalSSZ_exact _ _ h4.1]
    refine ⟨rfl, r2, r4, ?_⟩
    rw [ve_MarshalSSZ_eq]
    show (putUint64 (UnmarshallUint64 (sub b4 0 8))
      ++ putUint64 (UnmarshallUint64 (sub b4 8 16)), none) = (b4, none)
    rw [r1, r3, sub_append_sub _ _ _ _ (by decide) (by decide) (by omega), sub_full _ _ h4.1]

set_option maxRecDepth 8000 in
/-- Witness of C17 at the buffers `0, 1, ..., n - 1`. -/
theorem unmarshal_marshal_roundtrip_witness :
    ((List.range 88).length = 88 ∧ ∀ x ∈ List.range 88, x < 256) ∧
    (DepositDataNoSignature.zero.UnmarshalSSZ (List.range 88)).1.MarshalSSZ
      = (List.range 88, none) ∧
    (DepositData.zero.UnmarshalSSZ (List.range 184)).1.MarshalSSZ = (List.range 184, none) ∧
    (SigningRoot.zero.UnmarshalSSZ (List.range 64)).1.MarshalSSZ = (List.range 64, none) ∧
    (VoluntaryExit.zero.UnmarshalSSZ (List.range 16)).1.MarshalSSZ = (List.range 16, none) :=
  have h := unmarshal_marshal_roundtrip (List.range 88) (List.range 184) (List.range 64)
    (List.range 16) (by decide) (by decide) (by decide) (by decide)
  ⟨by decide, h.1.2.2.2.2, h.2.1.2.2.2.2.2, h.2.2.1.2.2.2, h.2.2.2.2.2.2⟩

/-- A hasher buffer that got one root appended: prefix, length and suffix. -/
theorem appended_root_parts (p root : List Nat) (hlen : root.length = 32) :
    (p ++ root).take p.length = p ∧ (p ++ root).length = p.length + 32 ∧
    (p ++ root).drop p.length = root := by
  refine ⟨List.take_left' rfl, ?_, List.drop_left' rfl⟩
  rw [List.length_append, hlen]

/-- C18. `HashTreeRootWith` is local to its own leaves: for a valid record of each
type, every hash primitive and every hasher, whatever its buffer already holds (`n`
bytes, a multiple of 32 or not), `HashTreeRootWith` succeeds, the first `n` bytes of
the buffer are unchanged, the buffer has length `n + 32`, and its last 32 bytes are
the root that `HashTreeRoot` returns, without error, for the same record. -/
theorem hashTreeRootWith_appends_root (H : HashFn) (hh : Hasher)
    (a : DepositDataNoSignature) (b : DepositData) (s : SigningRoot) (v : VoluntaryExit)
    (ha : a.PublicKey.len = 48 ∧ a.WithdrawalCredentials.len = 32)
    (hb : b.PublicKey.len = 48 ∧ b.WithdrawalCredentials.len = 32 ∧ b.Signature.len = 96)
    (hs : s.ObjectRoot.len = 32 ∧ s.Domain.len = 32) :
    ((a.HashTreeRootWith H hh).2 = none ∧ (a.HashTreeRoot H).2 = none ∧
      (a.HashTreeRootWith H hh).1.buf.take hh.buf.length = hh.buf ∧
      (a.HashTreeRootWith H hh).1.buf.length = hh.buf.length + 32 ∧
      (a.HashTreeRootWith H hh).1.buf.drop hh.buf.length = (a.HashTreeRoot H).1) ∧
    ((b.HashTreeRootWith H hh).2 = none ∧ (b.HashTreeRoot H).2 = none ∧
      (b.HashTreeRootWith H hh).1.buf.take hh.buf.length = hh.buf ∧
      (b.HashTreeRootWith H hh).1.buf.length = hh.buf.length + 32 ∧
      (b.HashTreeRootWith H hh).1.buf.drop hh.buf.length = (b.HashTreeRoot H).1) ∧
    ((s.HashTreeRootWith H hh).2 = none ∧ (s.HashTreeRoot H).2 = none ∧
      (s.HashTreeRootWith H hh).1.buf.take hh.buf.length = hh.buf ∧
      (s.HashTreeRootWith H hh).1.buf.length = hh.buf.length + 32 ∧
      (s.HashTreeRootWith H hh).1.buf.drop hh.buf.length = (s.HashTreeRoot H).1) ∧
    ((v.HashTreeRootWith H hh).2 = none ∧ (v.HashTreeRoot H).2 = none ∧
      (v.HashTreeRootWith H hh).1.buf.take hh.buf.length = hh.buf ∧
      (v.HashTreeRootWith H hh).1.buf.length = hh.buf.length + 32 ∧
      (v.HashTreeRootWith H hh).1.buf.drop hh.buf.length = (v.HashTreeRoot H).1) := by
  refine ⟨?_, ?_, ?_, ?_⟩
  · rw [ddns_HashTreeRootWith_valid H a hh ha.1 ha.2, ddns_HashTreeRoot_valid H a ha.1 ha.2]
    obtain ⟨p1, p2, p3⟩ := appended_root_parts hh.buf _ (H.sum_length _)
    exact ⟨rfl, rfl, p1, p2, p3⟩
  · rw [dd_HashTreeRootWith_valid H b hh hb.1 hb.2.1 hb.2.2,
      dd_HashTreeRoot_valid H b hb.1 hb.2.1 hb.2.2]
    obtain ⟨p1, p2, p3⟩ := appended_root_parts hh.buf _ (H.sum_length _)
    exact ⟨rfl, rfl, p1, p2, p3⟩
  · rw [sr_HashTreeRootWith_valid H s hh hs.1 hs.2, sr_HashTreeRoot_valid H s hs.1 hs.2]
    obtain ⟨p1, p2, p3⟩ := appended_root_parts hh.buf _ (H.sum_length _)
    exact ⟨rfl, rfl, p1, p2, p3⟩
  · rw [ve_HashTreeRootWith_eq H v hh, ve_HashTreeRoot_eq H v]
    obtain ⟨p1, p2, p3⟩ := appended_root_parts hh.buf _ (H.sum_length _)
    exact ⟨rfl, rfl, p1, p2, p3⟩

/-- Witness of C18: the sample records on a hasher that already holds two chunks. -/
theorem hashTreeRootWith_appends_root_witness :
    (sampleDD.PublicKey.len = 48 ∧ sampleDD.WithdrawalCredentials.len = 32 ∧
      sampleDD.Signature.len = 96) ∧
    (sampleDD.HashTreeRootWith sha256Hash ⟨List.range 64⟩).1.buf.take 64 = List.range 64 ∧
    (sampleDD.HashTreeRootWith sha256Hash ⟨List.range 64⟩).1.buf.length = 64 + 32 ∧
    (sampleDD.HashTreeRootWith sha256Hash ⟨List.range 64⟩).1.buf.drop 64
      = (sampleDD.HashTreeRoot sha256Hash).1 :=
  have h := hashTreeRootWith_appends_root sha256Hash ⟨List.range 64⟩ sampleDDNS sampleDD
    sampleSR sampleVE (by decide) (by decide) (by decide)
  ⟨by decide, h.2.1.2.2.1, h.2.1.2.2.2.1, h.2.1.2.2.2.2⟩

/-- C19. `VoluntaryExit` has no failure path on the output side: for every value,
destination buffer, hasher and hash primitive, `MarshalSSZTo`, `MarshalSSZ`,
`HashTreeRootWith` and `HashTreeRoot` return no error; `UnmarshalSSZ` returns no
error or the size error, the latter exactly for a buffer whose length is not 16. -/
theorem voluntaryExit_only_size_error (H : HashFn) (v : VoluntaryExit) (buf : List Nat)
    (hh : Hasher) :
    (v.MarshalSSZTo buf).2 = none ∧ v.MarshalSSZ.2 = none ∧
    (v.HashTreeRootWith H hh).2 = none ∧ (v.HashTreeRoot H).2 = none ∧
    ((v.UnmarshalSSZ buf).2 = none ∨ (v.UnmarshalSSZ buf).2 = some .ErrSize) ∧
    ((v.UnmarshalSSZ buf).2 = some .ErrSize ↔ buf.length ≠ 16) := by
  refine ⟨by rw [ve_MarshalSSZTo_eq], by rw [ve_MarshalSSZ_eq],
    by rw [ve_HashTreeRootWith_eq], by rw [ve_HashTreeRoot_eq], ?_, ?_⟩
  · by_cases h : buf.length = 16 <;> simp [VoluntaryExit.UnmarshalSSZ, h]
  · by_cases h : buf.length = 16 <;> simp [VoluntaryExit.UnmarshalSSZ, h]

end Eth2

namespace Deposit

/-- C20. `makeDeposit` never moves funds when completion is not allowed: in every run,
a call of `exchange.BuyTokens`, `node.SendFromNode` or `deposit.CompleteDeposit` is
made only if the user answered `1` at the action prompt and `CanCompleteDeposit`
succeeded with `DepositsDisabled`, `MinipoolCreationDisabled` and
`InsufficientNodeEtherBalance` all false; and a call of `BuyTokens` only if, in
addition, `RplShortByWei > 0`, the exchange's token balance is at least
`RplShortByWei`, the node account's ether balance (of the deposit status in effect) is
at least `EtherRequiredWei + MaxEtherPriceWei`, and the confirmation answer does not
begin with `n` or `N`. -/
theorem makeDeposit_moves_funds_only_when_allowed (env : Env) (durationId : String)
    (c : Call) (h : c ∈ (makeDeposit env durationId).1) (hc : c.movesFunds = true) :
    env.actionAnswer = "1" ∧
    ∃ cc, env.CanCompleteDeposit = some cc ∧ cc.DepositsDisabled = false ∧
      cc.MinipoolCreationDisabled = false ∧ cc.InsufficientNodeEtherBalance = false ∧
      (c.isBuyTokens = true →
        0 < cc.RplShortByWei ∧
        ∃ liquidity price status, env.GetTokenLiquidity = some liquidity ∧
          cc.RplShortByWei ≤ liquidity.ExchangeTokenBalanceWei ∧
          env.GetTokenPrice cc.RplShortByWei = some price ∧
          ((env.GetDepositStatus 0 = some status ∧ status.ReservationExists = true) ∨
            (∃ st0, env.GetDepositStatus 0 = some st0 ∧ st0.ReservationExists = false ∧
              env.GetDepositStatus 1 = some status)) ∧
          cc.EtherRequiredWei + price.MaxEtherPriceWei ≤ status.NodeAccountBalanceEtherWei ∧
          ¬ (env.confirmAnswer.data.head? = some 'n' ∨
            env.confirmAnswer.data.head? = some 'N')) := by
  obtain ⟨status, t, ht, hmem, hstatus⟩ := makeDeposit_movesFunds env durationId c h hc
  obtain ⟨hanswer, hmem'⟩ := promptAction_movesFunds env status t ht c hmem hc
  obtain ⟨cc, h1, h2, h3, h4, h5⟩ := completeDeposit_movesFunds env status _
    (no_funds_append t .PromptAction ht rfl) c hmem' hc
  refine ⟨hanswer, cc, h1, h2, h3, h4, fun hb => ?_⟩
  obtain ⟨g1, liquidity, price, g2, g3, g4, g5, g6⟩ := h5 hb
  exact ⟨g1, liquidity, price, status, g2, g3, g4, hstatus, g5, g6⟩

/-- Witness of C20: in the sample run `BuyTokens` is called, and the conditions hold. -/
theorem makeDeposit_moves_funds_only_when_allowed_witness :
    (Call.BuyTokens 3 5 ∈ (makeDeposit sampleEnv "3m").1 ∧
      (Call.BuyTokens 3 5).movesFunds = true) ∧
    sampleEnv.actionAnswer = "1" :=
  ⟨by decide,
    (makeDeposit_moves_funds_only_when_allowed sampleEnv "3m" (.BuyTokens 3 5)
      (by decide) (by decide)).1⟩

end Deposit

namespace Rocketpool

/-- C21. `RplPrice` never returns nil amounts on success: whenever `Client.RplPrice`
returns a nil error, `RplPrice`, `MinPerMinipoolRplStake` and
`MaxPerMinipoolRplStake` of the response are all non-nil; each of them that was nil in
the decoded response is 0, and each that was present is returned unchanged. -/
theorem rplPrice_success_amounts_non_nil {α : Type} [Inhabited α] (c : Client)
    (j : List Nat → RplPriceResponse α × Option String) (h : (c.RplPrice j).2 = none) :
    ((c.RplPrice j).1.RplPrice ≠ none ∧ (c.RplPrice j).1.MinPerMinipoolRplStake ≠ none ∧
      (c.RplPrice j).1.MaxPerMinipoolRplStake ≠ none) ∧
    (((j (c.callAPI "network rpl-price").1).1.RplPrice = none →
        (c.RplPrice j).1.RplPrice = some 0) ∧
      ((j (c.callAPI "network rpl-price").1).1.MinPerMinipoolRplStake = none →
        (c.RplPrice j).1.MinPerMinipoolRplStake = some 0) ∧
      ((j (c.callAPI "network rpl-price").1).1.MaxPerMinipoolRplStake = none →
        (c.RplPrice j).1.MaxPerMinipoolRplStake = some 0)) ∧
    ((∀ x, (j (c.callAPI "network rpl-price").1).1.RplPrice = some x →
        (c.RplPrice j).1.RplPrice = some x) ∧
      (∀ x, (j (c.callAPI "network rpl-price").1).1.MinPerMinipoolRplStake = some x →
        (c.RplPrice j).1.MinPerMinipoolRplStake = some x) ∧
      (∀ x, (j (c.callAPI "network rpl-price").1).1.MaxPerMinipoolRplStake = some x →
        (c.RplPrice j).1.MaxPerMinipoolRplStake = some x)) := by
  rw [RplPrice_success c j h]
  refine ⟨⟨by simp, by simp, by simp⟩, ⟨?_, ?_, ?_⟩, ⟨?_, ?_, ?_⟩⟩
  · intro h0; simp [h0]
  · intro h0; simp [h0]
  · intro h0; simp [h0]
  · intro x h0; simp [h0]
  · intro x h0; simp [h0]
  · intro x h0; simp [h0]

/-- Witness of C21: the sample decoder gives the price 7 and no stakes; the call
succeeds and returns the price 7 and the stakes 0. -/
theorem rplPrice_success_amounts_non_nil_witness :
    (sampleClient.RplPrice sampleRplPriceJson).2 = none ∧
    (sampleClient.RplPrice sampleRplPriceJson).1.RplPrice = some 7 ∧
    (sampleClient.RplPrice sampleRplPriceJson).1.MinPerMinipoolRplStake = some 0 ∧
    (sampleClient.RplPrice sampleRplPriceJson).1.MaxPerMinipoolRplStake = some 0 :=
  have h := rplPrice_success_amounts_non_nil sampleClient sampleRplPriceJson (by decide)
  ⟨by decide, h.2.2.1 7 (by decide), h.2.1.2.1 (by decide), h.2.1.2.2 (by decide)⟩

/-- C22. The network calls report a daemon-side error as a failure with an empty
response: each of `NodeFee`, `RplPrice`, `NetworkStats`, `TimezoneMap`,
`CanGenerateRewardsTree`, `GenerateRewardsTree` and `GetActiveDAOProposals` returns a
non-nil error if and only if `callAPI` failed, `json.Unmarshal` of the response bytes
failed, or the `Error` field of the decoded response is non-empty; and whenever it
returns a non-nil error, the response it returns is the zero value of its type. -/
theorem network_calls_error_iff_and_zero_response
    {α1 α2 α3 α4 α5 α6 α7 : Type} [Inhabited α1] [Inhabited α2] [Inhabited α3]
    [Inhabited α4] [Inhabited α5] [Inhabited α6] [Inhabited α7] (c : Client) (index : Nat)
    (j1 : List Nat → ApiResponse α1 × Option String)
    (j2 : List Nat → RplPriceResponse α2 × Option String)
    (j3 : List Nat → ApiResponse α3 × Option String)
    (j4 : List Nat → ApiResponse α4 × Option String)
    (j5 : List Nat → ApiResponse α5 × Option String)
    (j6 : List Nat → ApiResponse α6 × Option String)
    (j7 : List Nat → ApiResponse α7 × Option String) :
    (((c.NodeFee j1).2 ≠ none ↔
        ((c.callAPI "network node-fee").2 ≠ none ∨
          (j1 (c.callAPI "network node-fee").1).2 ≠ none ∨
          (j1 (c.callAPI "network node-fee").1).1.Error ≠ "")) ∧
      ((c.NodeFee j1).2 ≠ none → (c.NodeFee j1).1 = ApiResponse.zero)) ∧
    (((c.RplPrice j2).2 ≠ none ↔
        ((c.callAPI "network rpl-price").2 ≠ none ∨
          (j2 (c.callAPI "network rpl-price").1).2 ≠ none ∨
          (j2 (c.callAPI "network rpl-price").1).1.Error ≠ "")) ∧
      ((c.RplPrice j2).2 ≠ none → (c.RplPrice j2).1 = RplPriceResponse.zero)) ∧
    (((c.NetworkStats j3).2 ≠ none ↔
        ((c.callAPI "network stats").2 ≠ none ∨
          (j3 (c.callAPI "network stats").1).2 ≠ none ∨
          (j3 (c.callAPI "network stats").1).1.Error ≠ "")) ∧
      ((c.NetworkStats j3).2 ≠ none → (c.NetworkStats j3).1 = ApiResponse.zero)) ∧
    (((c.TimezoneMap j4).2 ≠ none ↔
        ((c.callAPI "network timezone-map").2 ≠ none ∨
          (j4 (c.callAPI "network timezone-map").1).2 ≠ none ∨
          (j4 (c.callAPI "network timezone-map").1).1.Error ≠ "")) ∧
      ((c.TimezoneMap j4).2 ≠ none → (c.TimezoneMap j4).1 = ApiResponse.zero)) ∧
    (((c.CanGenerateRewardsTree index j5).2 ≠ none ↔
        ((c.callAPI ("network can-generate-rewards-tree " ++ toString index)).2 ≠ none ∨
          (j5 (c.callAPI ("network can-generate-rewards-tree " ++ toString index)).1).2
            ≠ none ∨
          (j5 (c.callAPI ("network can-generate-rewards-tree " ++ toString index)).1).1.Error
            ≠ "")) ∧
      ((c.CanGenerateRewardsTree index j5).2 ≠ none →
        (c.CanGenerateRewardsTree index j5).1 = ApiResponse.zero)) ∧
    (((c.GenerateRewardsTree index j6).2 ≠ none ↔
        ((c.callAPI ("network generate-rewards-tree " ++ toString index)).2 ≠ none ∨
          (j6 (c.callAPI ("network generate-rewards-tree " ++ toString index)).1).2 ≠ none ∨
          (j6 (c.callAPI ("network generate-rewards-tree " ++ toString index)).1).1.Error
            ≠ "")) ∧
      ((c.GenerateRewardsTree index j6).2 ≠ none →
        (c.GenerateRewardsTree index j6).1 = ApiResponse.zero)) ∧
    (((c.GetActiveDAOProposals j7).2 ≠ none ↔
        ((c.callAPI "network dao-proposals").2 ≠ none ∨
          (j7 (c.callAPI "network dao-proposals").1).2 ≠ none ∨
          (j7 (c.callAPI "network dao-proposals").1).1.Error ≠ "")) ∧
      ((c.GetActiveDAOProposals j7).2 ≠ none →
        (c.GetActiveDAOProposals j7).1 = ApiResponse.zero)) := by
  obtain ⟨a1, a2, _⟩ := NodeFee_error c j1
  obtain ⟨b1, b2⟩ := RplPrice_error c j2
  obtain ⟨c1, c2, _⟩ := NetworkStats_error c j3
  obtain ⟨d1, d2, _⟩ := TimezoneMap_error c j4
  obtain ⟨e1, e2, _⟩ := CanGenerateRewardsTree_error c index j5
  obtain ⟨f1, f2, _⟩ := GenerateRewardsTree_error c index j6
  obtain ⟨g1, g2, _⟩ := GetActiveDAOProposals_error c j7
  exact ⟨⟨a1, a2⟩, ⟨b1, b2⟩, ⟨c1, c2⟩, ⟨d1, d2⟩, ⟨e1, e2⟩, ⟨f1, f2⟩, ⟨g1, g2⟩⟩

/-- Witness of C22: a decoded response that carries the daemon error `boom` next to
data makes `NodeFee` and `CanGenerateRewardsTree` fail with the zero response; a
response with an empty `Error` is returned as decoded. -/
theorem network_calls_error_iff_and_zero_response_witness :
    sampleClient.NodeFee sampleErrorJson
      = (ApiResponse.zero, some "Could not get network node fee: boom") ∧
    (sampleClient.CanGenerateRewardsTree 12 sampleErrorJson).1 = ApiResponse.zero ∧
    sampleClient.NetworkStats (fun _ => ((⟨"", 42⟩ : ApiResponse Nat), none))
      = (⟨"", 42⟩, none) :=
  have h := network_calls_error_iff_and_zero_response sampleClient 12 sampleErrorJson
    sampleRplPriceJson sampleErrorJson sampleErrorJson sampleErrorJson sampleErrorJson
    sampleErrorJson
  ⟨by decide, h.2.2.2.2.1.2 (by decide), by decide⟩

end Rocketpool
